import Mathlib

/-!
# InspIRCd: user manager, extension map, ports engine and string helpers

A shallow embedding of `src/usermanager.cpp`, of the `Extensible` and `BoolSet`
parts of `src/base.cpp`, of `src/socketengines/socketengine_ports.cpp`, of the
helpers `trim` and `SearchAndReplace` of `include/hashcomp.h` and of
`src/cmd_gline.cpp`, followed by the properties proved about them.

Conventions of the embedding

* Associative containers (`std::map`, the `user_hash` hash map) are lists of
  `(key, value)` entries.  The functions below are the container operations the
  source uses (`find`, `erase`, `operator[]`); they are parametrised by `norm`,
  the function under which the container compares keys (`id` for an ordinary
  `std::map`, the case fold for `user_hash`).  A container of the program never
  holds two entries with equivalent keys; that property is `KeysUnique`.
* `unsigned int` values are natural numbers below `UINT_MOD`; `++`, `--` and `-=`
  wrap modulo `UINT_MOD` (`uinc`, `udec`, `usub`, whose agreement with the
  remainder form is `uinc_eq_mod`, `udec_eq_mod`, `usub_eq_mod`).
* `User*` pointers are indices into the list of allocated user objects.
* Calls that leave `usermanager.cpp` (module hooks, the socket engine, the
  channel code) are recorded, in order, in the `Trace` of the server.
* `std::string` values handled character by character are lists of characters.
* `int` masks of event flags are natural numbers; `mask &= ~flags` is
  `Nat.ldiff mask flags`.
-/

namespace InspIRCd

/-! ## Containers -/

section Container

variable {κ ν α : Type} [DecidableEq α]

/-- The container lookup `m.find(k)`: the value of the entry whose key is
equivalent to `k`, or `none` for `m.end()`. -/
def find (norm : κ → α) : List (κ × ν) → κ → Option ν
  | [], _ => none
  | (k', v) :: rest, k => if norm k' = norm k then some v else find norm rest k

/-- The container removal `m.erase(it)` / `m.erase(k)` for the entry found under
`k`: that entry is removed, nothing happens when there is none. -/
def erase (norm : κ → α) : List (κ × ν) → κ → List (κ × ν)
  | [], _ => []
  | (k', v) :: rest, k => if norm k' = norm k then rest else (k', v) :: erase norm rest k

/-- The assignment `m[k] = v` (also `it->second = v` for the entry found under
`k`): the value of the existing entry is replaced, a new entry is created when
there is none. -/
def assign (norm : κ → α) : List (κ × ν) → κ → ν → List (κ × ν)
  | [], k, v => [(k, v)]
  | (k', v') :: rest, k, v =>
    if norm k' = norm k then (k', v) :: rest else (k', v') :: assign norm rest k v

/-- No two entries of the container have equivalent keys. -/
def KeysUnique (norm : κ → α) (m : List (κ × ν)) : Prop :=
  (m.map (fun e => norm e.1)).Nodup

instance (norm : κ → α) (m : List (κ × ν)) : Decidable (KeysUnique norm m) :=
  inferInstanceAs (Decidable (List.Nodup (m.map (fun (e : κ × ν) => norm e.1))))

end Container

/-! ## Machine integers -/

/-- The modulus of `unsigned int` arithmetic (32 bits). -/
def UINT_MOD : Nat := 4294967296

/-- The largest `unsigned int`. -/
def UINT_MAX : Nat := 4294967295

/-- The operation `x++` on an `unsigned int`: the successor modulo `UINT_MOD`,
so `UINT_MAX` wraps to 0. -/
def uinc (x : Nat) : Nat := if x = UINT_MAX then 0 else x + 1

/-- The operation `x--` on an `unsigned int`: the predecessor modulo
`UINT_MOD`, so 0 wraps to `UINT_MAX`. -/
def udec (x : Nat) : Nat := if x = 0 then UINT_MAX else x - 1

/-- The operation `x -= y` on `unsigned int` operands: the difference modulo
`UINT_MOD`, which wraps when `y` exceeds `x`. -/
def usub (x y : Nat) : Nat := if y ≤ x then x - y else x + UINT_MOD - y

/-! ## Extensible (base.cpp) -/

/-- The member `Extension_Items` of `Extensible`, a
`std::map<std::string, char*>`; a `char*` handle is its address. -/
abbrev ExtensibleStore := List (String × Nat)

/-- The null pointer. -/
def NULL : Nat := 0

/-- The method `Extensible::Extend(key, p)`: returns the new map and the `bool`
result. -/
def Extend (items : ExtensibleStore) (key : String) (p : Nat) : ExtensibleStore × Bool :=
  -- only add an item if it doesnt already exist
  if find id items key = none then
    (assign id items key p, true)
  else
    -- item already exists, return false
    (items, false)

/-- The method `Extensible::Shrink(key)`: returns the new map and the `bool`
result. -/
def Shrink (items : ExtensibleStore) (key : String) : ExtensibleStore × Bool :=
  -- only attempt to remove a map item that exists
  if find id items key ≠ none then
    (erase id items key, true)
  else
    (items, false)

/-- The method `Extensible::GetExt(key)`. -/
def GetExt (items : ExtensibleStore) (key : String) : Nat :=
  match find id items key with
  | some p => p
  | none => NULL

/-! ## Users and the server instance -/

/-- A `User*`: the index of the object among the allocated users. -/
abbrev UserId := Nat

/-- The key of a clone map, `irc::sockets::cidr_mask`, in its textual form. -/
abbrev cidr_mask := String

/-- The registration state of a connection. -/
inductive Registered
  | REG_NONE
  | REG_USER
  | REG_NICK
  | REG_NICKUSER
  | REG_ALL
  deriving DecidableEq, Repr

/-- The kind of object behind a `User*`, what `IS_LOCAL` and `IS_SERVER`
test. -/
inductive UserType
  | USERTYPE_LOCAL
  | USERTYPE_REMOTE
  | USERTYPE_SERVER
  deriving DecidableEq, Repr

/-- The connect class fields read by this file: `GetCommandRate()`,
`GetPingTime()` and `GetRegTimeout()`, all `unsigned int`. -/
structure ConnectClass where
  commandrate : Nat
  pingtime : Nat
  registration_timeout : Nat
  deriving DecidableEq, Repr

/-- A user object; the fields from `MyClass` on belong to `LocalUser`.  `sendq`
holds the lines queued for the connection by `Write`. -/
structure User where
  uuid : String
  nick : String
  ident : String
  host : String
  realhost : String
  ip : String
  cidr : cidr_mask
  usertype : UserType
  registered : Registered
  quitting : Bool
  age : Int
  signon : Int
  MyClass : ConnectClass
  CommandFloodPenalty : Nat
  lastping : Nat
  nping : Int
  exempt : Bool
  sendq : List String
  deriving DecidableEq, Repr

/-- The macro `IS_LOCAL(user)`. -/
def IS_LOCAL (user : User) : Bool := user.usertype = UserType.USERTYPE_LOCAL

/-- The macro `IS_SERVER(user)`. -/
def IS_SERVER (user : User) : Bool := user.usertype = UserType.USERTYPE_SERVER

/-- The accessor `User::GetCIDRMask()`. -/
def GetCIDRMask (user : User) : cidr_mask := user.cidr

/-- A line of the server log: type, whether the level is `LOG_DEBUG` (otherwise
`LOG_DEFAULT`), and text. -/
structure LogLine where
  type : String
  debug : Bool
  text : String
  deriving DecidableEq, Repr

/-- A call that leaves the user manager, as recorded in the trace. -/
inductive Call
  | OnAccept (socket : Int)
  | OnUserQuit (user : UserId) (reason oper_reason : String)
  | WriteCommonQuit (user : UserId) (reason oper_reason : String)
  | OnUserDisconnect (user : UserId)
  | Close (user : UserId)
  | PurgeEmptyChannels (user : UserId)
  | SetClass (user : UserId)
  | CheckClass (user : UserId)
  | Apply (user : UserId)
  | AddFd (user : UserId)
  | OnSetUserIP (user : UserId)
  | OnUserInit (user : UserId)
  | OnDataReady (user : UserId)
  | FullConnect (user : UserId)
  deriving DecidableEq, Repr

/-- The members of `UserManager`.  `user_hash` compares its keys through the
active case map, `clonemap` is a `std::map` from CIDR mask to `unsigned int`. -/
structure UserManager where
  clientlist : List (String × UserId)
  uuidlist : List (String × UserId)
  unregistered_count : Nat
  local_users : List UserId
  local_clones : List (cidr_mask × Nat)
  global_clones : List (cidr_mask × Nat)
  deriving DecidableEq, Repr

/-- The configuration values read by this file. -/
structure ServerConfig where
  ServerName : String
  MaxQuit : Nat
  SoftLimit : Nat
  MaxFds : Nat
  dns_timeout : Int
  RawLog : Bool
  XLineMessage : String
  deriving DecidableEq, Repr

/-- The state reachable through `ServerInstance`: the user manager, the
allocated user objects, the cull list, the log, the server notices and the
trace of outside calls. -/
structure Server where
  Config : ServerConfig
  Users : UserManager
  objects : List User
  GlobalCulls : List UserId
  Logs : List LogLine
  SNO : List (Char × String)
  Trace : List Call
  deriving DecidableEq, Repr

/-- Modelled from the spec: the comparison and hashing of `user_hash` keys is in
`hashcomp.cpp`, which is missing; `fold(bytes, map)` is the element-wise table
lookup, and two keys are the same key when their folds are equal. -/
def fold (casemap : Char → Char) (s : String) : List Char := s.toList.map casemap

/-- The constructor `UserManager::UserManager()`. -/
def UserManager.init : UserManager :=
  { clientlist := [], uuidlist := [], unregistered_count := 0, local_users := [],
    local_clones := [], global_clones := [] }

/-- The server before any connection was accepted. -/
def Server.init (cfg : ServerConfig) : Server :=
  { Config := cfg, Users := UserManager.init, objects := [], GlobalCulls := [],
    Logs := [], SNO := [], Trace := [] }

/-- The call `ServerInstance->Logs->Log(type, level, text)`. -/
def Server.Log (s : Server) (type : String) (debug : Bool) (text : String) : Server :=
  { s with Logs := s.Logs ++ [{ type := type, debug := debug, text := text }] }

/-- The call `ServerInstance->SNO->WriteToSnoMask(letter, text)`. -/
def Server.WriteToSnoMask (s : Server) (letter : Char) (text : String) : Server :=
  { s with SNO := s.SNO ++ [(letter, text)] }

/-- Records a call that leaves the user manager. -/
def Server.call (s : Server) (c : Call) : Server :=
  { s with Trace := s.Trace ++ [c] }

/-- Stores a new value of the object behind a pointer. -/
def Server.store (s : Server) (u : UserId) (user : User) : Server :=
  { s with objects := s.objects.set u user }

/-- Modelled from the spec: `User::Write` is in `users.cpp`, which is missing;
a written line is pushed onto the send queue of the connection. -/
def Write (s : Server) (u : UserId) (line : String) : Server :=
  match s.objects[u]? with
  | none => s
  | some user => s.store u { user with sendq := user.sendq ++ [line] }

/-- Modelled from the spec: `getSendQSize` is in the missing socket code; the
size of the send queue in bytes, each line with its CR-LF. -/
def getSendQSize (user : User) : Nat := (user.sendq.map (fun l => l.length + 2)).sum

/-- Modelled from the spec: `ConvToStr` is in a missing header; the decimal
form of a number, as in "Ping timeout: N seconds". -/
def ConvToStr (n : Int) : String := toString n

/-- The method `User::GetFullRealHost()`: nick!ident@realhost. -/
def GetFullRealHost (user : User) : String :=
  user.nick ++ "!" ++ user.ident ++ "@" ++ user.realhost

/-! ## UserManager (usermanager.cpp) -/

/-- The line `QuitUser` writes to the user before the connection is closed. -/
def closingLink (user : User) (quitreason : String) (operreason : Option String) : String :=
  "ERROR :Closing link: (" ++ user.ident ++ "@" ++ user.host ++ ") ["
    ++ operreason.getD quitreason ++ "]"

/-- The user object after `QuitUser` marked it and wrote the closing line. -/
def quitObject (user : User) (quitreason : String) (operreason : Option String) : User :=
  { user with quitting := true,
              sendq := user.sendq ++ [closingLink user quitreason operreason] }

/-- The server after the first statements of `QuitUser` on a user that is
neither quitting nor a server: the flag is set, the debug line logged, the
closing line written and the user entered into the cull list. -/
def quitMarked (s : Server) (u : UserId) (user : User) (quitreason : String)
    (operreason : Option String) : Server :=
  { s with
    objects := s.objects.set u (quitObject user quitreason operreason),
    Logs := s.Logs ++ [LogLine.mk "USERS" true
      ("QuitUser: " ++ user.uuid ++ "=" ++ user.nick ++ " '" ++ quitreason ++ "'")],
    GlobalCulls := s.GlobalCulls ++ [u] }

/-- The part of `QuitUser` that tells the modules and the common channels about
the quit of a registered user, or else lowers `unregistered_count`. -/
def QuitUser.announce (s : Server) (u : UserId) (user : User) (reason operreason : String) :
    Server :=
  if user.registered = Registered.REG_ALL then
    (s.call (Call.OnUserQuit u reason operreason)).call
      (Call.WriteCommonQuit u reason operreason)
  else
    { s with Users := { s.Users with
        unregistered_count := udec s.Users.unregistered_count } }

/-- The part of `QuitUser` for a local user: the disconnect hook, the close of
the IO handler and the server notice on mask q. -/
def QuitUser.disconnect (s : Server) (u : UserId) (user : User) (operreason : String) :
    Server :=
  if IS_LOCAL user then
    let s := (s.call (Call.OnUserDisconnect u)).call (Call.Close u)
    if user.registered = Registered.REG_ALL then
      s.WriteToSnoMask 'q' ("Client exiting: " ++ GetFullRealHost user ++ " ("
        ++ user.ip ++ ") [" ++ operreason ++ "]")
    else s
  else s

/-- The part of `QuitUser` that takes the user out of `clientlist` (under the
current nick) and out of `uuidlist`. -/
def QuitUser.unindex (casemap : Char → Char) (s : Server) (user : User) : Server :=
  let s :=
    if (find (fold casemap) s.Users.clientlist user.nick).isSome then
      { s with Users := { s.Users with
          clientlist := erase (fold casemap) s.Users.clientlist user.nick } }
    else
      s.Log "USERS" false
        ("ERROR: Nick not found in clientlist, cannot remove: " ++ user.nick)
  { s with Users := { s.Users with
      uuidlist := erase (fold casemap) s.Users.uuidlist user.uuid } }

/-- The method `UserManager::QuitUser(user, quitreason, operreason)`;
`operreason` is `none` for the null default.  `casemap` is the table
`national_case_insensitive_map`.  A pointer to no object is left alone. -/
def QuitUser (casemap : Char → Char) (s : Server) (u : UserId) (quitreason : String)
    (operreason : Option String) : Server :=
  match s.objects[u]? with
  | none => s
  | some user =>
    if user.quitting then
      s.Log "USERS" false ("ERROR: Tried to quit quitting user: " ++ user.nick)
    else if IS_SERVER user then
      s.Log "USERS" false ("ERROR: Tried to quit server user: " ++ user.nick)
    else
      -- user->quitting = true;
      let s := s.store u { user with quitting := true }
      let s := s.Log "USERS" true
        ("QuitUser: " ++ user.uuid ++ "=" ++ user.nick ++ " '" ++ quitreason ++ "'")
      let s := Write s u (closingLink user quitreason operreason)
      let reason := quitreason.take s.Config.MaxQuit
      let operreason := operreason.getD reason
      let s := { s with GlobalCulls := s.GlobalCulls ++ [u] }
      let s := QuitUser.announce s u user reason operreason
      let s := QuitUser.disconnect s u user operreason
      let s := QuitUser.unindex casemap s user
      s.call (Call.PurgeEmptyChannels u)

/-- The statement `clones[mask]++` of a clone map: `operator[]` creates the
entry with count 0 when there is none. -/
def cloneIncrement (clones : List (cidr_mask × Nat)) (mask : cidr_mask) :
    List (cidr_mask × Nat) :=
  assign id clones mask (uinc ((find id clones mask).getD 0))

/-- The block of `RemoveCloneCounts` run on each clone map: find the entry of
the mask, decrement it, erase it when it became zero. -/
def cloneDecrement (clones : List (cidr_mask × Nat)) (mask : cidr_mask) :
    List (cidr_mask × Nat) :=
  match find id clones mask with
  | none => clones
  | some count =>
    if udec count = 0 then erase id clones mask
    else assign id clones mask (udec count)

/-- The method `UserManager::AddLocalClone(user)`. -/
def AddLocalClone (um : UserManager) (user : User) : UserManager :=
  { um with local_clones := cloneIncrement um.local_clones (GetCIDRMask user) }

/-- The method `UserManager::AddGlobalClone(user)`. -/
def AddGlobalClone (um : UserManager) (user : User) : UserManager :=
  { um with global_clones := cloneIncrement um.global_clones (GetCIDRMask user) }

/-- The method `UserManager::RemoveCloneCounts(user)`. -/
def RemoveCloneCounts (um : UserManager) (user : User) : UserManager :=
  let um :=
    if IS_LOCAL user then
      { um with local_clones := cloneDecrement um.local_clones (GetCIDRMask user) }
    else um
  { um with global_clones := cloneDecrement um.global_clones (GetCIDRMask user) }

/-- The method `UserManager::GlobalCloneCount(user)`. -/
def GlobalCloneCount (um : UserManager) (user : User) : Nat :=
  match find id um.global_clones (GetCIDRMask user) with
  | some count => count
  | none => 0

/-- The method `UserManager::LocalCloneCount(user)`. -/
def LocalCloneCount (um : UserManager) (user : User) : Nat :=
  match find id um.local_clones (GetCIDRMask user) with
  | some count => count
  | none => 0

/-- The arguments of `AddUser` and what the code outside this file answers while
one connection is accepted. -/
structure Accept where
  /-- The descriptor of the accepted socket. -/
  socket : Int
  /-- The value of `ServerInstance->Time()`. -/
  now : Int
  /-- The UUID the `LocalUser` constructor allocates. -/
  uuid : String
  /-- The client address, as `GetIPString()` and `GetCIDRMask()` give it. -/
  ip : String
  cidr : cidr_mask
  /-- Whether the listener has an IO hook provider. -/
  iohookprov : Bool
  /-- The connect class `SetClass` finds. -/
  MyClass : ConnectClass
  /-- The reason `CheckClass` quits the user with, if it rejects. -/
  CheckClass : Option String
  /-- Whether an E-line matches the user. -/
  eline : Bool
  /-- The ban cache hit for the address: its type and reason. -/
  banhit : Option (String × String)
  /-- The reason of the Z-line matching the user, if any. -/
  zline : Option String
  /-- The result of `SE->AddFd`. -/
  AddFd : Bool
  /-- The reason a module quits the user with during `OnSetUserIP`, if one
  does. -/
  OnSetUserIP : Option String
  deriving DecidableEq, Repr

/-- Applies a change to the object behind a pointer. -/
def Server.modify (s : Server) (u : UserId) (f : User → User) : Server :=
  match s.objects[u]? with
  | none => s
  | some user => s.store u (f user)

/-- Reads the `quitting` flag through a pointer. -/
def Server.quitting (s : Server) (u : UserId) : Bool :=
  match s.objects[u]? with
  | none => false
  | some user => user.quitting

/-- Modelled from the spec: the `LocalUser` constructor is in `users.cpp`, which
is missing.  It assigns the UUID and stores the object under its uuid in
`uuidlist`; a UUID that is already there makes it throw (`none`). -/
def LocalUser.new (casemap : Char → Char) (s : Server) (a : Accept) :
    Option (Server × UserId) :=
  if (find (fold casemap) s.Users.uuidlist a.uuid).isSome then none
  else
    let New : UserId := s.objects.length
    let user : User :=
      { uuid := a.uuid, nick := "", ident := "unknown", host := a.ip, realhost := a.ip,
        ip := a.ip, cidr := a.cidr, usertype := UserType.USERTYPE_LOCAL,
        registered := Registered.REG_NONE, quitting := false, age := a.now, signon := 0,
        MyClass := { commandrate := 0, pingtime := 0, registration_timeout := 0 },
        CommandFloodPenalty := 0, lastping := 0, nping := 0, exempt := false, sendq := [] }
    some ({ s with
            objects := s.objects ++ [user],
            Users := { s.Users with
              uuidlist := assign (fold casemap) s.Users.uuidlist a.uuid New } }, New)

/-- Modelled from the spec: `User::WriteNotice` is in `users.cpp`, which is
missing; a NOTICE line from the server to the user. -/
def WriteNotice (s : Server) (u : UserId) (text : String) : Server :=
  match s.objects[u]? with
  | none => s
  | some user =>
    Write s u (":" ++ s.Config.ServerName ++ " NOTICE " ++ user.nick ++ " :" ++ text)

/-- The end of `UserManager::AddUser`, from the registration with the socket
engine on. -/
def AddUser.finish (casemap : Char → Char) (s : Server) (a : Accept) (New : UserId) :
    Server :=
  let s := s.call (Call.AddFd New)
  let s :=
    if ¬ a.AddFd then
      QuitUser casemap (s.Log "USERS" true "Internal error on new connection") New
        "Internal error handling connection" none
    else s
  let s :=
    if s.Config.RawLog then
      WriteNotice s New ("*** Raw I/O logging is enabled on this server. "
        ++ "All messages, passwords, and commands are being recorded.")
    else s
  let s := s.call (Call.OnSetUserIP New)
  let s :=
    match a.OnSetUserIP with
    | some reason => QuitUser casemap s New reason none
    | none => s
  if s.quitting New then s
  else s.call (Call.OnUserInit New)

/-- The user object `AddUser` has set up when it reaches the limit test. -/
def acceptedUser (cfg : ServerConfig) (a : Accept) : User :=
  { uuid := a.uuid, nick := a.uuid, ident := "unknown", host := a.ip, realhost := a.ip,
    ip := a.ip, cidr := a.cidr, usertype := UserType.USERTYPE_LOCAL,
    registered := Registered.REG_NONE, quitting := false, age := a.now,
    signon := a.now + cfg.dns_timeout,
    MyClass := { commandrate := 0, pingtime := 0, registration_timeout := 0 },
    CommandFloodPenalty := 0, lastping := 1, nping := 0, exempt := false, sendq := [] }

/-- The start of `UserManager::AddUser`, up to `local_users.push_front(New)`:
the user object is created and entered into the indexes, the clone maps and
the list of local users.  The result is `none` when the constructor throws. -/
def AddUser.accept (casemap : Char → Char) (s : Server) (a : Accept) :
    Option (Server × UserId) :=
  match LocalUser.new casemap s a with
  | none => none
  | some (s, New) =>
    let s := if a.iohookprov then s.call (Call.OnAccept a.socket) else s
    let s := s.Log "USERS" true ("New user fd: " ++ toString a.socket)
    let s := { s with Users := { s.Users with
        unregistered_count := uinc s.Users.unregistered_count } }
    -- The users default nick is their UUID
    let s := s.modify New (fun user => { user with nick := user.uuid })
    let s := { s with Users := { s.Users with
        clientlist := assign (fold casemap) s.Users.clientlist a.uuid New } }
    let s := s.modify New (fun user => { user with
        registered := Registered.REG_NONE, signon := a.now + s.Config.dns_timeout,
        lastping := 1 })
    let s :=
      match s.objects[New]? with
      | none => s
      | some user => { s with Users := AddGlobalClone (AddLocalClone s.Users user) user }
    some ({ s with Users := { s.Users with local_users := New :: s.Users.local_users } }, New)

/-- The ban evaluation of `UserManager::AddUser`: the E-line exemption, the ban
cache lookup and the Z-line check, after the class check was passed. -/
def AddUser.bans (casemap : Char → Char) (s : Server) (a : Accept) (New : UserId) : Server :=
  let s := s.modify New (fun user => { user with exempt := a.eline })
  match a.banhit with
  | some (type, reason) =>
    if type ≠ "" ∧ ¬ a.eline then
      -- user banned
      let s := s.Log "BANCACHE" true ("BanCache: Positive hit for " ++ a.ip)
      let s :=
        if s.Config.XLineMessage ≠ "" then
          WriteNotice s New ("*** " ++ s.Config.XLineMessage)
        else s
      QuitUser casemap s New reason none
    else
      AddUser.finish casemap
        (s.Log "BANCACHE" true ("BanCache: Negative hit for " ++ a.ip)) a New
  | none =>
    if ¬ a.eline then
      match a.zline with
      | some reason => QuitUser casemap (s.call (Call.Apply New)) New reason none
      | none => AddUser.finish casemap s a New
    else
      AddUser.finish casemap s a New

/-- The class check of `UserManager::AddUser` (`SetClass`, `CheckClass`),
followed by the ban evaluation when the user was not quit. -/
def AddUser.screen (casemap : Char → Char) (s : Server) (a : Accept) (New : UserId) :
    Server :=
  let s := (s.call (Call.SetClass New)).modify New
    (fun user => { user with MyClass := a.MyClass })
  let s := s.call (Call.CheckClass New)
  let s :=
    match a.CheckClass with
    | some reason => QuitUser casemap s New reason none
    | none => s
  if s.quitting New then s
  else AddUser.bans casemap s a New

/-- The test of the soft limit and of the descriptor limit in `AddUser`. -/
def limitReached (s : Server) : Bool :=
  s.Users.local_users.length > s.Config.SoftLimit
    ∨ s.Users.local_users.length ≥ s.Config.MaxFds

/-- The method `UserManager::AddUser(socket, via, client, server)`.  The
answers of `SetClass`, `CheckClass`, the X-line and ban cache lookups, `AddFd`
and the modules are those of `a`; `CheckClass`, `XLine::Apply` and a module
reject the user by `QuitUser`. -/
def AddUser (casemap : Char → Char) (s : Server) (a : Accept) : Server :=
  match AddUser.accept casemap s a with
  | none =>
    (s.Log "USERS" false
      "*** WTF *** Duplicated UUID! -- Crack smoking monkeys have been unleashed.").WriteToSnoMask
      'a' "WARNING *** Duplicate UUID allocated!"
  | some (s, New) =>
    if limitReached s then
      QuitUser casemap
        (s.WriteToSnoMask 'a' ("Warning: softlimit value has been reached: "
          ++ toString s.Config.SoftLimit ++ " clients"))
        New "No more connections allowed" none
    else
      AddUser.screen casemap s a New

/-- What holds of the server `s` while `AddUser` works on the connection `a`
accepted in the state `s0`, from the limit test on: the new user object is the
last object, it is a local user in state REG_NONE with the uuid as nick, it
heads `local_users`, the clone maps count it, and `unregistered_count` counts
it exactly as long as it is not quitting. -/
def AddedState (s0 : Server) (a : Accept) (s : Server) : Prop :=
  ∃ user, s.objects = s0.objects ++ [user] ∧
    user.registered = Registered.REG_NONE ∧ user.usertype = UserType.USERTYPE_LOCAL ∧
    user.uuid = a.uuid ∧ user.nick = a.uuid ∧ user.cidr = a.cidr ∧
    user.age = a.now ∧ user.signon = a.now + s0.Config.dns_timeout ∧
    s.Config = s0.Config ∧
    s.Users.local_users = s0.objects.length :: s0.Users.local_users ∧
    s.Users.local_clones = cloneIncrement s0.Users.local_clones a.cidr ∧
    s.Users.global_clones = cloneIncrement s0.Users.global_clones a.cidr ∧
    ((user.quitting = false ∧
        s.Users.unregistered_count = uinc s0.Users.unregistered_count) ∨
     (user.quitting = true ∧
        s.Users.unregistered_count = udec (uinc s0.Users.unregistered_count)))

/-- The calls `AddUser` makes before the limit test: the IO hook provider of the
listener, when there is one, is told about the connection. -/
def AddUser.hookCalls (a : Accept) : List Call :=
  if a.iohookprov then [Call.OnAccept a.socket] else []

/-- The observable part of the server while `AddUser` works on one connection:
the objects are those of `objects` followed by the new user object, and the
trace, the server notices, `unregistered_count` and the configuration are the
given ones. -/
def Pending (objects : List User) (user : User) (trace : List Call)
    (sno : List (Char × String)) (count : Nat) (cfg : ServerConfig) (s : Server) : Prop :=
  s.objects = objects ++ [user] ∧ s.Trace = trace ∧ s.SNO = sno ∧
    s.Users.unregistered_count = count ∧ s.Config = cfg

/-! ## The background tick -/

/-- The result of a module hook. -/
inductive ModResult
  | MOD_RES_DENY
  | MOD_RES_PASSTHRU
  | MOD_RES_ALLOW
  deriving DecidableEq, Repr

/-- Modelled from the spec: the macro `FIRST_MOD_RESULT` is in a missing
header; the subscribers are invoked in order until one returns a result other
than PASSTHRU, and that result wins. -/
def FIRST_MOD_RESULT (subscribers : List (UserId → ModResult)) (user : UserId) : ModResult :=
  match subscribers with
  | [] => ModResult.MOD_RES_PASSTHRU
  | f :: rest =>
    if f user ≠ ModResult.MOD_RES_PASSTHRU then f user else FIRST_MOD_RESULT rest user

/-- The method `UserManager::AllModulesReportReady(user)`; `OnCheckReady` lists
the subscribers of that hook. -/
def AllModulesReportReady (OnCheckReady : List (UserId → ModResult)) (user : UserId) :
    Bool :=
  FIRST_MOD_RESULT OnCheckReady user = ModResult.MOD_RES_PASSTHRU

/-- Modelled from the spec: `LocalUser::FullConnect` is in `users.cpp`, which is
missing; the transition of the registration state to ALL. -/
def FullConnect (s : Server) (u : UserId) : Server :=
  (s.call (Call.FullConnect u)).modify u
    (fun user => { user with registered := Registered.REG_ALL })

/-- The last check of the loop body of `DoBackgroundUserStuff`: the
registration timeout. -/
def registrationTimeout (casemap : Char → Char) (now : Int) (s : Server) (curr : UserId) :
    Server :=
  match s.objects[curr]? with
  | none => s
  | some c =>
    if c.registered ≠ Registered.REG_ALL
        ∧ now > c.age + (c.MyClass.registration_timeout : Int) then
      QuitUser casemap s curr "Registration timeout" none
    else s

/-- The flood penalty after the decay of `DoBackgroundUserStuff`, for the
penalty and the command rate of the class. -/
def decayPenalty (penalty rate : Nat) : Nat :=
  if penalty > rate then usub penalty rate else 0

/-- The user object after the decay of its flood penalty. -/
def decayedUser (c : User) : User :=
  { c with CommandFloodPenalty := decayPenalty c.CommandFloodPenalty c.MyClass.commandrate }

/-- The user object after a PING was written to it at time `now`. -/
def pingedUser (ServerName : String) (now : Int) (c : User) : User :=
  { c with lastping := 0, nping := now + (c.MyClass.pingtime : Int),
           sendq := c.sendq ++ ["PING :" ++ ServerName] }

/-- The user object with another value of the flood penalty. -/
def withPenalty (c : User) (p : Nat) : User := { c with CommandFloodPenalty := p }

/-- The reason of the quit for a ping timeout after `time` seconds. -/
def pingTimeoutReason (time : Int) : String :=
  "Ping timeout: " ++ ConvToStr time ++ (if time = 1 then " second" else " seconds")

/-- The first part of the loop body of `DoBackgroundUserStuff`, for the user
object `c` behind `curr`: the decay of the flood penalty. -/
def tickUser.decay (s : Server) (curr : UserId) (c : User) : Server :=
  if c.CommandFloodPenalty ≠ 0 ∨ getSendQSize c ≠ 0 then
    let rate := c.MyClass.commandrate
    (s.store curr { c with
      CommandFloodPenalty := decayPenalty c.CommandFloodPenalty rate }).call
      (Call.OnDataReady curr)
  else s

/-- The second part of the loop body of `DoBackgroundUserStuff`: the `switch`
on the registration state, followed by the registration timeout unless the
iteration was ended by `continue`. -/
def tickUser.state (casemap : Char → Char) (OnCheckReady : List (UserId → ModResult))
    (now : Int) (s : Server) (curr : UserId) : Server :=
  match s.objects[curr]? with
  | none => s
  | some c =>
    match c.registered with
    | Registered.REG_ALL =>
      if now > c.nping then
        -- This user didn't answer the last ping, remove them
        if c.lastping = 0 then
          let time : Int := now - (c.nping - (c.MyClass.pingtime : Int))
          QuitUser casemap s curr
            ("Ping timeout: " ++ ConvToStr time
              ++ (if time ≠ 1 then " seconds" else " second")) none
        else
          let s := Write s curr ("PING :" ++ s.Config.ServerName)
          let s := s.modify curr (fun user => { user with
            lastping := 0, nping := now + (user.MyClass.pingtime : Int) })
          registrationTimeout casemap now s curr
      else registrationTimeout casemap now s curr
    | Registered.REG_NICKUSER =>
      if AllModulesReportReady OnCheckReady curr then
        -- User has sent NICK/USER, modules are okay, DNS finished.
        FullConnect s curr
      else registrationTimeout casemap now s curr
    | _ => registrationTimeout casemap now s curr

/-- The body of the loop of `UserManager::DoBackgroundUserStuff` for the local
user `curr`, at time `now`. -/
def tickUser (casemap : Char → Char) (OnCheckReady : List (UserId → ModResult)) (now : Int)
    (s : Server) (curr : UserId) : Server :=
  match s.objects[curr]? with
  | none => s
  | some c =>
    if c.quitting then s
    else tickUser.state casemap OnCheckReady now (tickUser.decay s curr c) curr

/-- The method `UserManager::DoBackgroundUserStuff()`, run at time `now`: the
loop over all local users. -/
def DoBackgroundUserStuff (casemap : Char → Char) (OnCheckReady : List (UserId → ModResult))
    (now : Int) (s : Server) : Server :=
  s.Users.local_users.foldl (tickUser casemap OnCheckReady now) s

/-- The number of ticks of `DoBackgroundUserStuff` run one second apart, the
first at time `start`. -/
def runTicks (casemap : Char → Char) (OnCheckReady : List (UserId → ModResult)) :
    Server → Int → Nat → Server
  | s, _, 0 => s
  | s, start, n + 1 =>
    runTicks casemap OnCheckReady (DoBackgroundUserStuff casemap OnCheckReady start s)
      (start + 1) n

/-! ## Sequences of user manager operations -/

/-- An operation of the user manager on the server. -/
inductive Op
  | AddUser (a : Accept)
  | QuitUser (user : UserId) (quitreason : String) (operreason : Option String)
  | RemoveCloneCounts (user : UserId)
  deriving DecidableEq, Repr

/-- Whether the operation is a `RemoveCloneCounts`. -/
def Op.isRemoveCloneCounts : Op → Bool
  | Op.RemoveCloneCounts _ => true
  | _ => false

/-- Runs one operation; a pointer to no object is left alone. -/
def Op.apply (casemap : Char → Char) (s : Server) : Op → Server
  | Op.AddUser a => InspIRCd.AddUser casemap s a
  | Op.QuitUser u r o => InspIRCd.QuitUser casemap s u r o
  | Op.RemoveCloneCounts u =>
    match s.objects[u]? with
    | none => s
    | some user => { s with Users := InspIRCd.RemoveCloneCounts s.Users user }

/-- Runs a sequence of operations from the empty user manager. -/
def run (casemap : Char → Char) (cfg : ServerConfig) (ops : List Op) : Server :=
  ops.foldl (Op.apply casemap) (Server.init cfg)

/-- The sum of the counts of a clone map. -/
def cloneSum (clones : List (cidr_mask × Nat)) : Nat := (clones.map Prod.snd).sum

/-- The number of users that count as unregistered: not quitting and not in the
state REG_ALL. -/
def unregisteredUsers (objects : List User) : Nat :=
  (objects.filter (fun user => !user.quitting && user.registered != Registered.REG_ALL)).length

/-- The clone sums agree with the number of users in `local_users`. -/
def CloneAccounting (s : Server) : Prop :=
  cloneSum s.Users.local_clones = s.Users.local_users.length ∧
  cloneSum s.Users.global_clones = s.Users.local_users.length

/-! ## PortsEngine (socketengine_ports.cpp) -/

/-- The `FD_*` flags of `socketengine.h` and the constants of the system headers
that `socketengine_ports.cpp` reads; the headers are missing, so the values are
parameters. -/
structure EngineConstants where
  FD_WANT_POLL_READ : Nat
  FD_WANT_FAST_READ : Nat
  FD_WANT_POLL_WRITE : Nat
  FD_WANT_FAST_WRITE : Nat
  FD_WANT_SINGLE_WRITE : Nat
  FD_READ_WILL_BLOCK : Nat
  FD_WRITE_WILL_BLOCK : Nat
  POLLRDNORM : Nat
  POLLWRNORM : Nat
  PORT_SOURCE_FD : Nat
  deriving DecidableEq, Repr

/-- An `EventHandler*` together with the descriptor `GetFd()` returns. -/
structure EventHandler where
  ptr : Nat
  fd : Int
  deriving DecidableEq, Repr

/-- The kind of event passed to `HandleEvent`. -/
inductive EventType
  | EVENT_READ
  | EVENT_WRITE
  | EVENT_ERROR
  deriving DecidableEq, Repr

/-- A call to the port API. -/
inductive PortCall
  | associate (fd : Int) (events : Nat) (eh : Nat)
  | dissociate (fd : Int)
  deriving DecidableEq, Repr

/-- An entry of the readiness buffer filled by `port_getn`. -/
structure port_event_t where
  portev_source : Nat
  portev_object : Int
  portev_events : Nat
  deriving DecidableEq, Repr

/-- The state of the engine: the members of `PortsEngine` and of its base
`SocketEngine` (the table `ref` from descriptor to handler, the counters), the
event mask stored in each handler, the calls made to the port API and the
log. -/
structure PortsEngine where
  MAX_DESCRIPTORS : Int
  CurrentSetSize : Int
  ref : List (Int × EventHandler)
  masks : List (Nat × Nat)
  events : Nat
  port : List PortCall
  Logs : List String
  TotalEvents : Nat
  ReadEvents : Nat
  WriteEvents : Nat
  deriving DecidableEq, Repr

/-- The function `mask_to_events(event_mask)`. -/
def mask_to_events (K : EngineConstants) (event_mask : Nat) : Nat :=
  let rv := 0
  let rv :=
    if event_mask &&& (K.FD_WANT_POLL_READ ||| K.FD_WANT_FAST_READ) ≠ 0 then
      rv ||| K.POLLRDNORM
    else rv
  let rv :=
    if event_mask &&& (K.FD_WANT_POLL_WRITE ||| K.FD_WANT_FAST_WRITE
        ||| K.FD_WANT_SINGLE_WRITE) ≠ 0 then
      rv ||| K.POLLWRNORM
    else rv
  rv

/-- The accessor `SocketEngine::GetMaxFds()`. -/
def PortsEngine.GetMaxFds (E : PortsEngine) : Int := E.MAX_DESCRIPTORS

/-- Modelled from the spec: `SocketEngine::GetRef` is in the missing
`socketengine.cpp`; the handler registered for a descriptor, if any. -/
def PortsEngine.GetRef (E : PortsEngine) (fd : Int) : Option EventHandler :=
  find id E.ref fd

/-- Modelled from the spec: the base `SocketEngine::AddFd(eh)` is in the missing
`socketengine.cpp`; it returns false if the descriptor is already present,
otherwise it records the handler. -/
def SocketEngine.AddFd (E : PortsEngine) (eh : EventHandler) : PortsEngine × Bool :=
  if (E.GetRef eh.fd).isSome then (E, false)
  else ({ E with ref := assign id E.ref eh.fd eh }, true)

/-- Modelled from the spec: the base `SocketEngine::DelFd(eh)` is in the missing
`socketengine.cpp`; it deregisters the descriptor of the handler. -/
def SocketEngine.DelFd (E : PortsEngine) (eh : EventHandler) : PortsEngine :=
  { E with ref := erase id E.ref eh.fd }

/-- The call `SocketEngine::SetEventMask(eh, mask)`: the mask is stored in the
handler. -/
def PortsEngine.SetEventMask (E : PortsEngine) (eh : EventHandler) (mask : Nat) :
    PortsEngine :=
  { E with masks := assign id E.masks eh.ptr mask }

/-- The accessor `eh->GetEventMask()`; a handler that was never given a mask
has mask 0. -/
def PortsEngine.GetEventMask (E : PortsEngine) (eh : EventHandler) : Nat :=
  (find id E.masks eh.ptr).getD 0

/-- The call `port_associate(EngineHandle, PORT_SOURCE_FD, fd, events, eh)`. -/
def PortsEngine.port_associate (E : PortsEngine) (fd : Int) (events : Nat)
    (eh : EventHandler) : PortsEngine :=
  { E with port := E.port ++ [PortCall.associate fd events eh.ptr] }

/-- Modelled from the spec: `ResizeDouble` is in the missing `socketengine.h`;
the readiness buffer is resized geometrically, doubled when the set has
outgrown it. -/
def PortsEngine.ResizeDouble (E : PortsEngine) : PortsEngine :=
  if E.CurrentSetSize > (E.events : Int) then { E with events := E.events * 2 } else E

/-- The method `PortsEngine::AddFd(eh, event_mask)`. -/
def PortsEngine.AddFd (K : EngineConstants) (E : PortsEngine) (eh : EventHandler)
    (event_mask : Nat) : PortsEngine × Bool :=
  let fd := eh.fd
  if fd < 0 ∨ fd > E.GetMaxFds - 1 then (E, false)
  else
    match SocketEngine.AddFd E eh with
    | (_, false) => (E, false)
    | (E1, true) =>
      let E1 := E1.SetEventMask eh event_mask
      let E1 := E1.port_associate fd (mask_to_events K event_mask) eh
      let E1 := { E1 with Logs := E1.Logs ++ ["New file descriptor: " ++ toString fd] }
      let E1 := { E1 with CurrentSetSize := E1.CurrentSetSize + 1 }
      (E1.ResizeDouble, true)

/-- The method `PortsEngine::OnSetEvent(eh, old_mask, new_mask)`. -/
def PortsEngine.OnSetEvent (K : EngineConstants) (E : PortsEngine) (eh : EventHandler)
    (old_mask new_mask : Nat) : PortsEngine :=
  if mask_to_events K new_mask ≠ mask_to_events K old_mask then
    E.port_associate eh.fd (mask_to_events K new_mask) eh
  else E

/-- The method `PortsEngine::DelFd(eh)`. -/
def PortsEngine.DelFd (E : PortsEngine) (eh : EventHandler) : PortsEngine :=
  let fd := eh.fd
  if fd < 0 ∨ fd > E.GetMaxFds - 1 then E
  else
    let E := { E with port := E.port ++ [PortCall.dissociate fd] }
    let E := { E with CurrentSetSize := E.CurrentSetSize - 1 }
    let E := SocketEngine.DelFd E eh
    { E with Logs := E.Logs ++ ["Remove file descriptor: " ++ toString fd] }

/-- The engine as `DispatchEvents` leaves it before the callbacks of one event on
the handler `eh`: the flags that the readiness answers are cleared from the mask
of the handler and the descriptor is associated with the port again. -/
def PortsEngine.rearm (K : EngineConstants) (E : PortsEngine) (eh : EventHandler)
    (ev : port_event_t) : PortsEngine :=
  let mask := E.GetEventMask eh
  let mask :=
    if ev.portev_events &&& K.POLLWRNORM ≠ 0 then
      Nat.ldiff mask (K.FD_WRITE_WILL_BLOCK ||| K.FD_WANT_FAST_WRITE
        ||| K.FD_WANT_SINGLE_WRITE)
    else mask
  let mask :=
    if ev.portev_events &&& K.POLLRDNORM ≠ 0 then Nat.ldiff mask K.FD_READ_WILL_BLOCK
    else mask
  (E.SetEventMask eh mask).port_associate ev.portev_object (mask_to_events K mask) eh

/-- The body of the loop of `PortsEngine::DispatchEvents` for one retrieved
event.  `HandleEvent` is the callback of the handlers, which may change the
engine; the second component lists the callbacks invoked, in order. -/
def PortsEngine.dispatchEvent (K : EngineConstants)
    (HandleEvent : EventHandler → EventType → PortsEngine → PortsEngine)
    (E : PortsEngine) (ev : port_event_t) : PortsEngine × List (EventHandler × EventType) :=
  if ev.portev_source ≠ K.PORT_SOURCE_FD then (E, [])
  else
    let fd := ev.portev_object
    match E.GetRef fd with
    | none => (E, [])
    | some eh =>
      let mask := E.GetEventMask eh
      let mask :=
        if ev.portev_events &&& K.POLLWRNORM ≠ 0 then
          Nat.ldiff mask (K.FD_WRITE_WILL_BLOCK ||| K.FD_WANT_FAST_WRITE
            ||| K.FD_WANT_SINGLE_WRITE)
        else mask
      let mask :=
        if ev.portev_events &&& K.POLLRDNORM ≠ 0 then Nat.ldiff mask K.FD_READ_WILL_BLOCK
        else mask
      -- reinsert port for next time around, pretending to be one-shot for writes
      let E := E.SetEventMask eh mask
      let E := E.port_associate fd (mask_to_events K mask) eh
      if ev.portev_events &&& K.POLLRDNORM ≠ 0 then
        let E := { E with ReadEvents := E.ReadEvents + 1 }
        let E := HandleEvent eh EventType.EVENT_READ E
        if E.GetRef fd ≠ some eh then (E, [(eh, EventType.EVENT_READ)])
        else if ev.portev_events &&& K.POLLWRNORM ≠ 0 then
          let E := { E with WriteEvents := E.WriteEvents + 1 }
          (HandleEvent eh EventType.EVENT_WRITE E,
            [(eh, EventType.EVENT_READ), (eh, EventType.EVENT_WRITE)])
        else (E, [(eh, EventType.EVENT_READ)])
      else if ev.portev_events &&& K.POLLWRNORM ≠ 0 then
        let E := { E with WriteEvents := E.WriteEvents + 1 }
        (HandleEvent eh EventType.EVENT_WRITE E, [(eh, EventType.EVENT_WRITE)])
      else (E, [])

/-- The loop of `PortsEngine::DispatchEvents` over the retrieved events, with
the callbacks invoked so far. -/
def PortsEngine.dispatchLoop (K : EngineConstants)
    (HandleEvent : EventHandler → EventType → PortsEngine → PortsEngine) :
    PortsEngine → List port_event_t → List (EventHandler × EventType)
      → PortsEngine × List (EventHandler × EventType)
  | E, [], calls => (E, calls)
  | E, ev :: rest, calls =>
    PortsEngine.dispatchLoop K HandleEvent (PortsEngine.dispatchEvent K HandleEvent E ev).1
      rest (calls ++ (PortsEngine.dispatchEvent K HandleEvent E ev).2)

/-- The method `PortsEngine::DispatchEvents()`: `ret` is the result of
`port_getn` and `retrieved` the `nget` events it stored.  The result is the
engine, the returned count and the callbacks invoked, in order. -/
def PortsEngine.DispatchEvents (K : EngineConstants)
    (HandleEvent : EventHandler → EventType → PortsEngine → PortsEngine)
    (E : PortsEngine) (ret : Int) (retrieved : List port_event_t) :
    PortsEngine × Int × List (EventHandler × EventType) :=
  -- first handle an error condition
  if ret = -1 then (E, -1, [])
  else
    let E := { E with TotalEvents := E.TotalEvents + retrieved.length }
    let r := PortsEngine.dispatchLoop K HandleEvent E retrieved []
    (r.1, (retrieved.length : Int), r.2)

/-! ## String helpers (hashcomp.h) -/

/-- The method `std::string::find_first_not_of(c)` on the characters of a
string; `none` is `npos`. -/
def find_first_not_of : List Char → Char → Option Nat
  | [], _ => none
  | x :: xs, c => if x ≠ c then some 0 else (find_first_not_of xs c).map (fun i => i + 1)

/-- The method `std::string::find_last_not_of(c)`; `none` is `npos`. -/
def find_last_not_of : List Char → Char → Option Nat
  | [], _ => none
  | x :: xs, c =>
    match find_last_not_of xs c with
    | some i => some (i + 1)
    | none => if x ≠ c then some 0 else none

/-- The method `std::string::substr(pos, n)` for `pos` within the string. -/
def substr (str : List Char) (pos n : Nat) : List Char := (str.drop pos).take n

/-- The function `trim(str)`: the new value of `str`, which is also returned. -/
def trim (str : List Char) : List Char :=
  let start := find_first_not_of str ' '
  let stop := find_last_not_of str ' '
  match start, stop with
  | some start, some stop => substr str start (stop - start + 1)
  | _, _ => []

/-- The string without its leading and its trailing spaces, by the words of the
description of `trim`. -/
def trimSpec (str : List Char) : List Char :=
  ((str.dropWhile (fun c => c = ' ')).reverse.dropWhile (fun c => c = ' ')).reverse

/-- The loop of `SearchAndReplace`: `n` is the index, `replacement` the string
built so far, and the first argument bounds the number of iterations.  The
result is `none` when the bound is used up before the loop ends or when the
index has passed `text.length()`, where `substr` throws. -/
def SearchAndReplace.loop (text pattern replace : List Char) :
    Nat → Nat → List Char → Option (List Char)
  | 0, n, replacement => if n = text.length then some replacement else none
  | fuel + 1, n, replacement =>
    if n = text.length then some replacement
    else if n > text.length then none
    else if text.length ≥ pattern.length ∧ substr text n pattern.length = pattern then
      -- Found the pattern in the text, replace it, and advance
      SearchAndReplace.loop text pattern replace fuel (n + pattern.length - 1 + 1)
        (replacement ++ replace)
    else
      SearchAndReplace.loop text pattern replace fuel (n + 1)
        (replacement ++ (text.drop n).take 1)

/-- The function `SearchAndReplace(text, pattern, replace)`: the new value of
`text`, which is also returned; `none` when the loop does not end within
`text.length()` iterations. -/
def SearchAndReplace (text pattern replace : List Char) : Option (List Char) :=
  if pattern ≠ [] ∧ text ≠ [] then
    SearchAndReplace.loop text pattern replace text.length 0 []
  else some []

/-- The left-to-right scan that replaces each occurrence of `pattern` and does
not look inside an occurrence it replaced; `skip` is the number of characters
of the last occurrence still to pass. -/
def replaceScan (pattern replace : List Char) : List Char → Nat → List Char
  | [], _ => []
  | _ :: cs, skip + 1 => replaceScan pattern replace cs skip
  | c :: cs, 0 =>
    if pattern.isPrefixOf (c :: cs) then
      replace ++ replaceScan pattern replace cs (pattern.length - 1)
    else c :: replaceScan pattern replace cs 0

/-! ## BoolSet (base.cpp) -/

/-- The table `bitfields`. -/
def bitfields : List Int := [1, 2, 4, 8, 16, 32, 64, 128]

/-- The table `inverted_bitfields`. -/
def inverted_bitfields : List Int :=
  [Int.lnot 1, Int.lnot 2, Int.lnot 4, Int.lnot 8, Int.lnot 16, Int.lnot 32, Int.lnot 64,
   Int.lnot 128]

/-- The conversion of an `int` to `char`, for a platform whose `char` is signed
or not. -/
def toChar (charSigned : Bool) (v : Int) : Int :=
  if charSigned then (v + 128) % 256 - 128 else v % 256

/-- The class `BoolSet`: its member `char bits`, as the value of the `char`. -/
structure BoolSet where
  bits : Int
  deriving DecidableEq, Repr

/-- The method `BoolSet::Set(number)`. -/
def BoolSet.Set (charSigned : Bool) (b : BoolSet) (number : Nat) : BoolSet :=
  { bits := toChar charSigned (Int.lor b.bits (bitfields.getD number 0)) }

/-- The method `BoolSet::Unset(number)`. -/
def BoolSet.Unset (charSigned : Bool) (b : BoolSet) (number : Nat) : BoolSet :=
  { bits := toChar charSigned (Int.land b.bits (inverted_bitfields.getD number 0)) }

/-- The method `BoolSet::Invert(number)`. -/
def BoolSet.Invert (charSigned : Bool) (b : BoolSet) (number : Nat) : BoolSet :=
  { bits := toChar charSigned (Int.xor b.bits (bitfields.getD number 0)) }

/-- The method `BoolSet::Get(number)`. -/
def BoolSet.Get (b : BoolSet) (number : Nat) : Bool :=
  decide (Int.lor b.bits (bitfields.getD number 0) > 0)

/-- Whether bit `number` is set in the set. -/
def BoolSet.bit (b : BoolSet) (number : Nat) : Bool := Int.testBit b.bits number

/-! ## cmd_gline (cmd_gline.cpp) -/

/-- The part of `userrec` that `cmd_gline::Handle` reads. -/
structure userrec where
  nick : String
  fd : Int
  deriving DecidableEq, Repr

/-- A call that leaves `cmd_gline.cpp`, as recorded in the trace of the
command. -/
inductive GlineCall
  | host_matches_everyone (mask : String) (user : userrec)
  | add_gline (duration : Int) (source reason hostmask : String)
  | OnAddGLine (duration : Int) (user : userrec) (reason hostmask : String)
  | WriteOpers (text : String)
  /-- The call `apply_lines(APPLY_GLINES)`. -/
  | apply_lines
  | del_gline (hostmask : String)
  | OnDelGLine (user : userrec) (hostmask : String)
  | WriteServ (fd : Int) (text : String)
  deriving DecidableEq, Repr

/-- What the functions outside `cmd_gline.cpp` answer while the command runs:
the value of `duration(str)`, the result of `host_matches_everyone(mask, user)`
and the result of `del_gline(hostmask)`. -/
structure GlineEnv where
  duration : String → Int
  host_matches_everyone : String → userrec → Bool
  del_gline : String → Bool

/-- The method `cmd_gline::Handle(parameters, pcnt, user)`.  The calls made are
appended to `trace`; the result is `none` when an entry of `parameters` that
does not exist is read. -/
def cmd_gline.Handle (env : GlineEnv) (parameters : List String) (pcnt : Int)
    (user : userrec) (trace : List GlineCall) : Option (List GlineCall) :=
  if pcnt ≥ 3 then
    match parameters[0]?, parameters[1]?, parameters[2]? with
    | some p0, some p1, some p2 =>
      let trace := trace ++ [GlineCall.host_matches_everyone p0 user]
      if env.host_matches_everyone p0 user then some trace
      else
        let trace := trace ++ [GlineCall.add_gline (env.duration p1) user.nick p2 p0]
        let trace := trace ++ [GlineCall.OnAddGLine (env.duration p1) user p2 p0]
        let trace :=
          if env.duration p1 = 0 then
            trace ++ [GlineCall.WriteOpers
              ("*** " ++ user.nick ++ " added permenant G-line for " ++ p0 ++ ".")]
          else
            trace ++ [GlineCall.WriteOpers
              ("*** " ++ user.nick ++ " added timed G-line for " ++ p0 ++ ", expires in "
                ++ toString (env.duration p1) ++ " seconds.")]
        some (trace ++ [GlineCall.apply_lines])
    | _, _, _ => none
  else
    match parameters[0]? with
    | some p0 =>
      let trace := trace ++ [GlineCall.del_gline p0]
      if env.del_gline p0 then
        let trace := trace ++ [GlineCall.OnDelGLine user p0]
        some (trace ++ [GlineCall.WriteOpers
          ("*** " ++ user.nick ++ " Removed G-line on " ++ p0 ++ ".")])
      else
        some (trace ++ [GlineCall.WriteServ user.fd
          ("NOTICE " ++ user.nick ++ " :*** G-Line " ++ p0
            ++ " not found in list, try /stats g.")])
    | none => none

/-- Whether a call is a call of `add_gline`. -/
def GlineCall.isAdd : GlineCall → Bool
  | GlineCall.add_gline _ _ _ _ => true
  | _ => false

/-- Whether a call fires one of the hooks `OnAddGLine`, `OnDelGLine`. -/
def GlineCall.isHook : GlineCall → Bool
  | GlineCall.OnAddGLine _ _ _ _ => true
  | GlineCall.OnDelGLine _ _ => true
  | _ => false

/-! ## Sample data -/

/-- A configuration for the examples. -/
def sampleConfig : ServerConfig :=
  { ServerName := "irc.example.net", MaxQuit := 255, SoftLimit := 2, MaxFds := 100,
    dns_timeout := 5, RawLog := false, XLineMessage := "You are banned" }

/-- A connect class with ping interval 120. -/
def sampleClass : ConnectClass :=
  { commandrate := 1000, pingtime := 120, registration_timeout := 90 }

/-- An accepted connection that every check lets pass. -/
def sampleAccept (uuid : String) : Accept :=
  { socket := 7, now := 0, uuid := uuid, ip := "192.0.2.1", cidr := "192.0.2.1/32",
    iohookprov := false, MyClass := sampleClass, CheckClass := none, eline := false,
    banhit := none, zline := none, AddFd := true, OnSetUserIP := none }

/-- A fully registered, idle local user whose next ping is due at 120. -/
def alice : User :=
  { uuid := "100AAAAAA", nick := "alice", ident := "alice", host := "host.example",
    realhost := "host.example", ip := "192.0.2.1", cidr := "192.0.2.1/32",
    usertype := UserType.USERTYPE_LOCAL, registered := Registered.REG_ALL,
    quitting := false, age := 0, signon := 0, MyClass := sampleClass,
    CommandFloodPenalty := 0, lastping := 1, nping := 120, exempt := false, sendq := [] }

/-- A server on which `alice` is the only user. -/
def aliceServer : Server :=
  { Config := sampleConfig,
    Users := { clientlist := [("alice", 0)], uuidlist := [("100AAAAAA", 0)],
               unregistered_count := 0, local_users := [0],
               local_clones := [("192.0.2.1/32", 1)],
               global_clones := [("192.0.2.1/32", 1)] },
    objects := [alice], GlobalCulls := [], Logs := [], SNO := [], Trace := [] }

/-- The server of `alice` after one more connection was accepted: `alice` is
fully registered, the new user (object 1) is unregistered, and
`unregistered_count` is 1. -/
def mixedServer : Server := AddUser id aliceServer (sampleAccept "100AAAAAB")

/-- A server that accepted one connection at time 0 and nothing else: the user
is unregistered, with `age` 0, `signon` 5 and registration timeout 90. -/
def bobServer : Server := AddUser id (Server.init sampleConfig) (sampleAccept "100AAAAAB")

/-- The user object of `bobServer`. -/
def bob : User := { acceptedUser sampleConfig (sampleAccept "100AAAAAB") with
  MyClass := sampleClass }

/-- The constants of InspIRCd 2.x on Solaris. -/
def solarisConstants : EngineConstants :=
  { FD_WANT_POLL_READ := 0x2, FD_WANT_FAST_READ := 0x4, FD_WANT_POLL_WRITE := 0x20,
    FD_WANT_FAST_WRITE := 0x40, FD_WANT_SINGLE_WRITE := 0x100,
    FD_READ_WILL_BLOCK := 0x2000, FD_WRITE_WILL_BLOCK := 0x8000,
    POLLRDNORM := 0x40, POLLWRNORM := 0x4, PORT_SOURCE_FD := 4 }

/-- An engine with room for 1024 descriptors and no handler. -/
def emptyEngine : PortsEngine :=
  { MAX_DESCRIPTORS := 1024, CurrentSetSize := 0, ref := [], masks := [], events := 1,
    port := [], Logs := [], TotalEvents := 0, ReadEvents := 0, WriteEvents := 0 }

/-- An operator. -/
def sampleOper : userrec := { nick := "oper", fd := 9 }

/-- Answers of the functions outside `cmd_gline.cpp`: a duration of one hour,
only the mask `*@*` matches everyone, and only `*@gone.example` is a G-line
that can be deleted. -/
def sampleGlineEnv : GlineEnv :=
  { duration := fun _ => 3600,
    host_matches_everyone := fun mask _ => mask = "*@*",
    del_gline := fun mask => mask = "*@gone.example" }

/-! ## Properties of the containers -/

section ContainerLemmas

variable {κ ν α : Type} [DecidableEq α]

theorem find_eq_none_iff (norm : κ → α) (m : List (κ × ν)) (k : κ) :
    find norm m k = none ↔ norm k ∉ m.map (fun e => norm e.1) := by
  induction m with
  | nil => simp [find]
  | cons e rest ih =>
    obtain ⟨k', v⟩ := e
    by_cases hk : norm k' = norm k
    · simp [find, hk]
    · have hk' : ¬ norm k = norm k' := fun h => hk h.symm
      simp [find, hk, hk', ih]

theorem find_erase_self (norm : κ → α) (m : List (κ × ν)) (k : κ)
    (h : KeysUnique norm m) : find norm (erase norm m k) k = none := by
  induction m with
  | nil => rfl
  | cons e rest ih =>
    obtain ⟨k', v⟩ := e
    have hu : norm k' ∉ rest.map (fun e => norm e.1) ∧ KeysUnique norm rest := by
      simpa [KeysUnique] using h
    by_cases hk : norm k' = norm k
    · simp only [erase, hk, if_true]
      exact (find_eq_none_iff norm rest k).2 (hk ▸ hu.1)
    · simp only [erase, hk, if_false, find]
      exact ih hu.2

theorem find_erase_ne (norm : κ → α) (m : List (κ × ν)) (k k' : κ)
    (h : norm k' ≠ norm k) : find norm (erase norm m k) k' = find norm m k' := by
  induction m with
  | nil => rfl
  | cons e rest ih =>
    obtain ⟨k0, v⟩ := e
    by_cases hk : norm k0 = norm k
    · have hk' : ¬ norm k0 = norm k' := fun hc => h (hc.symm.trans hk)
      simp only [erase, find, if_pos hk, if_neg hk']
    · by_cases hk' : norm k0 = norm k'
      · simp only [erase, find, if_neg hk, if_pos hk']
      · simp only [erase, find, if_neg hk, if_neg hk', ih]

theorem erase_of_find_none (norm : κ → α) (m : List (κ × ν)) (k : κ)
    (h : find norm m k = none) : erase norm m k = m := by
  induction m with
  | nil => rfl
  | cons e rest ih =>
    obtain ⟨k0, v⟩ := e
    by_cases hk : norm k0 = norm k
    · simp [find, hk] at h
    · simp only [find, hk, if_false] at h
      simp [erase, hk, ih h]

theorem find_assign_self (norm : κ → α) (m : List (κ × ν)) (k : κ) (v : ν) :
    find norm (assign norm m k v) k = some v := by
  induction m with
  | nil => simp [assign, find]
  | cons e rest ih =>
    obtain ⟨k0, v0⟩ := e
    by_cases hk : norm k0 = norm k
    · simp [assign, find, hk]
    · simp [assign, find, hk, ih]

theorem find_assign_ne (norm : κ → α) (m : List (κ × ν)) (k k' : κ) (v : ν)
    (h : norm k' ≠ norm k) : find norm (assign norm m k v) k' = find norm m k' := by
  induction m with
  | nil =>
    have h' : ¬ norm k = norm k' := fun hc => h hc.symm
    simp [assign, find, h']
  | cons e rest ih =>
    obtain ⟨k0, v0⟩ := e
    by_cases hk : norm k0 = norm k
    · have hk' : ¬ norm k0 = norm k' := fun hc => h (hc.symm.trans hk)
      simp only [assign, find, if_pos hk, if_neg hk']
    · by_cases hk' : norm k0 = norm k'
      · simp only [assign, find, if_neg hk, if_pos hk']
      · simp only [assign, find, if_neg hk, if_neg hk', ih]

theorem erase_assign_of_find_none (norm : κ → α) (m : List (κ × ν)) (k : κ) (v : ν)
    (h : find norm m k = none) : erase norm (assign norm m k v) k = m := by
  induction m with
  | nil => simp [assign, erase]
  | cons e rest ih =>
    obtain ⟨k0, v0⟩ := e
    by_cases hk : norm k0 = norm k
    · simp [find, hk] at h
    · simp only [find, hk, if_false] at h
      simp [assign, erase, hk, ih h]

theorem assign_assign (norm : κ → α) (m : List (κ × ν)) (k : κ) (v w : ν) :
    assign norm (assign norm m k v) k w = assign norm m k w := by
  induction m with
  | nil => simp [assign]
  | cons e rest ih =>
    obtain ⟨k0, v0⟩ := e
    by_cases hk : norm k0 = norm k
    · simp [assign, hk]
    · simp [assign, hk, ih]

theorem assign_of_find (norm : κ → α) (m : List (κ × ν)) (k : κ) (v : ν)
    (h : find norm m k = some v) : assign norm m k v = m := by
  induction m with
  | nil => simp [find] at h
  | cons e rest ih =>
    obtain ⟨k0, v0⟩ := e
    by_cases hk : norm k0 = norm k
    · simp only [find, hk, if_true, Option.some.injEq] at h
      simp [assign, hk, h]
    · simp only [find, hk, if_false] at h
      simp [assign, hk, ih h]

theorem keys_assign (norm : κ → α) (m : List (κ × ν)) (k : κ) (v : ν) :
    (assign norm m k v).map (fun e => norm e.1)
      = if (find norm m k).isNone then m.map (fun e => norm e.1) ++ [norm k]
        else m.map (fun e => norm e.1) := by
  induction m with
  | nil => simp [assign, find]
  | cons e rest ih =>
    obtain ⟨k0, v0⟩ := e
    by_cases hk : norm k0 = norm k
    · simp only [assign, find, if_pos hk, List.map_cons, Option.isNone_some]
      simp
    · simp only [assign, find, if_neg hk, List.map_cons, ih]
      split <;> simp

theorem KeysUnique_assign (norm : κ → α) (m : List (κ × ν)) (k : κ) (v : ν)
    (h : KeysUnique norm m) : KeysUnique norm (assign norm m k v) := by
  unfold KeysUnique at *
  rw [keys_assign]
  split
  · rename_i hn
    rw [List.nodup_append]
    refine ⟨h, by simp, ?_⟩
    have := (find_eq_none_iff norm m k).1 (Option.isNone_iff_eq_none.1 hn)
    intro a ha hb
    simp only [List.mem_singleton] at hb
    exact this (hb ▸ ha)
  · exact h

theorem erase_sublist (norm : κ → α) (m : List (κ × ν)) (k : κ) :
    (erase norm m k).Sublist m := by
  induction m with
  | nil => exact List.Sublist.refl _
  | cons e rest ih =>
    obtain ⟨k0, v0⟩ := e
    by_cases hk : norm k0 = norm k
    · simp [erase, hk]
    · simp only [erase, hk, if_false]
      exact ih.cons₂ _

theorem KeysUnique_erase (norm : κ → α) (m : List (κ × ν)) (k : κ)
    (h : KeysUnique norm m) : KeysUnique norm (erase norm m k) := by
  unfold KeysUnique at *
  exact List.Nodup.sublist ((erase_sublist norm m k).map _) h

end ContainerLemmas

/-! ## Extensible -/

/-- C6: `Extensible::Extend` rejects duplicates.  When `key` is already present
the call returns false and leaves the map as it was; when `key` is absent it
returns true, `GetExt(key)` then returns `p` and every other key keeps its
entry; a map with at most one entry per key stays so. -/
theorem Extend_rejects_duplicates (items : ExtensibleStore) (key : String) (p : Nat) :
    ((find id items key).isSome → Extend items key p = (items, false)) ∧
    (find id items key = none →
      (Extend items key p).2 = true ∧
      GetExt (Extend items key p).1 key = p ∧
      ∀ k, k ≠ key → find id (Extend items key p).1 k = find id items k) ∧
    (KeysUnique id items → KeysUnique id (Extend items key p).1) := by
  refine ⟨?_, ?_, ?_⟩
  · intro h
    have hne : ¬ find id items key = none := by
      intro hc; rw [hc] at h; exact absurd h (by decide)
    simp [Extend, hne]
  · intro h
    refine ⟨by simp [Extend, h], ?_, ?_⟩
    · simp [Extend, h, GetExt, find_assign_self]
    · intro k hk
      simp only [Extend, h, if_true]
      exact find_assign_ne id items key k p hk
  · intro h
    unfold Extend
    split
    · exact KeysUnique_assign id items key p h
    · exact h

/-- Instance of C6: on a map holding "ssl", extending "ssl" again is rejected and
extending "away" is accepted. -/
theorem Extend_rejects_duplicates_witness :
    Extend [("ssl", 7)] "ssl" 9 = ([("ssl", 7)], false) ∧
    ((Extend [("ssl", 7)] "away" 9).2 = true ∧
      GetExt (Extend [("ssl", 7)] "away" 9).1 "away" = 9 ∧
      ∀ k, k ≠ "away" →
        find id (Extend [("ssl", 7)] "away" 9).1 k = find id [("ssl", 7)] k) ∧
    KeysUnique id (Extend [("ssl", 7)] "away" 9).1 :=
  ⟨(Extend_rejects_duplicates [("ssl", 7)] "ssl" 9).1 (by decide),
   (Extend_rejects_duplicates [("ssl", 7)] "away" 9).2.1 (by decide),
   (Extend_rejects_duplicates [("ssl", 7)] "away" 9).2.2 (by decide)⟩

/-- C7: `Extensible::Shrink` is idempotent.  On a map with at most one entry
per key, a second `Shrink(key)` leaves the map of the first; the first returns
true exactly when `key` was present, the second returns false, `GetExt(key)` is
NULL afterwards and the entries of the other keys are unchanged. -/
theorem Shrink_idempotent (items : ExtensibleStore) (key : String)
    (h : KeysUnique id items) :
    (Shrink (Shrink items key).1 key).1 = (Shrink items key).1 ∧
    ((Shrink items key).2 = true ↔ (find id items key).isSome) ∧
    (Shrink (Shrink items key).1 key).2 = false ∧
    GetExt (Shrink items key).1 key = NULL ∧
    ∀ k, k ≠ key → find id (Shrink items key).1 k = find id items k := by
  have hgone : find id (Shrink items key).1 key = none := by
    unfold Shrink
    split
    · exact find_erase_self id items key h
    · rename_i hn
      simpa using hn
  have hsecond : Shrink (Shrink items key).1 key = ((Shrink items key).1, false) := by
    generalize (Shrink items key).1 = m at hgone
    simp [Shrink, hgone]
  refine ⟨?_, ?_, ?_, ?_, ?_⟩
  · rw [hsecond]
  · unfold Shrink
    split
    · rename_i hp
      simp [Option.isSome_iff_ne_none, hp]
    · rename_i hn
      have : find id items key = none := by simpa using hn
      simp [this]
  · rw [hsecond]
  · simp [GetExt, hgone]
  · intro k hk
    unfold Shrink
    split
    · exact find_erase_ne id items key k hk
    · rfl

/-- Instance of C7 on a map holding "ssl" and "away". -/
theorem Shrink_idempotent_witness :
    (Shrink (Shrink [("ssl", 7), ("away", 9)] "ssl").1 "ssl").1
      = (Shrink [("ssl", 7), ("away", 9)] "ssl").1 ∧
    ((Shrink [("ssl", 7), ("away", 9)] "ssl").2 = true
      ↔ (find id [("ssl", 7), ("away", 9)] "ssl").isSome) ∧
    (Shrink (Shrink [("ssl", 7), ("away", 9)] "ssl").1 "ssl").2 = false ∧
    GetExt (Shrink [("ssl", 7), ("away", 9)] "ssl").1 "ssl" = NULL ∧
    ∀ k, k ≠ "ssl" →
      find id (Shrink [("ssl", 7), ("away", 9)] "ssl").1 k
        = find id [("ssl", 7), ("away", 9)] k :=
  Shrink_idempotent [("ssl", 7), ("away", 9)] "ssl" (by decide)

/-! ## Clone counters -/

theorem find_mem {κ ν α : Type} [DecidableEq α] (norm : κ → α) (m : List (κ × ν)) (k : κ)
    (v : ν) (h : find norm m k = some v) : ∃ e ∈ m, e.2 = v := by
  induction m with
  | nil => simp [find] at h
  | cons e rest ih =>
    obtain ⟨k0, v0⟩ := e
    by_cases hk : norm k0 = norm k
    · simp only [find, if_pos hk, Option.some.injEq] at h
      exact ⟨(k0, v0), by simp, h⟩
    · simp only [find, if_neg hk] at h
      obtain ⟨e, he, hv⟩ := ih h
      exact ⟨e, by simp [he], hv⟩

theorem uinc_eq_mod (x : Nat) (h : x < UINT_MOD) : uinc x = (x + 1) % UINT_MOD := by
  unfold uinc UINT_MAX UINT_MOD at *
  split <;> omega

theorem udec_eq_mod (x : Nat) (h : x < UINT_MOD) : udec x = (x + UINT_MOD - 1) % UINT_MOD := by
  unfold udec UINT_MAX UINT_MOD at *
  split <;> omega

theorem usub_eq_mod (x y : Nat) (hx : x < UINT_MOD) (hy : y < UINT_MOD) :
    usub x y = (x + UINT_MOD - y) % UINT_MOD := by
  unfold usub UINT_MOD at *
  split <;> omega

theorem udec_uinc (c : Nat) (h : c < UINT_MOD) : udec (uinc c) = c := by
  unfold udec uinc UINT_MAX UINT_MOD at *
  split <;> split <;> omega

theorem cloneDecrement_cloneIncrement (clones : List (cidr_mask × Nat)) (mask : cidr_mask)
    (h : ∀ e ∈ clones, 0 < e.2 ∧ e.2 < UINT_MOD) :
    cloneDecrement (cloneIncrement clones mask) mask = clones := by
  unfold cloneDecrement cloneIncrement
  rw [find_assign_self]
  cases hf : find id clones mask with
  | none =>
    have h1 : udec (uinc 0) = 0 := udec_uinc 0 (by decide)
    simp only [Option.getD_none, h1, if_true]
    exact erase_assign_of_find_none id clones mask _ hf
  | some c =>
    obtain ⟨e, he, hv⟩ := find_mem id clones mask c hf
    have hc := h e he
    rw [hv] at hc
    have h1 : udec (uinc c) = c := udec_uinc c hc.2
    have h2 : c ≠ 0 := by omega
    simp only [Option.getD_some, h1, if_neg h2]
    rw [assign_assign]
    exact assign_of_find id clones mask c hf

/-- C5: the clone counters round-trip.  On clone maps whose counts are non-zero
`unsigned int` values, for a local user `AddLocalClone; AddGlobalClone;
RemoveCloneCounts` gives back exactly the original user manager (an entry
created by the increment is erased again, none is left at 0); for a non-local
user `AddGlobalClone; RemoveCloneCounts` gives it back as well and
`AddGlobalClone` leaves `local_clones` untouched. -/
theorem clone_counters_round_trip (um : UserManager) (user : User)
    (hl : ∀ e ∈ um.local_clones, 0 < e.2 ∧ e.2 < UINT_MOD)
    (hg : ∀ e ∈ um.global_clones, 0 < e.2 ∧ e.2 < UINT_MOD) :
    (IS_LOCAL user = true →
      RemoveCloneCounts (AddGlobalClone (AddLocalClone um user) user) user = um ∧
      ∀ e ∈ (RemoveCloneCounts (AddGlobalClone (AddLocalClone um user) user) user).local_clones,
        e.2 ≠ 0) ∧
    (IS_LOCAL user = false →
      RemoveCloneCounts (AddGlobalClone um user) user = um ∧
      (AddGlobalClone um user).local_clones = um.local_clones ∧
      ∀ e ∈ (RemoveCloneCounts (AddGlobalClone um user) user).global_clones, e.2 ≠ 0) := by
  have h1 := cloneDecrement_cloneIncrement um.local_clones (GetCIDRMask user) hl
  have h2 := cloneDecrement_cloneIncrement um.global_clones (GetCIDRMask user) hg
  constructor
  · intro hloc
    have heq : RemoveCloneCounts (AddGlobalClone (AddLocalClone um user) user) user = um := by
      simp [RemoveCloneCounts, AddGlobalClone, AddLocalClone, hloc, h1, h2]
    refine ⟨heq, ?_⟩
    rw [heq]
    intro e he
    have := (hl e he).1
    omega
  · intro hloc
    have heq : RemoveCloneCounts (AddGlobalClone um user) user = um := by
      simp [RemoveCloneCounts, AddGlobalClone, hloc, h2]
    refine ⟨heq, rfl, ?_⟩
    rw [heq]
    intro e he
    have := (hg e he).1
    omega

/-! ## QuitUser -/

theorem getElem?_lt {β : Type} (l : List β) (u : Nat) (x : β) (h : l[u]? = some x) :
    u < l.length := by
  by_contra hc
  rw [List.getElem?_eq_none (by omega)] at h
  cases h

theorem getElem?_set_same {β : Type} (l : List β) (u : Nat) (x y : β) (h : l[u]? = some x) :
    (l.set u y)[u]? = some y := by
  have := getElem?_lt l u x h
  simp [List.getElem?_set, this]

theorem announce_frame (s : Server) (u : UserId) (user : User) (a b : String) :
    (QuitUser.announce s u user a b).objects = s.objects ∧
    (QuitUser.announce s u user a b).GlobalCulls = s.GlobalCulls ∧
    (QuitUser.announce s u user a b).Config = s.Config ∧
    (QuitUser.announce s u user a b).SNO = s.SNO ∧
    (QuitUser.announce s u user a b).Users.clientlist = s.Users.clientlist ∧
    (QuitUser.announce s u user a b).Users.uuidlist = s.Users.uuidlist ∧
    (QuitUser.announce s u user a b).Users.local_users = s.Users.local_users ∧
    (QuitUser.announce s u user a b).Users.local_clones = s.Users.local_clones ∧
    (QuitUser.announce s u user a b).Users.global_clones = s.Users.global_clones ∧
    (QuitUser.announce s u user a b).Users.unregistered_count
      = (if user.registered = Registered.REG_ALL then s.Users.unregistered_count
         else udec s.Users.unregistered_count) := by
  by_cases h : user.registered = Registered.REG_ALL
  · rw [QuitUser.announce, if_pos h, if_pos h]
    exact ⟨rfl, rfl, rfl, rfl, rfl, rfl, rfl, rfl, rfl, rfl⟩
  · rw [QuitUser.announce, if_neg h, if_neg h]
    exact ⟨rfl, rfl, rfl, rfl, rfl, rfl, rfl, rfl, rfl, rfl⟩

theorem disconnect_frame (s : Server) (u : UserId) (user : User) (b : String) :
    (QuitUser.disconnect s u user b).objects = s.objects ∧
    (QuitUser.disconnect s u user b).GlobalCulls = s.GlobalCulls ∧
    (QuitUser.disconnect s u user b).Config = s.Config ∧
    (QuitUser.disconnect s u user b).Users = s.Users := by
  unfold QuitUser.disconnect
  split
  · split <;> exact ⟨rfl, rfl, rfl, rfl⟩
  · exact ⟨rfl, rfl, rfl, rfl⟩

theorem unindex_frame (casemap : Char → Char) (s : Server) (user : User) :
    (QuitUser.unindex casemap s user).objects = s.objects ∧
    (QuitUser.unindex casemap s user).GlobalCulls = s.GlobalCulls ∧
    (QuitUser.unindex casemap s user).Config = s.Config ∧
    (QuitUser.unindex casemap s user).SNO = s.SNO ∧
    (QuitUser.unindex casemap s user).Trace = s.Trace ∧
    (QuitUser.unindex casemap s user).Users.clientlist
      = erase (fold casemap) s.Users.clientlist user.nick ∧
    (QuitUser.unindex casemap s user).Users.uuidlist
      = erase (fold casemap) s.Users.uuidlist user.uuid ∧
    (QuitUser.unindex casemap s user).Users.local_users = s.Users.local_users ∧
    (QuitUser.unindex casemap s user).Users.local_clones = s.Users.local_clones ∧
    (QuitUser.unindex casemap s user).Users.global_clones = s.Users.global_clones ∧
    (QuitUser.unindex casemap s user).Users.unregistered_count
      = s.Users.unregistered_count := by
  unfold QuitUser.unindex
  cases hfind : find (fold casemap) s.Users.clientlist user.nick with
  | none =>
    have he := erase_of_find_none (fold casemap) s.Users.clientlist user.nick hfind
    exact ⟨rfl, rfl, rfl, rfl, rfl, he.symm, rfl, rfl, rfl, rfl, rfl⟩
  | some v =>
    exact ⟨rfl, rfl, rfl, rfl, rfl, rfl, rfl, rfl, rfl, rfl, rfl⟩

theorem Write_eq (s : Server) (u : UserId) (user : User) (line : String)
    (hu : s.objects[u]? = some user) :
    Write s u line = s.store u { user with sendq := user.sendq ++ [line] } := by
  unfold Write
  rw [hu]

theorem QuitUser_eq (casemap : Char → Char) (s : Server) (u : UserId) (user : User)
    (r : String) (o : Option String) (hu : s.objects[u]? = some user)
    (hq : user.quitting = false) (hs : IS_SERVER user = false) :
    QuitUser casemap s u r o =
      (QuitUser.unindex casemap
        (QuitUser.disconnect
          (QuitUser.announce (quitMarked s u user r o)
            u user (r.take s.Config.MaxQuit) (o.getD (r.take s.Config.MaxQuit)))
          u user (o.getD (r.take s.Config.MaxQuit)))
        user).call (Call.PurgeEmptyChannels u) := by
  have hset := getElem?_set_same s.objects u user { user with quitting := true } hu
  unfold QuitUser
  rw [hu]
  simp only [hq, hs, Bool.false_eq_true, if_false]
  rw [Write_eq _ u { user with quitting := true } _ (by exact hset)]
  simp only [Server.store, Server.Log, List.set_set, quitMarked, quitObject]

theorem QuitUser_fields (casemap : Char → Char) (s : Server) (u : UserId) (user : User)
    (r : String) (o : Option String) (hu : s.objects[u]? = some user)
    (hq : user.quitting = false) (hs : IS_SERVER user = false) :
    (QuitUser casemap s u r o).objects = s.objects.set u (quitObject user r o) ∧
    (QuitUser casemap s u r o).Users.clientlist
        = erase (fold casemap) s.Users.clientlist user.nick ∧
    (QuitUser casemap s u r o).Users.uuidlist
        = erase (fold casemap) s.Users.uuidlist user.uuid ∧
    (QuitUser casemap s u r o).Users.local_users = s.Users.local_users ∧
    (QuitUser casemap s u r o).Users.local_clones = s.Users.local_clones ∧
    (QuitUser casemap s u r o).Users.global_clones = s.Users.global_clones ∧
    (QuitUser casemap s u r o).Users.unregistered_count
        = (if user.registered = Registered.REG_ALL then s.Users.unregistered_count
           else udec s.Users.unregistered_count) ∧
    (QuitUser casemap s u r o).GlobalCulls = s.GlobalCulls ++ [u] ∧
    (QuitUser casemap s u r o).Config = s.Config := by
  rw [QuitUser_eq casemap s u user r o hu hq hs]
  have h3 : (quitMarked s u user r o).objects = s.objects.set u (quitObject user r o) ∧
      (quitMarked s u user r o).Users = s.Users ∧
      (quitMarked s u user r o).GlobalCulls = s.GlobalCulls ++ [u] ∧
      (quitMarked s u user r o).Config = s.Config := ⟨rfl, rfl, rfl, rfl⟩
  generalize quitMarked s u user r o = s3 at h3 ⊢
  obtain ⟨h3o, h3u, h3c, h3g⟩ := h3
  have ha := announce_frame s3 u user (r.take s.Config.MaxQuit) (o.getD (r.take s.Config.MaxQuit))
  generalize QuitUser.announce s3 u user (r.take s.Config.MaxQuit)
    (o.getD (r.take s.Config.MaxQuit)) = s4 at ha ⊢
  have hd := disconnect_frame s4 u user (o.getD (r.take s.Config.MaxQuit))
  generalize QuitUser.disconnect s4 u user (o.getD (r.take s.Config.MaxQuit)) = s5 at hd ⊢
  have hx := unindex_frame casemap s5 user
  generalize QuitUser.unindex casemap s5 user = s6 at hx ⊢
  obtain ⟨a1, a2, a3, _, a5, a6, a7, a8, a9, a10⟩ := ha
  obtain ⟨d1, d2, d3, d4⟩ := hd
  obtain ⟨x1, x2, x3, _, _, x6, x7, x8, x9, x10, x11⟩ := hx
  simp only [Server.call]
  refine ⟨?_, ?_, ?_, ?_, ?_, ?_, ?_, ?_, ?_⟩
  · rw [x1, d1, a1, h3o]
  · rw [x6, d4, a5, h3u]
  · rw [x7, d4, a6, h3u]
  · rw [x8, d4, a7, h3u]
  · rw [x9, d4, a8, h3u]
  · rw [x10, d4, a9, h3u]
  · rw [x11, d4, a10, h3u]
  · rw [x2, d2, a2, h3c]
  · rw [x3, d3, a3, h3g]

theorem QuitUser_none (casemap : Char → Char) (s : Server) (u : UserId) (r : String)
    (o : Option String) (hu : s.objects[u]? = none) : QuitUser casemap s u r o = s := by
  unfold QuitUser
  rw [hu]

theorem QuitUser_quitting (casemap : Char → Char) (s : Server) (u : UserId) (user : User)
    (r : String) (o : Option String) (hu : s.objects[u]? = some user)
    (hq : user.quitting = true) :
    QuitUser casemap s u r o
      = s.Log "USERS" false ("ERROR: Tried to quit quitting user: " ++ user.nick) := by
  unfold QuitUser
  rw [hu]
  simp only [hq, if_true]

theorem QuitUser_server (casemap : Char → Char) (s : Server) (u : UserId) (user : User)
    (r : String) (o : Option String) (hu : s.objects[u]? = some user)
    (hq : user.quitting = false) (hs : IS_SERVER user = true) :
    QuitUser casemap s u r o
      = s.Log "USERS" false ("ERROR: Tried to quit server user: " ++ user.nick) := by
  unfold QuitUser
  rw [hu]
  simp only [hq, hs, Bool.false_eq_true, if_false, if_true]

/-- C1: `QuitUser` is idempotent.  On a user whose quitting flag is set,
`QuitUser` only adds one line to the server log: the indexes, the counters, the
cull list, the user objects (so also what was written to the user) are as
before.  Hence a second `QuitUser` on the same user leaves the state of the
first one, up to lines of the server log. -/
theorem QuitUser_idempotent (casemap : Char → Char) (s : Server) (u : UserId)
    (r r2 : String) (o o2 : Option String) :
    (∀ user, s.objects[u]? = some user → user.quitting = true →
      QuitUser casemap s u r2 o2
        = { s with Logs := s.Logs ++ [LogLine.mk "USERS" false
              ("ERROR: Tried to quit quitting user: " ++ user.nick)] }) ∧
    (∃ lines, QuitUser casemap (QuitUser casemap s u r o) u r2 o2
        = { QuitUser casemap s u r o with
            Logs := (QuitUser casemap s u r o).Logs ++ lines }) := by
  constructor
  · intro user hu hq
    rw [QuitUser_quitting casemap s u user r2 o2 hu hq]
    rfl
  · cases hu : s.objects[u]? with
    | none =>
      refine ⟨[], ?_⟩
      rw [QuitUser_none casemap s u r o hu, QuitUser_none casemap s u r2 o2 hu,
        List.append_nil]
    | some user =>
      cases hq : user.quitting with
      | true =>
        rw [QuitUser_quitting casemap s u user r o hu hq]
        have hu1 : (s.Log "USERS" false
            ("ERROR: Tried to quit quitting user: " ++ user.nick)).objects[u]? = some user := hu
        rw [QuitUser_quitting casemap _ u user r2 o2 hu1 hq]
        exact ⟨_, rfl⟩
      | false =>
        cases hs : IS_SERVER user with
        | true =>
          rw [QuitUser_server casemap s u user r o hu hq hs]
          have hu1 : (s.Log "USERS" false
              ("ERROR: Tried to quit server user: " ++ user.nick)).objects[u]? = some user := hu
          rw [QuitUser_server casemap _ u user r2 o2 hu1 hq hs]
          exact ⟨_, rfl⟩
        | false =>
          have hf := (QuitUser_fields casemap s u user r o hu hq hs).1
          have hu1 : (QuitUser casemap s u r o).objects[u]? = some (quitObject user r o) := by
            rw [hf]
            exact getElem?_set_same s.objects u user _ hu
          rw [QuitUser_quitting casemap _ u (quitObject user r o) r2 o2 hu1 rfl]
          exact ⟨_, rfl⟩

/-- Instance of C1 on a server whose only user was quit before. -/
theorem QuitUser_idempotent_witness :
    QuitUser id (QuitUser id aliceServer 0 "bye" none) 0 "again" none
      = { QuitUser id aliceServer 0 "bye" none with
          Logs := (QuitUser id aliceServer 0 "bye" none).Logs ++ [LogLine.mk "USERS" false
            ("ERROR: Tried to quit quitting user: " ++ (quitObject alice "bye" none).nick)] } :=
  (QuitUser_idempotent id (QuitUser id aliceServer 0 "bye" none) 0 "bye" "again" none none).1
    (quitObject alice "bye" none) (by decide) (by decide)

/-- C2: the effect of `QuitUser` on the indexes.  For a user that is neither
quitting nor a server, on indexes with one entry per key: afterwards the user
is quitting, `clientlist` has no entry under the nick of the user, `uuidlist`
has none under the uuid, and the entries of all other keys are as before; when
the nick was not in `clientlist`, `clientlist` is unchanged (and the uuid entry
is removed all the same). -/
theorem QuitUser_removes_from_indexes (casemap : Char → Char) (s : Server) (u : UserId)
    (user : User) (r : String) (o : Option String)
    (hu : s.objects[u]? = some user) (hq : user.quitting = false)
    (hs : IS_SERVER user = false)
    (hc : KeysUnique (fold casemap) s.Users.clientlist)
    (hi : KeysUnique (fold casemap) s.Users.uuidlist) :
    (∃ user', (QuitUser casemap s u r o).objects[u]? = some user' ∧ user'.quitting = true
      ∧ user'.nick = user.nick ∧ user'.uuid = user.uuid) ∧
    find (fold casemap) (QuitUser casemap s u r o).Users.clientlist user.nick = none ∧
    find (fold casemap) (QuitUser casemap s u r o).Users.uuidlist user.uuid = none ∧
    (∀ k, fold casemap k ≠ fold casemap user.nick →
      find (fold casemap) (QuitUser casemap s u r o).Users.clientlist k
        = find (fold casemap) s.Users.clientlist k) ∧
    (∀ k, fold casemap k ≠ fold casemap user.uuid →
      find (fold casemap) (QuitUser casemap s u r o).Users.uuidlist k
        = find (fold casemap) s.Users.uuidlist k) ∧
    (find (fold casemap) s.Users.clientlist user.nick = none →
      (QuitUser casemap s u r o).Users.clientlist = s.Users.clientlist) := by
  obtain ⟨ho, hcl, hul, _⟩ := QuitUser_fields casemap s u user r o hu hq hs
  refine ⟨⟨quitObject user r o, ?_, rfl, rfl, rfl⟩, ?_, ?_, ?_, ?_, ?_⟩
  · rw [ho]
    exact getElem?_set_same s.objects u user _ hu
  · rw [hcl]
    exact find_erase_self (fold casemap) _ _ hc
  · rw [hul]
    exact find_erase_self (fold casemap) _ _ hi
  · intro k hk
    rw [hcl]
    exact find_erase_ne (fold casemap) _ _ _ hk
  · intro k hk
    rw [hul]
    exact find_erase_ne (fold casemap) _ _ _ hk
  · intro hn
    rw [hcl]
    exact erase_of_find_none (fold casemap) _ _ hn

/-- Instance of C2: `alice` is quit on the server where she is the only
user. -/
theorem QuitUser_removes_from_indexes_witness :
    (∃ user', (QuitUser id aliceServer 0 "bye" none).objects[0]? = some user'
      ∧ user'.quitting = true ∧ user'.nick = alice.nick ∧ user'.uuid = alice.uuid) ∧
    find (fold id) (QuitUser id aliceServer 0 "bye" none).Users.clientlist alice.nick = none ∧
    find (fold id) (QuitUser id aliceServer 0 "bye" none).Users.uuidlist alice.uuid = none ∧
    (∀ k, fold id k ≠ fold id alice.nick →
      find (fold id) (QuitUser id aliceServer 0 "bye" none).Users.clientlist k
        = find (fold id) aliceServer.Users.clientlist k) ∧
    (∀ k, fold id k ≠ fold id alice.uuid →
      find (fold id) (QuitUser id aliceServer 0 "bye" none).Users.uuidlist k
        = find (fold id) aliceServer.Users.uuidlist k) ∧
    (find (fold id) aliceServer.Users.clientlist alice.nick = none →
      (QuitUser id aliceServer 0 "bye" none).Users.clientlist
        = aliceServer.Users.clientlist) :=
  QuitUser_removes_from_indexes id aliceServer 0 alice "bye" none (by decide) (by decide)
    (by decide) (by decide) (by decide)

/-- C4, as stated, fails: `alice` is a local user that is neither quitting nor
a server, with local and global clone count 1; after `QuitUser` both counts are
still 1, not decremented. -/
theorem QuitUser_clone_counts_counterexample :
    aliceServer.objects[0]? = some alice ∧ IS_LOCAL alice = true ∧
    alice.quitting = false ∧ IS_SERVER alice = false ∧
    LocalCloneCount aliceServer.Users alice = 1 ∧
    GlobalCloneCount aliceServer.Users alice = 1 ∧
    LocalCloneCount (QuitUser id aliceServer 0 "bye" none).Users alice = 1 ∧
    GlobalCloneCount (QuitUser id aliceServer 0 "bye" none).Users alice = 1 ∧
    ¬ (LocalCloneCount (QuitUser id aliceServer 0 "bye" none).Users alice + 1
        = LocalCloneCount aliceServer.Users alice) := by
  decide

/-- C4, amended: for a local user that is neither quitting nor a server, when
`QuitUser` returns the `clientlist` entry of the user has been erased and the
user is in the cull list, while the clone maps, hence the local and global
clone counts of the mask of the user, and `local_users` are unchanged. -/
theorem QuitUser_erases_entry_keeps_clones (casemap : Char → Char) (s : Server)
    (u : UserId) (user : User) (r : String) (o : Option String)
    (hu : s.objects[u]? = some user) (_hl : IS_LOCAL user = true)
    (hq : user.quitting = false) (hs : IS_SERVER user = false)
    (hc : KeysUnique (fold casemap) s.Users.clientlist) :
    find (fold casemap) (QuitUser casemap s u r o).Users.clientlist user.nick = none ∧
    u ∈ (QuitUser casemap s u r o).GlobalCulls ∧
    (QuitUser casemap s u r o).Users.local_clones = s.Users.local_clones ∧
    (QuitUser casemap s u r o).Users.global_clones = s.Users.global_clones ∧
    LocalCloneCount (QuitUser casemap s u r o).Users user = LocalCloneCount s.Users user ∧
    GlobalCloneCount (QuitUser casemap s u r o).Users user = GlobalCloneCount s.Users user ∧
    (QuitUser casemap s u r o).Users.local_users = s.Users.local_users := by
  obtain ⟨_, hcl, _, hlu, hlc, hgc, _, hcu, _⟩ := QuitUser_fields casemap s u user r o hu hq hs
  refine ⟨?_, ?_, hlc, hgc, ?_, ?_, hlu⟩
  · rw [hcl]
    exact find_erase_self (fold casemap) _ _ hc
  · rw [hcu]
    simp
  · unfold LocalCloneCount
    rw [hlc]
  · unfold GlobalCloneCount
    rw [hgc]

/-- Instance of the amended C4 on the server where `alice` is the only user. -/
theorem QuitUser_erases_entry_keeps_clones_witness :
    find (fold id) (QuitUser id aliceServer 0 "bye" none).Users.clientlist alice.nick = none ∧
    0 ∈ (QuitUser id aliceServer 0 "bye" none).GlobalCulls ∧
    (QuitUser id aliceServer 0 "bye" none).Users.local_clones
      = aliceServer.Users.local_clones ∧
    (QuitUser id aliceServer 0 "bye" none).Users.global_clones
      = aliceServer.Users.global_clones ∧
    LocalCloneCount (QuitUser id aliceServer 0 "bye" none).Users alice
      = LocalCloneCount aliceServer.Users alice ∧
    GlobalCloneCount (QuitUser id aliceServer 0 "bye" none).Users alice
      = GlobalCloneCount aliceServer.Users alice ∧
    (QuitUser id aliceServer 0 "bye" none).Users.local_users
      = aliceServer.Users.local_users :=
  QuitUser_erases_entry_keeps_clones id aliceServer 0 alice "bye" none (by decide)
    (by decide) (by decide) (by decide) (by decide)

/-- Instance of C5: a local user whose mask is new to the maps, and a remote
user whose mask has count 3. -/
theorem clone_counters_round_trip_witness :
    (RemoveCloneCounts (AddGlobalClone (AddLocalClone aliceServer.Users
        { alice with cidr := "198.51.100.0/24" }) { alice with cidr := "198.51.100.0/24" })
        { alice with cidr := "198.51.100.0/24" } = aliceServer.Users ∧
      ∀ e ∈ (RemoveCloneCounts (AddGlobalClone (AddLocalClone aliceServer.Users
        { alice with cidr := "198.51.100.0/24" }) { alice with cidr := "198.51.100.0/24" })
        { alice with cidr := "198.51.100.0/24" }).local_clones, e.2 ≠ 0) ∧
    (RemoveCloneCounts (AddGlobalClone aliceServer.Users
        { alice with usertype := UserType.USERTYPE_REMOTE })
        { alice with usertype := UserType.USERTYPE_REMOTE } = aliceServer.Users ∧
      (AddGlobalClone aliceServer.Users
        { alice with usertype := UserType.USERTYPE_REMOTE }).local_clones
        = aliceServer.Users.local_clones ∧
      ∀ e ∈ (RemoveCloneCounts (AddGlobalClone aliceServer.Users
        { alice with usertype := UserType.USERTYPE_REMOTE })
        { alice with usertype := UserType.USERTYPE_REMOTE }).global_clones, e.2 ≠ 0) :=
  ⟨(clone_counters_round_trip aliceServer.Users { alice with cidr := "198.51.100.0/24" }
      (by decide) (by decide)).1 (by decide),
   (clone_counters_round_trip aliceServer.Users
      { alice with usertype := UserType.USERTYPE_REMOTE } (by decide) (by decide)).2
      (by decide)⟩

/-! ## AddUser -/

theorem set_concat_length {β : Type} (l : List β) (x y : β) :
    (l ++ [x]).set l.length y = l ++ [y] := by
  induction l with
  | nil => rfl
  | cons a l ih => simp [List.set, ih]

theorem getElem?_concat_length {β : Type} (l : List β) (x : β) :
    (l ++ [x])[l.length]? = some x := by
  simp

theorem accept_none (casemap : Char → Char) (s : Server) (a : Accept)
    (h : (find (fold casemap) s.Users.uuidlist a.uuid).isSome = true) :
    AddUser.accept casemap s a = none := by
  unfold AddUser.accept LocalUser.new
  simp only [h, if_true]

theorem accept_some (casemap : Char → Char) (s : Server) (a : Accept)
    (h : (find (fold casemap) s.Users.uuidlist a.uuid).isSome = false) :
    ∃ s', AddUser.accept casemap s a = some (s', s.objects.length) ∧
      s'.objects = s.objects ++ [acceptedUser s.Config a] ∧
      s'.Config = s.Config ∧ s'.GlobalCulls = s.GlobalCulls ∧ s'.SNO = s.SNO ∧
      s'.Users.clientlist = assign (fold casemap) s.Users.clientlist a.uuid s.objects.length ∧
      s'.Users.uuidlist = assign (fold casemap) s.Users.uuidlist a.uuid s.objects.length ∧
      s'.Users.unregistered_count = uinc s.Users.unregistered_count ∧
      s'.Users.local_users = s.objects.length :: s.Users.local_users ∧
      s'.Users.local_clones = cloneIncrement s.Users.local_clones a.cidr ∧
      s'.Users.global_clones = cloneIncrement s.Users.global_clones a.cidr := by
  unfold AddUser.accept LocalUser.new
  simp only [h, Bool.false_eq_true, if_false]
  cases a.iohookprov <;>
  simp only [Server.modify, Server.store, Server.Log, Server.call, getElem?_concat_length,
    set_concat_length, AddGlobalClone, AddLocalClone, GetCIDRMask, Bool.false_eq_true,
    if_false, if_true] <;>
  exact ⟨_, rfl, rfl, rfl, rfl, rfl, rfl, rfl, rfl, rfl, rfl, rfl⟩

theorem added_log (s0 : Server) (a : Accept) (s : Server) (t : String) (d : Bool)
    (x : String) (h : AddedState s0 a s) : AddedState s0 a (s.Log t d x) := h

theorem added_call (s0 : Server) (a : Accept) (s : Server) (c : Call)
    (h : AddedState s0 a s) : AddedState s0 a (s.call c) := h

theorem added_sno (s0 : Server) (a : Accept) (s : Server) (c : Char) (x : String)
    (h : AddedState s0 a s) : AddedState s0 a (s.WriteToSnoMask c x) := h

theorem added_modify (s0 : Server) (a : Accept) (s : Server) (f : User → User)
    (hf : ∀ user, (f user).registered = user.registered ∧ (f user).usertype = user.usertype
      ∧ (f user).uuid = user.uuid ∧ (f user).nick = user.nick ∧ (f user).cidr = user.cidr
      ∧ (f user).age = user.age ∧ (f user).signon = user.signon
      ∧ (f user).quitting = user.quitting)
    (h : AddedState s0 a s) : AddedState s0 a (s.modify s0.objects.length f) := by
  obtain ⟨user, ho, h1, h2, h3, h4, h5, h6, h7, h8, h9, h10, h11, h12⟩ := h
  have hget : s.objects[s0.objects.length]? = some user := by
    rw [ho]; exact getElem?_concat_length _ _
  obtain ⟨f1, f2, f3, f4, f5, f6, f7, f8⟩ := hf user
  refine ⟨f user, ?_, f1.trans h1, f2.trans h2, f3.trans h3, f4.trans h4, f5.trans h5,
    f6.trans h6, f7.trans h7, ?_, ?_, ?_, ?_, ?_⟩
  · unfold Server.modify
    rw [hget]
    show s.objects.set s0.objects.length (f user) = _
    rw [ho, set_concat_length]
  · unfold Server.modify; rw [hget]; exact h8
  · unfold Server.modify; rw [hget]; exact h9
  · unfold Server.modify; rw [hget]; exact h10
  · unfold Server.modify; rw [hget]; exact h11
  · unfold Server.modify; rw [hget]; rw [f8]; exact h12

theorem Write_eq_modify (s : Server) (u : UserId) (line : String) :
    Write s u line = s.modify u (fun user => { user with sendq := user.sendq ++ [line] }) := by
  unfold Write Server.modify
  rfl

theorem added_Write (s0 : Server) (a : Accept) (s : Server) (line : String)
    (h : AddedState s0 a s) : AddedState s0 a (Write s s0.objects.length line) := by
  rw [Write_eq_modify]
  exact added_modify s0 a s _ (fun _ => ⟨rfl, rfl, rfl, rfl, rfl, rfl, rfl, rfl⟩) h

theorem added_WriteNotice (s0 : Server) (a : Accept) (s : Server) (text : String)
    (h : AddedState s0 a s) : AddedState s0 a (WriteNotice s s0.objects.length text) := by
  unfold WriteNotice
  split
  · exact h
  · exact added_Write s0 a s _ h

theorem added_quit (casemap : Char → Char) (s0 : Server) (a : Accept) (s : Server)
    (r : String) (o : Option String) (h : AddedState s0 a s) :
    AddedState s0 a (QuitUser casemap s s0.objects.length r o) := by
  obtain ⟨user, ho, h1, h2, h3, h4, h5, h6, h7, h8, h9, h10, h11, h12⟩ := h
  have hget : s.objects[s0.objects.length]? = some user := by
    rw [ho]; exact getElem?_concat_length _ _
  cases hq : user.quitting with
  | true =>
    rw [QuitUser_quitting casemap s _ user r o hget hq]
    exact added_log s0 a s _ _ _ ⟨user, ho, h1, h2, h3, h4, h5, h6, h7, h8, h9, h10, h11, h12⟩
  | false =>
    have hs : IS_SERVER user = false := by
      unfold IS_SERVER; rw [h2]; decide
    obtain ⟨q1, _, _, q4, q5, q6, q7, _, q9⟩ :=
      QuitUser_fields casemap s _ user r o hget hq hs
    refine ⟨quitObject user r o, ?_, h1, h2, h3, h4, h5, h6, h7, q9.trans h8, q4.trans h9,
      q5.trans h10, q6.trans h11, Or.inr ⟨rfl, ?_⟩⟩
    · rw [q1, ho, set_concat_length]
    · rw [q7]
      have hne : ¬ user.registered = Registered.REG_ALL := by rw [h1]; decide
      rw [if_neg hne]
      rcases h12 with ⟨_, hc⟩ | ⟨hq', _⟩
      · rw [hc]
      · rw [hq] at hq'; cases hq'

theorem added_finish (casemap : Char → Char) (s0 : Server) (a : Accept) (s : Server)
    (h : AddedState s0 a s) : AddedState s0 a (AddUser.finish casemap s a s0.objects.length) := by
  unfold AddUser.finish
  simp only []
  repeat' split
  all_goals
    repeat with_reducible (first
      | exact h
      | apply added_call
      | apply added_quit
      | apply added_log
      | apply added_WriteNotice)

theorem added_bans (casemap : Char → Char) (s0 : Server) (a : Accept) (s : Server)
    (h : AddedState s0 a s) : AddedState s0 a (AddUser.bans casemap s a s0.objects.length) := by
  have hm : AddedState s0 a
      (s.modify s0.objects.length (fun user => { user with exempt := a.eline })) :=
    added_modify s0 a s _ (fun _ => ⟨rfl, rfl, rfl, rfl, rfl, rfl, rfl, rfl⟩) h
  unfold AddUser.bans
  simp only []
  repeat' split
  all_goals
    repeat with_reducible (first
      | exact hm
      | apply added_finish
      | apply added_call
      | apply added_quit
      | apply added_log
      | apply added_WriteNotice)

theorem added_screen (casemap : Char → Char) (s0 : Server) (a : Accept) (s : Server)
    (h : AddedState s0 a s) : AddedState s0 a (AddUser.screen casemap s a s0.objects.length) := by
  have hm : AddedState s0 a
      ((s.call (Call.SetClass s0.objects.length)).modify s0.objects.length
        (fun user => { user with MyClass := a.MyClass })) :=
    added_modify s0 a _ _ (fun _ => ⟨rfl, rfl, rfl, rfl, rfl, rfl, rfl, rfl⟩)
      (added_call s0 a s _ h)
  unfold AddUser.screen
  simp only []
  repeat' split
  all_goals
    repeat with_reducible (first
      | exact hm
      | apply added_bans
      | apply added_call
      | apply added_quit
      | apply added_log)

/-- The two outcomes of `AddUser`: the constructor threw and nothing but the
log and the server notices changed, or the connection was entered. -/
theorem AddUser_outcome (casemap : Char → Char) (s : Server) (a : Accept) :
    ((find (fold casemap) s.Users.uuidlist a.uuid).isSome = true ∧
      (AddUser casemap s a).Users = s.Users ∧ (AddUser casemap s a).objects = s.objects ∧
      (AddUser casemap s a).Config = s.Config) ∨
    ((find (fold casemap) s.Users.uuidlist a.uuid).isSome = false ∧
      AddedState s a (AddUser casemap s a)) := by
  cases h : (find (fold casemap) s.Users.uuidlist a.uuid).isSome with
  | true =>
    left
    unfold AddUser
    rw [accept_none casemap s a h]
    exact ⟨rfl, rfl, rfl, rfl⟩
  | false =>
    right
    refine ⟨rfl, ?_⟩
    obtain ⟨s', hs', ho, hc, _, _, _, _, hu, hl, hlc, hgc⟩ := accept_some casemap s a h
    have hadd : AddedState s a s' :=
      ⟨acceptedUser s.Config a, ho, rfl, rfl, rfl, rfl, rfl, rfl, rfl, hc, hl, hlc, hgc,
        Or.inl ⟨rfl, hu⟩⟩
    unfold AddUser
    rw [hs']
    simp only []
    split
    · exact added_quit casemap s a _ _ _ (added_sno s a s' _ _ hadd)
    · exact added_screen casemap s a s' hadd

/-! ## Clone accounting -/

theorem QuitUser_keeps (casemap : Char → Char) (s : Server) (u : UserId) (r : String)
    (o : Option String) :
    (QuitUser casemap s u r o).Users.local_users = s.Users.local_users ∧
    (QuitUser casemap s u r o).Users.local_clones = s.Users.local_clones ∧
    (QuitUser casemap s u r o).Users.global_clones = s.Users.global_clones ∧
    (QuitUser casemap s u r o).objects.length = s.objects.length ∧
    (QuitUser casemap s u r o).Config = s.Config := by
  cases hu : s.objects[u]? with
  | none =>
    rw [QuitUser_none casemap s u r o hu]
    exact ⟨rfl, rfl, rfl, rfl, rfl⟩
  | some user =>
    cases hq : user.quitting with
    | true =>
      rw [QuitUser_quitting casemap s u user r o hu hq]
      exact ⟨rfl, rfl, rfl, rfl, rfl⟩
    | false =>
      cases hs : IS_SERVER user with
      | true =>
        rw [QuitUser_server casemap s u user r o hu hq hs]
        exact ⟨rfl, rfl, rfl, rfl, rfl⟩
      | false =>
        obtain ⟨q1, _, _, q4, q5, q6, _, _, q9⟩ :=
          QuitUser_fields casemap s u user r o hu hq hs
        refine ⟨q4, q5, q6, ?_, q9⟩
        rw [q1, List.length_set]

theorem cloneSum_assign_none (m : List (cidr_mask × Nat)) (k : cidr_mask) (v : Nat)
    (h : find id m k = none) : cloneSum (assign id m k v) = cloneSum m + v := by
  induction m with
  | nil => simp [assign, cloneSum]
  | cons e rest ih =>
    obtain ⟨k0, v0⟩ := e
    by_cases hk : id k0 = id k
    · simp only [find, if_pos hk] at h
      cases h
    · simp only [find, if_neg hk] at h
      have := ih h
      simp only [assign, if_neg hk, cloneSum, List.map_cons, List.sum_cons] at this ⊢
      omega

theorem cloneSum_assign_some (m : List (cidr_mask × Nat)) (k : cidr_mask) (v c : Nat)
    (h : find id m k = some c) : cloneSum (assign id m k v) + c = cloneSum m + v := by
  induction m with
  | nil => simp [find] at h
  | cons e rest ih =>
    obtain ⟨k0, v0⟩ := e
    by_cases hk : id k0 = id k
    · simp only [find, if_pos hk, Option.some.injEq] at h
      simp only [assign, if_pos hk, cloneSum, List.map_cons, List.sum_cons]
      omega
    · simp only [find, if_neg hk] at h
      have := ih h
      simp only [assign, if_neg hk, cloneSum, List.map_cons, List.sum_cons] at this ⊢
      omega

theorem find_le_cloneSum (m : List (cidr_mask × Nat)) (k : cidr_mask) (c : Nat)
    (h : find id m k = some c) : c ≤ cloneSum m := by
  induction m with
  | nil => simp [find] at h
  | cons e rest ih =>
    obtain ⟨k0, v0⟩ := e
    by_cases hk : id k0 = id k
    · simp only [find, if_pos hk, Option.some.injEq] at h
      simp only [cloneSum, List.map_cons, List.sum_cons]
      omega
    · simp only [find, if_neg hk] at h
      have := ih h
      simp only [cloneSum, List.map_cons, List.sum_cons] at this ⊢
      omega

theorem cloneSum_increment (m : List (cidr_mask × Nat)) (k : cidr_mask)
    (h : cloneSum m < UINT_MAX) : cloneSum (cloneIncrement m k) = cloneSum m + 1 := by
  unfold cloneIncrement
  cases hf : find id m k with
  | none =>
    have h1 : uinc 0 = 1 := by decide
    rw [Option.getD_none, h1]
    exact cloneSum_assign_none m k 1 hf
  | some c =>
    have hc := find_le_cloneSum m k c hf
    have h1 : uinc c = c + 1 := by
      unfold uinc
      rw [if_neg (by omega)]
    rw [Option.getD_some, h1]
    have := cloneSum_assign_some m k (c + 1) c hf
    omega

theorem apply_length_le (casemap : Char → Char) (s : Server) (op : Op)
    (hop : op.isRemoveCloneCounts = false) :
    s.Users.local_users.length ≤ (Op.apply casemap s op).Users.local_users.length := by
  cases op with
  | AddUser a =>
    show _ ≤ (AddUser casemap s a).Users.local_users.length
    rcases AddUser_outcome casemap s a with ⟨_, hU, _⟩ | ⟨_, user, _, _, _, _, _, _, _, _, _, hl, _⟩
    · rw [hU]
    · rw [hl, List.length_cons]; omega
  | QuitUser u r o =>
    show _ ≤ (QuitUser casemap s u r o).Users.local_users.length
    rw [(QuitUser_keeps casemap s u r o).1]
  | RemoveCloneCounts u => cases hop

theorem apply_accounting (casemap : Char → Char) (s : Server) (op : Op)
    (hop : op.isRemoveCloneCounts = false) (h : CloneAccounting s)
    (hb : (Op.apply casemap s op).Users.local_users.length < UINT_MOD) :
    CloneAccounting (Op.apply casemap s op) := by
  cases op with
  | AddUser a =>
    change (AddUser casemap s a).Users.local_users.length < UINT_MOD at hb
    show CloneAccounting (AddUser casemap s a)
    rcases AddUser_outcome casemap s a with ⟨_, hU, _⟩ |
      ⟨_, user, _, _, _, _, _, _, _, _, _, hl, hlc, hgc, _⟩
    · unfold CloneAccounting
      rw [hU]
      exact h
    · unfold CloneAccounting at h ⊢
      rw [hl, List.length_cons] at hb
      have hM : UINT_MOD = UINT_MAX + 1 := by decide
      rw [hl, hlc, hgc, List.length_cons,
        cloneSum_increment _ _ (by omega), cloneSum_increment _ _ (by omega)]
      omega
  | QuitUser u r o =>
    show CloneAccounting (QuitUser casemap s u r o)
    obtain ⟨q1, q2, q3, _⟩ := QuitUser_keeps casemap s u r o
    unfold CloneAccounting at h ⊢
    rw [q1, q2, q3]
    exact h
  | RemoveCloneCounts u => cases hop

theorem foldl_length_le (casemap : Char → Char) (ops : List Op) :
    ∀ s, (∀ op ∈ ops, Op.isRemoveCloneCounts op = false) →
      s.Users.local_users.length
        ≤ (ops.foldl (Op.apply casemap) s).Users.local_users.length := by
  induction ops with
  | nil => intro s _; exact Nat.le_refl _
  | cons op rest ih =>
    intro s hops
    have h1 := apply_length_le casemap s op (hops op (by simp))
    have h2 := ih (Op.apply casemap s op) (fun o ho => hops o (by simp [ho]))
    simp only [List.foldl_cons]
    omega

theorem foldl_accounting (casemap : Char → Char) (ops : List Op) :
    ∀ s, (∀ op ∈ ops, Op.isRemoveCloneCounts op = false) → CloneAccounting s →
      (ops.foldl (Op.apply casemap) s).Users.local_users.length < UINT_MOD →
      CloneAccounting (ops.foldl (Op.apply casemap) s) := by
  induction ops with
  | nil => intro s _ h _; exact h
  | cons op rest ih =>
    intro s hops h hb
    simp only [List.foldl_cons] at hb ⊢
    have hrest : ∀ o ∈ rest, Op.isRemoveCloneCounts o = false :=
      fun o ho => hops o (by simp [ho])
    have hle := foldl_length_le casemap rest (Op.apply casemap s op) hrest
    exact ih _ hrest
      (apply_accounting casemap s op (hops op (by simp)) h (by omega)) hb

/-- C3, as stated, fails: after `AddUser` and then `RemoveCloneCounts` on the
new user, both clone maps are empty (sum 0) while the user is still in
`local_users`, in `clientlist` and in `uuidlist`. -/
theorem clone_accounting_counterexample :
    cloneSum (run id sampleConfig
      [Op.AddUser (sampleAccept "100AAAAAA"), Op.RemoveCloneCounts 0]).Users.local_clones = 0 ∧
    cloneSum (run id sampleConfig
      [Op.AddUser (sampleAccept "100AAAAAA"), Op.RemoveCloneCounts 0]).Users.global_clones = 0 ∧
    (run id sampleConfig
      [Op.AddUser (sampleAccept "100AAAAAA"), Op.RemoveCloneCounts 0]).Users.local_users.length
      = 1 ∧
    (run id sampleConfig
      [Op.AddUser (sampleAccept "100AAAAAA"), Op.RemoveCloneCounts 0]).Users.clientlist.length
      = 1 ∧
    (run id sampleConfig
      [Op.AddUser (sampleAccept "100AAAAAA"), Op.RemoveCloneCounts 0]).Users.uuidlist.length
      = 1 := by
  decide

/-- C3, amended: in every state reached from the empty user manager by
`AddUser` and `QuitUser` alone, with fewer than 2^32 users in `local_users`, the
sum of the counts in `local_clones` and the sum of the counts in
`global_clones` both equal the number of users in `local_users` (users that
were quit included: `QuitUser` changes neither the clone maps nor
`local_users`). -/
theorem clone_accounting (casemap : Char → Char) (cfg : ServerConfig) (ops : List Op)
    (hops : ∀ op ∈ ops, Op.isRemoveCloneCounts op = false)
    (hb : (run casemap cfg ops).Users.local_users.length < UINT_MOD) :
    cloneSum (run casemap cfg ops).Users.local_clones
      = (run casemap cfg ops).Users.local_users.length ∧
    cloneSum (run casemap cfg ops).Users.global_clones
      = (run casemap cfg ops).Users.local_users.length :=
  foldl_accounting casemap ops (Server.init cfg) hops ⟨rfl, rfl⟩ hb

/-- Instance of the amended C3: two connections from one address, the first
quit in between. -/
theorem clone_accounting_witness :
    cloneSum (run id sampleConfig [Op.AddUser (sampleAccept "100AAAAAA"),
      Op.QuitUser 0 "bye" none, Op.AddUser (sampleAccept "100AAAAAB")]).Users.local_clones
      = (run id sampleConfig [Op.AddUser (sampleAccept "100AAAAAA"),
      Op.QuitUser 0 "bye" none, Op.AddUser (sampleAccept "100AAAAAB")]).Users.local_users.length ∧
    cloneSum (run id sampleConfig [Op.AddUser (sampleAccept "100AAAAAA"),
      Op.QuitUser 0 "bye" none, Op.AddUser (sampleAccept "100AAAAAB")]).Users.global_clones
      = (run id sampleConfig [Op.AddUser (sampleAccept "100AAAAAA"),
      Op.QuitUser 0 "bye" none, Op.AddUser (sampleAccept "100AAAAAB")]).Users.local_users.length :=
  clone_accounting id sampleConfig [Op.AddUser (sampleAccept "100AAAAAA"),
      Op.QuitUser 0 "bye" none, Op.AddUser (sampleAccept "100AAAAAB")] (by decide) (by decide)

/-! ## The background tick -/

theorem QuitUser_object_cases (casemap : Char → Char) (s : Server) (u : UserId) (c : User)
    (r : String) (o : Option String) (hu : s.objects[u]? = some c) :
    (QuitUser casemap s u r o).objects[u]? = some c ∨
    (c.quitting = false ∧ IS_SERVER c = false ∧
      (QuitUser casemap s u r o).objects[u]? = some (quitObject c r o)) := by
  cases hq : c.quitting with
  | true =>
    left
    rw [QuitUser_quitting casemap s u c r o hu hq]
    exact hu
  | false =>
    cases hs : IS_SERVER c with
    | true =>
      left
      rw [QuitUser_server casemap s u c r o hu hq hs]
      exact hu
    | false =>
      right
      refine ⟨rfl, rfl, ?_⟩
      rw [(QuitUser_fields casemap s u c r o hu hq hs).1]
      exact getElem?_set_same s.objects u c _ hu

theorem QuitUser_other (casemap : Char → Char) (s : Server) (u v : UserId) (r : String)
    (o : Option String) (hne : v ≠ u) :
    (QuitUser casemap s v r o).objects[u]? = s.objects[u]? := by
  cases hv : s.objects[v]? with
  | none => rw [QuitUser_none casemap s v r o hv]
  | some c =>
    cases hq : c.quitting with
    | true =>
      rw [QuitUser_quitting casemap s v c r o hv hq]
      rfl
    | false =>
      cases hs : IS_SERVER c with
      | true =>
        rw [QuitUser_server casemap s v c r o hv hq hs]
        rfl
      | false =>
        rw [(QuitUser_fields casemap s v c r o hv hq hs).1]
        exact List.getElem?_set_ne hne

theorem modify_object (s : Server) (u : UserId) (c : User) (f : User → User)
    (hu : s.objects[u]? = some c) :
    (s.modify u f).objects[u]? = some (f c) ∧ (s.modify u f).Config = s.Config ∧
    (s.modify u f).Users = s.Users := by
  unfold Server.modify
  rw [hu]
  exact ⟨getElem?_set_same s.objects u c _ hu, rfl, rfl⟩

theorem modify_other (s : Server) (u v : UserId) (f : User → User) (hne : v ≠ u) :
    (s.modify v f).objects[u]? = s.objects[u]? := by
  unfold Server.modify
  split
  · rfl
  · exact List.getElem?_set_ne hne

theorem modify_keeps (s : Server) (v : UserId) (f : User → User) :
    (s.modify v f).Config = s.Config ∧ (s.modify v f).Users = s.Users := by
  unfold Server.modify
  split <;> exact ⟨rfl, rfl⟩

/-- A property of the server that the statements of the loop body keep. -/
theorem state_preserves (casemap : Char → Char) (mods : List (UserId → ModResult))
    (now : Int) (v : UserId) (Q : Server → Prop)
    (hcall : ∀ s c, Q s → Q (s.call c))
    (hmod : ∀ s f, (∀ user : User, (f user).CommandFloodPenalty = user.CommandFloodPenalty) →
      Q s → Q (s.modify v f))
    (hquit : ∀ s r o, Q s → Q (QuitUser casemap s v r o))
    (s : Server) (h : Q s) : Q (tickUser.state casemap mods now s v) := by
  have hreg : ∀ s, Q s → Q (registrationTimeout casemap now s v) := by
    intro s hs
    unfold registrationTimeout
    repeat' split
    all_goals first | exact hs | exact hquit _ _ _ hs
  unfold tickUser.state
  simp only []
  repeat' split
  all_goals
    first
      | exact h
      | exact hquit _ _ _ h
      | exact hreg _ h
      | (refine hreg _ (hmod _ _ (fun _ => rfl) ?_)
         rw [Write_eq_modify]
         exact hmod _ _ (fun _ => rfl) h)
      | (unfold FullConnect; exact hmod _ _ (fun _ => rfl) (hcall _ _ h))

theorem tick_preserves (casemap : Char → Char) (mods : List (UserId → ModResult))
    (now : Int) (v : UserId) (Q : Server → Prop)
    (hcall : ∀ s c, Q s → Q (s.call c))
    (hstore : ∀ s x, Q s → Q (s.store v x))
    (hquit : ∀ s r o, Q s → Q (QuitUser casemap s v r o))
    (s : Server) (h : Q s) : Q (tickUser casemap mods now s v) := by
  have hmod : ∀ s f, (∀ user : User, (f user).CommandFloodPenalty = user.CommandFloodPenalty) →
      Q s → Q (s.modify v f) := by
    intro s f _ hs
    unfold Server.modify
    split
    · exact hs
    · exact hstore _ _ hs
  unfold tickUser
  split
  · exact h
  · split
    · exact h
    · apply state_preserves casemap mods now v Q hcall hmod hquit
      unfold tickUser.decay
      split
      · exact hcall _ _ (hstore _ _ h)
      · exact h

/-- The tick of another user leaves the object, the configuration and
`local_users` alone. -/
theorem tick_other (casemap : Char → Char) (mods : List (UserId → ModResult)) (now : Int)
    (u v : UserId) (hne : v ≠ u) (X : Option User) (cfg : ServerConfig) (L : List UserId)
    (s : Server) (h : s.objects[u]? = X ∧ s.Config = cfg ∧ s.Users.local_users = L) :
    (tickUser casemap mods now s v).objects[u]? = X ∧
    (tickUser casemap mods now s v).Config = cfg ∧
    (tickUser casemap mods now s v).Users.local_users = L := by
  apply tick_preserves casemap mods now v
    (fun s => s.objects[u]? = X ∧ s.Config = cfg ∧ s.Users.local_users = L)
  · intro s c hs; exact hs
  · intro s x hs
    refine ⟨?_, hs.2.1, hs.2.2⟩
    show (s.objects.set v x)[u]? = X
    rw [List.getElem?_set_ne hne]; exact hs.1
  · intro s r o hs
    obtain ⟨q1, _, _, _, q5⟩ := QuitUser_keeps casemap s v r o
    exact ⟨(QuitUser_other casemap s u v r o hne).trans hs.1, q5.trans hs.2.1,
      q1.trans hs.2.2⟩
  · exact h

theorem tick_local_users (casemap : Char → Char) (mods : List (UserId → ModResult))
    (now : Int) (v : UserId) (s : Server) :
    (tickUser casemap mods now s v).Users.local_users = s.Users.local_users ∧
    (tickUser casemap mods now s v).Config = s.Config := by
  apply tick_preserves casemap mods now v
    (fun t => t.Users.local_users = s.Users.local_users ∧ t.Config = s.Config)
  · intro t c ht; exact ht
  · intro t x ht; exact ht
  · intro t r o ht
    obtain ⟨q1, _, _, _, q5⟩ := QuitUser_keeps casemap t v r o
    exact ⟨q1.trans ht.1, q5.trans ht.2⟩
  · exact ⟨rfl, rfl⟩

theorem foldl_tick_other (casemap : Char → Char) (mods : List (UserId → ModResult))
    (now : Int) (u : UserId) (X : Option User) (cfg : ServerConfig) (L : List UserId)
    (l : List UserId) :
    ∀ s, u ∉ l → (s.objects[u]? = X ∧ s.Config = cfg ∧ s.Users.local_users = L) →
      (l.foldl (tickUser casemap mods now) s).objects[u]? = X ∧
      (l.foldl (tickUser casemap mods now) s).Config = cfg ∧
      (l.foldl (tickUser casemap mods now) s).Users.local_users = L := by
  induction l with
  | nil => intro s _ h; exact h
  | cons v rest ih =>
    intro s hn h
    have hv : v ≠ u := fun hc => hn (by simp [hc])
    have hr : u ∉ rest := fun hc => hn (by simp [hc])
    exact ih _ hr (tick_other casemap mods now u v hv X cfg L s h)

/-- The loop of `DoBackgroundUserStuff` acts on the object of a user that is
once in `local_users` as the loop body for that user does, run in a state with
the same object, configuration and `local_users`. -/
theorem loop_object (casemap : Char → Char) (mods : List (UserId → ModResult)) (now : Int)
    (s : Server) (u : UserId) (hmem : u ∈ s.Users.local_users)
    (hnd : s.Users.local_users.Nodup) :
    ∃ s1, s1.objects[u]? = s.objects[u]? ∧ s1.Config = s.Config ∧
      s1.Users.local_users = s.Users.local_users ∧
      (DoBackgroundUserStuff casemap mods now s).objects[u]?
        = (tickUser casemap mods now s1 u).objects[u]? := by
  obtain ⟨l1, l2, hl⟩ := List.append_of_mem hmem
  have hnd' := hnd
  rw [hl] at hnd'
  have h1 : u ∉ l1 := by
    intro hc
    have := (List.nodup_append.1 hnd').2.2
    exact this hc (by simp)
  have h2 : u ∉ l2 := by
    have := (List.nodup_append.1 hnd').2.1
    exact (List.nodup_cons.1 this).1
  have hA := foldl_tick_other casemap mods now u (s.objects[u]?) s.Config
    s.Users.local_users l1 s h1 ⟨rfl, rfl, rfl⟩
  refine ⟨l1.foldl (tickUser casemap mods now) s, hA.1, hA.2.1, hA.2.2, ?_⟩
  unfold DoBackgroundUserStuff
  rw [hl, List.foldl_append, List.foldl_cons]
  exact (foldl_tick_other casemap mods now u _ _ _ l2 _ h2 ⟨rfl, rfl, rfl⟩).1

theorem loop_local_users (casemap : Char → Char) (mods : List (UserId → ModResult))
    (now : Int) (s : Server) :
    (DoBackgroundUserStuff casemap mods now s).Users.local_users = s.Users.local_users ∧
    (DoBackgroundUserStuff casemap mods now s).Config = s.Config := by
  unfold DoBackgroundUserStuff
  have : ∀ (l : List UserId) (t : Server),
      (l.foldl (tickUser casemap mods now) t).Users.local_users = t.Users.local_users ∧
      (l.foldl (tickUser casemap mods now) t).Config = t.Config := by
    intro l
    induction l with
    | nil => intro t; exact ⟨rfl, rfl⟩
    | cons v rest ih =>
      intro t
      have h1 := tick_local_users casemap mods now v t
      have h2 := ih (tickUser casemap mods now t v)
      exact ⟨h2.1.trans h1.1, h2.2.trans h1.2⟩
  exact this s.Users.local_users s

theorem decay_object (s : Server) (u : UserId) (c : User) (hu : s.objects[u]? = some c) :
    (tickUser.decay s u c).objects[u]? = some (decayedUser c) ∧
    (tickUser.decay s u c).Config = s.Config := by
  unfold tickUser.decay
  split
  · exact ⟨getElem?_set_same s.objects u c _ hu, rfl⟩
  · rename_i h
    have hp : c.CommandFloodPenalty = 0 := by
      by_contra hc
      exact h (Or.inl hc)
    refine ⟨?_, rfl⟩
    rw [hu]
    congr 1
    cases c
    simp only [decayedUser, decayPenalty] at hp ⊢
    subst hp
    simp

theorem tickUser_eq (casemap : Char → Char) (mods : List (UserId → ModResult)) (now : Int)
    (s : Server) (u : UserId) (c : User) (hu : s.objects[u]? = some c)
    (hq : c.quitting = false) :
    tickUser casemap mods now s u
      = tickUser.state casemap mods now (tickUser.decay s u c) u := by
  unfold tickUser
  rw [hu]
  simp only [hq, Bool.false_eq_true, if_false]

theorem registrationTimeout_object (casemap : Char → Char) (now : Int) (s : Server)
    (u : UserId) (c : User) (hu : s.objects[u]? = some c) (hq : c.quitting = false)
    (hs : IS_SERVER c = false) :
    (registrationTimeout casemap now s u).objects[u]?
      = (if c.registered ≠ Registered.REG_ALL
            ∧ now > c.age + (c.MyClass.registration_timeout : Int)
         then some (quitObject c "Registration timeout" none) else some c) := by
  unfold registrationTimeout
  rw [hu]
  simp only []
  split
  · rw [(QuitUser_fields casemap s u c _ none hu hq hs).1]
    exact getElem?_set_same s.objects u c _ hu
  · exact hu

theorem registrationTimeout_REG_ALL (casemap : Char → Char) (now : Int) (s : Server)
    (u : UserId) (c : User) (hu : s.objects[u]? = some c)
    (hreg : c.registered = Registered.REG_ALL) :
    registrationTimeout casemap now s u = s := by
  unfold registrationTimeout
  rw [hu]
  simp only [hreg, ne_eq, not_true_eq_false, false_and, if_false]

theorem pingReason_eq (time : Int) :
    ("Ping timeout: " ++ ConvToStr time ++ (if time ≠ 1 then " seconds" else " second"))
      = pingTimeoutReason time := by
  unfold pingTimeoutReason
  by_cases h : time = 1
  · simp [h]
  · simp [h]

/-- The object of a fully registered user after the `switch` of the loop
body. -/
theorem state_REG_ALL (casemap : Char → Char) (mods : List (UserId → ModResult)) (now : Int)
    (s : Server) (u : UserId) (c : User) (hu : s.objects[u]? = some c)
    (hq : c.quitting = false) (hs : IS_SERVER c = false)
    (hreg : c.registered = Registered.REG_ALL) :
    (tickUser.state casemap mods now s u).objects[u]?
      = (if now > c.nping then
           if c.lastping = 0 then
             some (quitObject c
               (pingTimeoutReason (now - (c.nping - (c.MyClass.pingtime : Int)))) none)
           else some (pingedUser s.Config.ServerName now c)
         else some c) := by
  unfold tickUser.state
  rw [hu]
  simp only [hreg]
  split
  · split
    · rw [pingReason_eq, (QuitUser_fields casemap s u c _ none hu hq hs).1]
      exact getElem?_set_same s.objects u c _ hu
    · rw [Write_eq_modify]
      have h1 := modify_object s u c
        (fun user => { user with sendq := user.sendq ++ ["PING :" ++ s.Config.ServerName] }) hu
      have h2 := modify_object _ u _ (fun user => { user with
        lastping := 0, nping := now + (user.MyClass.pingtime : Int) }) h1.1
      rw [registrationTimeout_REG_ALL casemap now _ u _ h2.1 hreg]
      exact h2.1
  · rw [registrationTimeout_REG_ALL casemap now s u c hu hreg]
    exact hu

/-- The object of a user that is not fully registered and not promoted in this
tick, after the `switch` of the loop body. -/
theorem state_unregistered (casemap : Char → Char) (mods : List (UserId → ModResult))
    (now : Int) (s : Server) (u : UserId) (c : User) (hu : s.objects[u]? = some c)
    (hq : c.quitting = false) (hs : IS_SERVER c = false)
    (hreg : c.registered ≠ Registered.REG_ALL)
    (hpro : ¬ (c.registered = Registered.REG_NICKUSER ∧ AllModulesReportReady mods u = true)) :
    (tickUser.state casemap mods now s u).objects[u]?
      = (if now > c.age + (c.MyClass.registration_timeout : Int)
         then some (quitObject c "Registration timeout" none) else some c) := by
  have hrt := registrationTimeout_object casemap now s u c hu hq hs
  simp only [hreg, ne_eq, not_false_eq_true, true_and] at hrt
  unfold tickUser.state
  rw [hu]
  simp only []
  split
  · rename_i h; exact absurd h hreg
  · rename_i h
    split
    · rename_i h'; exact absurd ⟨h, h'⟩ hpro
    · exact hrt
  · exact hrt

theorem IS_SERVER_of_local (c : User) (h : IS_LOCAL c = true) : IS_SERVER c = false := by
  unfold IS_LOCAL at h
  unfold IS_SERVER
  have : c.usertype = UserType.USERTYPE_LOCAL := by simpa using h
  rw [this]
  decide

theorem loop_tick_object (casemap : Char → Char) (mods : List (UserId → ModResult))
    (now : Int) (s : Server) (u : UserId) (c : User) (hmem : u ∈ s.Users.local_users)
    (hnd : s.Users.local_users.Nodup) (hu : s.objects[u]? = some c)
    (hq : c.quitting = false) :
    ∃ s1, s1.objects[u]? = some (decayedUser c) ∧ s1.Config = s.Config ∧
      (DoBackgroundUserStuff casemap mods now s).objects[u]?
        = (tickUser.state casemap mods now s1 u).objects[u]? := by
  obtain ⟨s0, h1, h2, _, h4⟩ := loop_object casemap mods now s u hmem hnd
  rw [hu] at h1
  have hd := decay_object s0 u c h1
  refine ⟨tickUser.decay s0 u c, hd.1, hd.2.trans h2, ?_⟩
  rw [h4, tickUser_eq casemap mods now s0 u c h1 hq]

theorem state_penalty (casemap : Char → Char) (mods : List (UserId → ModResult)) (now : Int)
    (s : Server) (u : UserId) (c : User) (hu : s.objects[u]? = some c) :
    ∃ c2, (tickUser.state casemap mods now s u).objects[u]? = some c2 ∧
      c2.CommandFloodPenalty = c.CommandFloodPenalty := by
  apply state_preserves casemap mods now u
    (fun t => ∃ c2, t.objects[u]? = some c2 ∧ c2.CommandFloodPenalty = c.CommandFloodPenalty)
  · intro t _ ht; exact ht
  · intro t f hf ⟨c2, h1, h2⟩
    exact ⟨f c2, (modify_object t u c2 f h1).1, (hf c2).trans h2⟩
  · intro t r o ⟨c2, h1, h2⟩
    rcases QuitUser_object_cases casemap t u c2 r o h1 with h | ⟨_, _, h⟩
    · exact ⟨c2, h, h2⟩
    · exact ⟨quitObject c2 r o, h, h2⟩
  · exact ⟨c, hu, rfl⟩

/-- C8: the decay of the flood penalty.  For a non-quitting user of
`local_users` with penalty `p` and command rate `r` (both `unsigned int`), after
one run of `DoBackgroundUserStuff` the penalty of the user is `max(0, p - r)`
computed over the integers: `p - r` when `p > r` and 0 otherwise, without
wrap-around. -/
theorem flood_penalty_decay (casemap : Char → Char) (mods : List (UserId → ModResult))
    (now : Int) (s : Server) (u : UserId) (c : User) (hmem : u ∈ s.Users.local_users)
    (hnd : s.Users.local_users.Nodup) (hu : s.objects[u]? = some c)
    (hq : c.quitting = false) (hp : c.CommandFloodPenalty < UINT_MOD)
    (_hr : c.MyClass.commandrate < UINT_MOD) :
    ∃ c', (DoBackgroundUserStuff casemap mods now s).objects[u]? = some c' ∧
      (c'.CommandFloodPenalty : Int)
        = max 0 ((c.CommandFloodPenalty : Int) - (c.MyClass.commandrate : Int)) ∧
      (c.CommandFloodPenalty > c.MyClass.commandrate →
        c'.CommandFloodPenalty = c.CommandFloodPenalty - c.MyClass.commandrate) ∧
      (c.CommandFloodPenalty ≤ c.MyClass.commandrate → c'.CommandFloodPenalty = 0) ∧
      c'.CommandFloodPenalty < UINT_MOD := by
  obtain ⟨s1, h1, _, h3⟩ := loop_tick_object casemap mods now s u c hmem hnd hu hq
  obtain ⟨c2, h4, h5⟩ := state_penalty casemap mods now s1 u (decayedUser c) h1
  have h6 : c2.CommandFloodPenalty
      = decayPenalty c.CommandFloodPenalty c.MyClass.commandrate := h5
  refine ⟨c2, h3.trans h4, ?_, ?_, ?_, ?_⟩
  · rw [h6]
    unfold decayPenalty usub
    split
    · rw [if_pos (by omega)]
      omega
    · omega
  · intro h
    rw [h6]
    unfold decayPenalty usub
    rw [if_pos h, if_pos (by omega)]
  · intro h
    rw [h6]
    unfold decayPenalty
    rw [if_neg (by omega)]
  · rw [h6]
    unfold decayPenalty usub
    split
    · rw [if_pos (by omega)]
      omega
    · unfold UINT_MOD; omega

/-- Instance of C8: `alice` with penalty 1500 and command rate 1000. -/
theorem flood_penalty_decay_witness :
    ∃ c', (DoBackgroundUserStuff id [] 10
        { aliceServer with objects := [{ alice with CommandFloodPenalty := 1500 }] }).objects[0]?
        = some c' ∧
      (c'.CommandFloodPenalty : Int) = max 0 ((1500 : Int) - (1000 : Int)) ∧
      ((1500 : Nat) > 1000 → c'.CommandFloodPenalty = 1500 - 1000) ∧
      ((1500 : Nat) ≤ 1000 → c'.CommandFloodPenalty = 0) ∧
      c'.CommandFloodPenalty < UINT_MOD :=
  flood_penalty_decay id [] 10
    { aliceServer with objects := [{ alice with CommandFloodPenalty := 1500 }] } 0
    { alice with CommandFloodPenalty := 1500 } (by decide) (by decide) (by decide) (by decide)
    (by decide) (by decide)

/-- C9: the ping step of the background tick.  For a non-quitting local user of
`local_users` with `registered == REG_ALL`: when `now > nping` and
`lastping == 0` the user is quit with the reason "Ping timeout: N seconds"
("second" exactly when N is 1), N being `now - (nping - ping_interval)`; when
`now > nping` and `lastping` is not 0 the user is not quit, a PING is written,
`lastping` becomes 0 and `nping` becomes `now + ping_interval`; when
`now <= nping` the user is not quit and `lastping` and `nping` are unchanged.
The object is otherwise the one left by the decay of the penalty. -/
theorem ping_step (casemap : Char → Char) (mods : List (UserId → ModResult))
    (now : Int) (s : Server) (u : UserId) (c : User) (hmem : u ∈ s.Users.local_users)
    (hnd : s.Users.local_users.Nodup) (hu : s.objects[u]? = some c)
    (hq : c.quitting = false) (hl : IS_LOCAL c = true)
    (hreg : c.registered = Registered.REG_ALL) :
    (now > c.nping → c.lastping = 0 →
      (DoBackgroundUserStuff casemap mods now s).objects[u]?
        = some (quitObject (decayedUser c)
            (pingTimeoutReason (now - (c.nping - (c.MyClass.pingtime : Int)))) none)) ∧
    (now > c.nping → c.lastping ≠ 0 →
      (DoBackgroundUserStuff casemap mods now s).objects[u]?
        = some { decayedUser c with
            lastping := 0, nping := now + (c.MyClass.pingtime : Int),
            sendq := c.sendq ++ ["PING :" ++ s.Config.ServerName] }) ∧
    (now ≤ c.nping →
      (DoBackgroundUserStuff casemap mods now s).objects[u]? = some (decayedUser c)) := by
  obtain ⟨s1, h1, h2, h3⟩ := loop_tick_object casemap mods now s u c hmem hnd hu hq
  have hs := IS_SERVER_of_local c hl
  have h4 := state_REG_ALL casemap mods now s1 u (decayedUser c) h1 hq hs hreg
  rw [h3, h4, h2]
  have hn : (decayedUser c).nping = c.nping := rfl
  have hlp : (decayedUser c).lastping = c.lastping := rfl
  rw [hn, hlp]
  refine ⟨?_, ?_, ?_⟩
  · intro ha hb
    rw [if_pos ha, if_pos hb]
    rfl
  · intro ha hb
    rw [if_pos ha, if_neg hb]
    rfl
  · intro ha
    rw [if_neg (by omega)]

set_option maxRecDepth 100000 in
/-- Instance of C9: `alice` at time 121 with the ping unanswered, with the last
ping answered, and at time 120. -/
theorem ping_step_witness :
    (DoBackgroundUserStuff id [] 121
        { aliceServer with objects := [{ alice with lastping := 0 }] }).objects[0]?
      = some (quitObject (decayedUser { alice with lastping := 0 })
          (pingTimeoutReason (121 - (120 - (120 : Int)))) none) ∧
    (DoBackgroundUserStuff id [] 121 aliceServer).objects[0]?
      = some { decayedUser alice with
          lastping := 0, nping := 121 + (120 : Int),
          sendq := alice.sendq ++ ["PING :" ++ aliceServer.Config.ServerName] } ∧
    (DoBackgroundUserStuff id [] 120 aliceServer).objects[0]? = some (decayedUser alice) :=
  ⟨(ping_step id [] 121 { aliceServer with objects := [{ alice with lastping := 0 }] } 0
      { alice with lastping := 0 } (by decide) (by decide) (by decide) (by decide)
      (by decide) (by decide)).1 (by decide) (by decide),
   (ping_step id [] 121 aliceServer 0 alice (by decide) (by decide) (by decide) (by decide)
      (by decide) (by decide)).2.1 (by decide) (by decide),
   (ping_step id [] 120 aliceServer 0 alice (by decide) (by decide) (by decide) (by decide)
      (by decide) (by decide)).2.2 (by decide)⟩

/-- C11, as stated, fails: the user of `bobServer` has `signon` 5 (as set by
`AddUser`) and registration timeout 90, so 93 is not past `signon +
reg_timeout`; yet the tick at time 93 quits the user with "Registration
timeout", because 93 is past `age + reg_timeout`. -/
theorem registration_timeout_counterexample :
    bobServer.objects[0]? = some bob ∧ bob.quitting = false ∧
    bob.registered = Registered.REG_NONE ∧ bob.signon = 5 ∧ bob.age = 0 ∧
    bob.MyClass.registration_timeout = 90 ∧
    ¬ ((93 : Int) > bob.signon + (bob.MyClass.registration_timeout : Int)) ∧
    (DoBackgroundUserStuff id [] 93 bobServer).objects[0]?
      = some (quitObject bob "Registration timeout" none) := by
  decide

/-- C11, amended: in a background tick, a non-quitting local user of
`local_users` with `registered != REG_ALL` that is not promoted by
`FullConnect` in this tick is quit with the reason "Registration timeout" if
and only if `now > age + reg_timeout`, where `age` is the `age` timestamp of
the user object and `reg_timeout` the registration timeout of the class;
otherwise the user is left as the decay of the penalty left it.  For a user
with `registered == REG_ALL` the registration timeout check changes
nothing. -/
theorem registration_timeout (casemap : Char → Char) (mods : List (UserId → ModResult))
    (now : Int) (s : Server) (u : UserId) (c : User) (hmem : u ∈ s.Users.local_users)
    (hnd : s.Users.local_users.Nodup) (hu : s.objects[u]? = some c)
    (hq : c.quitting = false) (hl : IS_LOCAL c = true) :
    (c.registered ≠ Registered.REG_ALL →
      ¬ (c.registered = Registered.REG_NICKUSER ∧ AllModulesReportReady mods u = true) →
      (now > c.age + (c.MyClass.registration_timeout : Int) →
        (DoBackgroundUserStuff casemap mods now s).objects[u]?
          = some (quitObject (decayedUser c) "Registration timeout" none)) ∧
      (¬ now > c.age + (c.MyClass.registration_timeout : Int) →
        (DoBackgroundUserStuff casemap mods now s).objects[u]? = some (decayedUser c))) ∧
    (c.registered = Registered.REG_ALL → registrationTimeout casemap now s u = s) := by
  constructor
  · intro hreg hpro
    obtain ⟨s1, h1, _, h3⟩ := loop_tick_object casemap mods now s u c hmem hnd hu hq
    have hs := IS_SERVER_of_local c hl
    have h4 := state_unregistered casemap mods now s1 u (decayedUser c) h1 hq hs hreg hpro
    rw [h3, h4]
    have ha : (decayedUser c).age = c.age := rfl
    have hm : (decayedUser c).MyClass = c.MyClass := rfl
    rw [ha, hm]
    constructor
    · intro h; rw [if_pos h]
    · intro h; rw [if_neg h]
  · intro hreg
    exact registrationTimeout_REG_ALL casemap now s u c hu hreg

set_option maxRecDepth 100000 in
/-- Instance of the amended C11 on `bobServer`, at the times 93 and 90, and on
`aliceServer`. -/
theorem registration_timeout_witness :
    (DoBackgroundUserStuff id [] 93 bobServer).objects[0]?
      = some (quitObject (decayedUser bob) "Registration timeout" none) ∧
    (DoBackgroundUserStuff id [] 90 bobServer).objects[0]? = some (decayedUser bob) ∧
    registrationTimeout id 500 aliceServer 0 = aliceServer :=
  ⟨((registration_timeout id [] 93 bobServer 0 bob (by decide) (by decide) (by decide)
      (by decide) (by decide)).1 (by decide) (by decide)).1 (by decide),
   ((registration_timeout id [] 90 bobServer 0 bob (by decide) (by decide) (by decide)
      (by decide) (by decide)).1 (by decide) (by decide)).2 (by decide),
   (registration_timeout id [] 500 aliceServer 0 alice (by decide) (by decide) (by decide)
      (by decide) (by decide)).2 (by decide)⟩

theorem runTicks_add (casemap : Char → Char) (mods : List (UserId → ModResult)) (n m : Nat) :
    ∀ (s : Server) (start : Int),
      runTicks casemap mods s start (n + m)
        = runTicks casemap mods (runTicks casemap mods s start n) (start + n) m := by
  induction n with
  | zero => intro s start; simp [runTicks]
  | succ n ih =>
    intro s start
    have h1 : n + 1 + m = (n + m) + 1 := by omega
    rw [h1]
    simp only [runTicks]
    rw [ih]
    have h2 : start + 1 + (n : Int) = start + ((n + 1 : Nat) : Int) := by push_cast; omega
    rw [h2]

theorem runTicks_one (casemap : Char → Char) (mods : List (UserId → ModResult))
    (s : Server) (start : Int) :
    runTicks casemap mods s start 1 = DoBackgroundUserStuff casemap mods start s := rfl

/-- One tick on a fully registered, non-quitting local user tracked in
`local_users`: the object after the tick, by the three cases of the ping
step. -/
theorem tick_REG_ALL (casemap : Char → Char) (mods : List (UserId → ModResult))
    (now : Int) (s : Server) (u : UserId) (c : User) (hmem : u ∈ s.Users.local_users)
    (hnd : s.Users.local_users.Nodup) (hu : s.objects[u]? = some c)
    (hq : c.quitting = false) (hl : IS_LOCAL c = true)
    (hreg : c.registered = Registered.REG_ALL) :
    (DoBackgroundUserStuff casemap mods now s).objects[u]?
      = (if now > c.nping then
           if c.lastping = 0 then
             some (quitObject (decayedUser c)
               (pingTimeoutReason (now - (c.nping - (c.MyClass.pingtime : Int)))) none)
           else some (pingedUser s.Config.ServerName now (decayedUser c))
         else some (decayedUser c)) := by
  obtain ⟨s1, h1, h2, h3⟩ := loop_tick_object casemap mods now s u c hmem hnd hu hq
  have hs := IS_SERVER_of_local c hl
  have h4 := state_REG_ALL casemap mods now s1 u (decayedUser c) h1 hq hs hreg
  rw [h3, h4, h2]
  rfl

/-- While the time stays at or before `nping`, ticks change nothing of a fully
registered user but the flood penalty. -/
theorem idle_ticks (casemap : Char → Char) (mods : List (UserId → ModResult)) (n : Nat) :
    ∀ (s : Server) (start : Int) (u : UserId) (c : User),
      u ∈ s.Users.local_users → s.Users.local_users.Nodup → s.objects[u]? = some c →
      c.quitting = false → IS_LOCAL c = true → c.registered = Registered.REG_ALL →
      start + (n : Int) - 1 ≤ c.nping →
      (∃ p, (runTicks casemap mods s start n).objects[u]? = some (withPenalty c p)) ∧
      (runTicks casemap mods s start n).Users.local_users = s.Users.local_users ∧
      (runTicks casemap mods s start n).Config = s.Config := by
  induction n with
  | zero =>
    intro s start u c _ _ hu _ _ _ _
    exact ⟨⟨c.CommandFloodPenalty, hu⟩, rfl, rfl⟩
  | succ n ih =>
    intro s start u c hmem hnd hu hq hl hreg hle
    have ht := tick_REG_ALL casemap mods start s u c hmem hnd hu hq hl hreg
    have hno : ¬ start > c.nping := by push_cast at hle; omega
    rw [if_neg hno] at ht
    obtain ⟨k1, k2⟩ := loop_local_users casemap mods start s
    have hmem' : u ∈ (DoBackgroundUserStuff casemap mods start s).Users.local_users := by
      rw [k1]; exact hmem
    have hnd' : (DoBackgroundUserStuff casemap mods start s).Users.local_users.Nodup := by
      rw [k1]; exact hnd
    have hle' : start + 1 + (n : Int) - 1 ≤ (decayedUser c).nping := by
      show start + 1 + (n : Int) - 1 ≤ c.nping
      push_cast at hle; omega
    obtain ⟨⟨p, hp⟩, j2, j3⟩ := ih _ (start + 1) u (decayedUser c) hmem' hnd' ht hq hl hreg hle'
    simp only [runTicks]
    exact ⟨⟨p, hp⟩, j2.trans k1, j3.trans k2⟩

theorem pingedUser_fields (name : String) (now : Int) (c : User) :
    (pingedUser name now c).lastping = 0 ∧
    (pingedUser name now c).nping = now + (c.MyClass.pingtime : Int) ∧
    (pingedUser name now c).sendq = c.sendq ++ ["PING :" ++ name] ∧
    (pingedUser name now c).quitting = c.quitting ∧
    (pingedUser name now c).registered = c.registered ∧
    (pingedUser name now c).MyClass = c.MyClass ∧
    IS_LOCAL (pingedUser name now c) = IS_LOCAL c :=
  ⟨rfl, rfl, rfl, rfl, rfl, rfl, rfl⟩

set_option maxRecDepth 100000 in
/-- C10, as stated, fails: for `alice` (ping interval 120, `nping` 120,
`lastping` 1) the tick at time 120 sends nothing, and after the ticks of the
times 1 to 240 she has been sent one PING and is not quit. -/
theorem ping_timeout_scenario_counterexample :
    (DoBackgroundUserStuff id [] 120 aliceServer).objects[0]? = some alice ∧
    alice.sendq = [] ∧
    (runTicks id [] aliceServer 1 240).objects[0]?
      = some { alice with lastping := 0, nping := 241,
                          sendq := ["PING :irc.example.net"] } ∧
    ({ alice with lastping := 0, nping := 241,
                  sendq := ["PING :irc.example.net"] } : User).quitting = false := by
  decide

/-- C10, amended: for a fully registered idle local user whose class ping
interval is 120 and whose first ping deadline `nping` is 120 (`lastping` = 1),
the once-per-second ticks of the times 1 to 120 send nothing; the tick at time
121 sends the PING, clears `lastping` and sets `nping` to 241; with no PONG
received the ticks up to time 241 change nothing more, and the tick at time 242
quits the user with the reason "Ping timeout: 121 seconds".  (Only the flood
penalty, which decays, is left open.) -/
theorem ping_timeout_scenario (casemap : Char → Char) (mods : List (UserId → ModResult))
    (s : Server) (u : UserId) (c : User) (hmem : u ∈ s.Users.local_users)
    (hnd : s.Users.local_users.Nodup) (hu : s.objects[u]? = some c)
    (hq : c.quitting = false) (hl : IS_LOCAL c = true)
    (hreg : c.registered = Registered.REG_ALL) (hpt : c.MyClass.pingtime = 120)
    (hn : c.nping = 120) (hlp : c.lastping = 1) :
    (∃ p, (runTicks casemap mods s 1 120).objects[u]? = some (withPenalty c p)) ∧
    (∃ p, (runTicks casemap mods s 1 121).objects[u]?
        = some (withPenalty (pingedUser s.Config.ServerName 121 c) p)) ∧
    (∃ p, (runTicks casemap mods s 1 241).objects[u]?
        = some (withPenalty (pingedUser s.Config.ServerName 121 c) p)) ∧
    (∃ p, (runTicks casemap mods s 1 242).objects[u]?
        = some (withPenalty (quitObject (pingedUser s.Config.ServerName 121 c)
            "Ping timeout: 121 seconds" none) p)) ∧
    (pingedUser s.Config.ServerName 121 c).nping = 241 ∧
    (pingedUser s.Config.ServerName 121 c).lastping = 0 ∧
    (pingedUser s.Config.ServerName 121 c).sendq
      = c.sendq ++ ["PING :" ++ s.Config.ServerName] ∧
    (pingedUser s.Config.ServerName 121 c).quitting = false ∧
    (quitObject (pingedUser s.Config.ServerName 121 c)
      "Ping timeout: 121 seconds" none).quitting = true ∧
    (quitObject (pingedUser s.Config.ServerName 121 c)
      "Ping timeout: 121 seconds" none).sendq
      = c.sendq ++ ["PING :" ++ s.Config.ServerName] ++
          ["ERROR :Closing link: (" ++ c.ident ++ "@" ++ c.host
            ++ ") [" ++ "Ping timeout: 121 seconds" ++ "]"] := by
  have hnp : (pingedUser s.Config.ServerName 121 c).nping = 241 := by
    show (121 : Int) + (c.MyClass.pingtime : Int) = 241
    rw [hpt]; norm_num
  -- the ticks of the times 1 to 120
  obtain ⟨⟨p1, a1⟩, a2, a3⟩ := idle_ticks casemap mods 120 s 1 u c hmem hnd hu hq hl hreg
    (by rw [hn]; norm_num)
  -- the tick at 121
  have hb : runTicks casemap mods s 1 121
      = DoBackgroundUserStuff casemap mods 121 (runTicks casemap mods s 1 120) := by
    rw [show (121 : Nat) = 120 + 1 from rfl, runTicks_add, runTicks_one]
    norm_num
  have b0 := tick_REG_ALL casemap mods 121 (runTicks casemap mods s 1 120) u
    (withPenalty c p1) (by rw [a2]; exact hmem) (by rw [a2]; exact hnd) a1 hq hl hreg
  obtain ⟨b2, b3⟩ := loop_local_users casemap mods 121 (runTicks casemap mods s 1 120)
  have hgt : (121 : Int) > (withPenalty c p1).nping := by
    show (121 : Int) > c.nping
    rw [hn]; norm_num
  have hl1 : ¬ (withPenalty c p1).lastping = 0 := by
    show ¬ c.lastping = 0
    rw [hlp]; norm_num
  rw [if_pos hgt, if_neg hl1, a3, ← hb] at b0
  have b1 : (runTicks casemap mods s 1 121).objects[u]?
      = some (withPenalty (pingedUser s.Config.ServerName 121 c)
          (decayPenalty p1 c.MyClass.commandrate)) := b0
  -- the ticks of the times 122 to 241
  have hc : runTicks casemap mods s 1 241
      = runTicks casemap mods (runTicks casemap mods s 1 121) 122 120 := by
    rw [show (241 : Nat) = 121 + 120 from rfl, runTicks_add]
    norm_num
  have hmemb : u ∈ (runTicks casemap mods s 1 121).Users.local_users := by
    rw [hb, b2, a2]; exact hmem
  have hndb : (runTicks casemap mods s 1 121).Users.local_users.Nodup := by
    rw [hb, b2, a2]; exact hnd
  have hcfgb : (runTicks casemap mods s 1 121).Config = s.Config := by
    rw [hb, b3, a3]
  obtain ⟨⟨p2, c1⟩, c2, c3⟩ := idle_ticks casemap mods 120 (runTicks casemap mods s 1 121) 122 u
    _ hmemb hndb b1 hq hl hreg
    (by show (122 : Int) + (120 : Nat) - 1 ≤ (pingedUser s.Config.ServerName 121 c).nping
        rw [hnp]; norm_num)
  rw [← hc] at c1 c2 c3
  have c1' : (runTicks casemap mods s 1 241).objects[u]?
      = some (withPenalty (pingedUser s.Config.ServerName 121 c) p2) := c1
  -- the tick at 242
  have hd : runTicks casemap mods s 1 242
      = DoBackgroundUserStuff casemap mods 242 (runTicks casemap mods s 1 241) := by
    rw [show (242 : Nat) = 241 + 1 from rfl, runTicks_add, runTicks_one]
    norm_num
  have d0 := tick_REG_ALL casemap mods 242 (runTicks casemap mods s 1 241) u _
    (by rw [c2]; exact hmemb) (by rw [c2]; exact hndb) c1' hq hl hreg
  have hgt2 : (242 : Int) > (withPenalty (pingedUser s.Config.ServerName 121 c) p2).nping := by
    show (242 : Int) > (pingedUser s.Config.ServerName 121 c).nping
    rw [hnp]; norm_num
  have hN : (242 : Int) - ((withPenalty (pingedUser s.Config.ServerName 121 c) p2).nping
      - ((withPenalty (pingedUser s.Config.ServerName 121 c) p2).MyClass.pingtime : Int)) = 121 := by
    show (242 : Int) - ((pingedUser s.Config.ServerName 121 c).nping
      - (c.MyClass.pingtime : Int)) = 121
    rw [hnp, hpt]; norm_num
  have hreason : pingTimeoutReason 121 = "Ping timeout: 121 seconds" := by decide
  have hlp2 : (withPenalty (pingedUser s.Config.ServerName 121 c) p2).lastping = 0 := rfl
  rw [if_pos hgt2, if_pos hlp2, ← hd, hN, hreason] at d0
  exact ⟨⟨p1, a1⟩, ⟨_, b1⟩, ⟨p2, c1'⟩, ⟨_, d0⟩, hnp, rfl, rfl, hq, rfl, rfl⟩

set_option maxRecDepth 100000 in
/-- Instance of the amended C10 for `alice`. -/
theorem ping_timeout_scenario_witness :
    (∃ p, (runTicks id [] aliceServer 1 242).objects[0]?
        = some (withPenalty (quitObject (pingedUser aliceServer.Config.ServerName 121 alice)
            "Ping timeout: 121 seconds" none) p)) ∧
    (quitObject (pingedUser aliceServer.Config.ServerName 121 alice)
      "Ping timeout: 121 seconds" none).sendq
      = alice.sendq ++ ["PING :" ++ aliceServer.Config.ServerName] ++
          ["ERROR :Closing link: (" ++ alice.ident ++ "@" ++ alice.host
            ++ ") [" ++ "Ping timeout: 121 seconds" ++ "]"] :=
  ⟨(ping_timeout_scenario id [] aliceServer 0 alice (by decide) (by decide) (by decide)
      (by decide) (by decide) (by decide) (by decide) (by decide) (by decide)).2.2.2.1,
   (ping_timeout_scenario id [] aliceServer 0 alice (by decide) (by decide) (by decide)
      (by decide) (by decide) (by decide) (by decide) (by decide) (by decide)).2.2.2.2.2.2.2.2.2⟩

/-! ## unregistered_count -/

theorem unregisteredUsers_append (l : List User) (x : User) :
    unregisteredUsers (l ++ [x])
      = unregisteredUsers l
        + (if (!x.quitting && x.registered != Registered.REG_ALL) = true then 1 else 0) := by
  unfold unregisteredUsers
  rw [List.filter_append, List.length_append]
  congr 1
  by_cases h : (!x.quitting && x.registered != Registered.REG_ALL) = true
  · simp [List.filter, h]
  · simp [List.filter, h]

theorem unregisteredUsers_set (l : List User) :
    ∀ (u : Nat) (x y : User), l[u]? = some x →
      unregisteredUsers (l.set u y)
          + (if (!x.quitting && x.registered != Registered.REG_ALL) = true then 1 else 0)
        = unregisteredUsers l
          + (if (!y.quitting && y.registered != Registered.REG_ALL) = true then 1 else 0) := by
  induction l with
  | nil => intro u x y h; simp at h
  | cons a rest ih =>
    intro u x y h
    cases u with
    | zero =>
      simp only [List.getElem?_cons_zero, Option.some.injEq] at h
      subst h
      simp only [List.set_cons_zero, unregisteredUsers, List.filter_cons]
      split <;> split <;> simp
    | succ n =>
      simp only [List.getElem?_cons_succ] at h
      have := ih n x y h
      simp only [List.set_cons_succ, unregisteredUsers, List.filter_cons] at this ⊢
      split <;> first | (simp only [List.length_cons]; omega) | omega

theorem unregisteredUsers_le (l : List User) : unregisteredUsers l ≤ l.length := by
  unfold unregisteredUsers
  exact List.length_filter_le _ _

/-- The counter agrees with the number of unregistered users. -/
theorem QuitUser_count (casemap : Char → Char) (s : Server) (u : UserId) (r : String)
    (o : Option String) (h : s.Users.unregistered_count = unregisteredUsers s.objects) :
    (QuitUser casemap s u r o).Users.unregistered_count
      = unregisteredUsers (QuitUser casemap s u r o).objects := by
  cases hu : s.objects[u]? with
  | none => rw [QuitUser_none casemap s u r o hu]; exact h
  | some user =>
    cases hq : user.quitting with
    | true => rw [QuitUser_quitting casemap s u user r o hu hq]; exact h
    | false =>
      cases hs : IS_SERVER user with
      | true => rw [QuitUser_server casemap s u user r o hu hq hs]; exact h
      | false =>
        obtain ⟨q1, _, _, _, _, _, q7, _⟩ := QuitUser_fields casemap s u user r o hu hq hs
        have hset := unregisteredUsers_set s.objects u user (quitObject user r o) hu
        have hqo : (quitObject user r o).quitting = true := rfl
        rw [q1, q7]
        simp only [hq, hqo, Bool.not_false, Bool.true_and, Bool.not_true, Bool.false_and,
          Bool.false_eq_true, if_false, bne_iff_ne, ne_eq] at hset
        by_cases hreg : user.registered = Registered.REG_ALL
        · rw [if_pos hreg]
          simp only [hreg, not_true_eq_false, if_false] at hset
          omega
        · rw [if_neg hreg]
          simp only [hreg, not_false_eq_true, if_true] at hset
          unfold udec
          rw [if_neg (by omega)]
          omega

theorem AddUser_count (casemap : Char → Char) (s : Server) (a : Accept)
    (h : s.Users.unregistered_count = unregisteredUsers s.objects)
    (hb : (AddUser casemap s a).objects.length < UINT_MOD) :
    (AddUser casemap s a).Users.unregistered_count
      = unregisteredUsers (AddUser casemap s a).objects := by
  rcases AddUser_outcome casemap s a with ⟨_, hU, hO, _⟩ |
    ⟨_, user, ho, hreg, _, _, _, _, _, _, _, _, _, _, hcnt⟩
  · rw [hU, hO]; exact h
  · rw [ho, List.length_append, List.length_singleton] at hb
    have hle := unregisteredUsers_le s.objects
    have hM : UINT_MOD = UINT_MAX + 1 := by decide
    have hinc : uinc s.Users.unregistered_count = s.Users.unregistered_count + 1 := by
      unfold uinc
      rw [if_neg (by omega)]
    rw [ho, unregisteredUsers_append]
    rcases hcnt with ⟨hq, hc⟩ | ⟨hq, hc⟩
    · rw [hc, hinc]
      simp [hq, hreg]
      omega
    · rw [hc, hinc]
      unfold udec
      rw [if_neg (by omega)]
      simp [hq]
      omega

theorem apply_objects_le (casemap : Char → Char) (s : Server) (op : Op) :
    s.objects.length ≤ (Op.apply casemap s op).objects.length := by
  cases op with
  | AddUser a =>
    show _ ≤ (AddUser casemap s a).objects.length
    rcases AddUser_outcome casemap s a with ⟨_, _, hO, _⟩ | ⟨_, user, ho, _⟩
    · rw [hO]
    · rw [ho, List.length_append]; omega
  | QuitUser u r o =>
    show _ ≤ (QuitUser casemap s u r o).objects.length
    rw [(QuitUser_keeps casemap s u r o).2.2.2.1]
  | RemoveCloneCounts u =>
    show _ ≤ (match s.objects[u]? with
      | none => s
      | some user => { s with Users := RemoveCloneCounts s.Users user }).objects.length
    split <;> exact Nat.le_refl _

theorem foldl_objects_le (casemap : Char → Char) (ops : List Op) :
    ∀ s, s.objects.length ≤ (ops.foldl (Op.apply casemap) s).objects.length := by
  induction ops with
  | nil => intro s; exact Nat.le_refl _
  | cons op rest ih =>
    intro s
    have h1 := apply_objects_le casemap s op
    have h2 := ih (Op.apply casemap s op)
    simp only [List.foldl_cons]
    omega

theorem apply_count (casemap : Char → Char) (s : Server) (op : Op)
    (h : s.Users.unregistered_count = unregisteredUsers s.objects)
    (hb : (Op.apply casemap s op).objects.length < UINT_MOD) :
    (Op.apply casemap s op).Users.unregistered_count
      = unregisteredUsers (Op.apply casemap s op).objects := by
  cases op with
  | AddUser a => exact AddUser_count casemap s a h hb
  | QuitUser u r o => exact QuitUser_count casemap s u r o h
  | RemoveCloneCounts u =>
    show (match s.objects[u]? with
      | none => s
      | some user => { s with Users := RemoveCloneCounts s.Users user }).Users.unregistered_count
      = unregisteredUsers (match s.objects[u]? with
      | none => s
      | some user => { s with Users := RemoveCloneCounts s.Users user }).objects
    split
    · exact h
    · rename_i user _
      show (RemoveCloneCounts s.Users user).unregistered_count = unregisteredUsers s.objects
      rw [← h]
      unfold RemoveCloneCounts
      split <;> rfl

theorem foldl_count (casemap : Char → Char) (ops : List Op) :
    ∀ s, s.Users.unregistered_count = unregisteredUsers s.objects →
      (ops.foldl (Op.apply casemap) s).objects.length < UINT_MOD →
      (ops.foldl (Op.apply casemap) s).Users.unregistered_count
        = unregisteredUsers (ops.foldl (Op.apply casemap) s).objects := by
  induction ops with
  | nil => intro s h _; exact h
  | cons op rest ih =>
    intro s h hb
    simp only [List.foldl_cons] at hb ⊢
    have hle := foldl_objects_le casemap rest (Op.apply casemap s op)
    exact ih _ (apply_count casemap s op h (by omega)) hb

theorem unregisteredUsers_pos (l : List User) (u : Nat) (x : User) (h : l[u]? = some x)
    (hq : x.quitting = false) (hreg : x.registered ≠ Registered.REG_ALL) :
    0 < unregisteredUsers l := by
  unfold unregisteredUsers
  apply List.length_pos_of_mem (a := x)
  rw [List.mem_filter]
  refine ⟨List.mem_iff_getElem?.2 ⟨u, h⟩, ?_⟩
  simp [hq, hreg]

/-! ## The path of one connection through AddUser -/

theorem QuitUser_unregistered_io (casemap : Char → Char) (s : Server) (u : UserId)
    (user : User) (r : String) (o : Option String) (hu : s.objects[u]? = some user)
    (hq : user.quitting = false) (hl : user.usertype = UserType.USERTYPE_LOCAL)
    (hreg : user.registered ≠ Registered.REG_ALL) :
    (QuitUser casemap s u r o).Trace
        = s.Trace ++ [Call.OnUserDisconnect u, Call.Close u, Call.PurgeEmptyChannels u] ∧
    (QuitUser casemap s u r o).SNO = s.SNO := by
  have hs : IS_SERVER user = false := by unfold IS_SERVER; rw [hl]; decide
  have hloc : IS_LOCAL user = true := by unfold IS_LOCAL; rw [hl]; decide
  rw [QuitUser_eq casemap s u user r o hu hq hs]
  unfold QuitUser.unindex QuitUser.disconnect QuitUser.announce
  simp only [if_neg hreg, hloc, if_true]
  split
  · simp only [Server.call, quitMarked, List.append_assoc, List.cons_append,
      List.nil_append, and_self]
  · simp only [Server.call, Server.Log, quitMarked, List.append_assoc, List.cons_append,
      List.nil_append, and_self]

theorem QuitUser_trace_prefix (casemap : Char → Char) (s : Server) (u : UserId)
    (r : String) (o : Option String) :
    ∃ t, (QuitUser casemap s u r o).Trace = s.Trace ++ t := by
  cases hu : s.objects[u]? with
  | none => rw [QuitUser_none casemap s u r o hu]; exact ⟨[], by simp⟩
  | some user =>
    cases hq : user.quitting with
    | true => rw [QuitUser_quitting casemap s u user r o hu hq]; exact ⟨[], by simp [Server.Log]⟩
    | false =>
      cases hs : IS_SERVER user with
      | true =>
        rw [QuitUser_server casemap s u user r o hu hq hs]; exact ⟨[], by simp [Server.Log]⟩
      | false =>
        rw [QuitUser_eq casemap s u user r o hu hq hs]
        unfold QuitUser.unindex QuitUser.disconnect QuitUser.announce
        repeat' split
        all_goals
          simp only [Server.call, Server.Log, Server.WriteToSnoMask, quitMarked,
            List.append_assoc]
          exact ⟨_, rfl⟩

theorem pending_log (l : List User) (user : User) (tr : List Call)
    (sno : List (Char × String)) (n : Nat) (cfg : ServerConfig) (s : Server)
    (t : String) (d : Bool) (x : String) (h : Pending l user tr sno n cfg s) :
    Pending l user tr sno n cfg (s.Log t d x) := h

theorem pending_call (l : List User) (user : User) (tr : List Call)
    (sno : List (Char × String)) (n : Nat) (cfg : ServerConfig) (s : Server) (c : Call)
    (h : Pending l user tr sno n cfg s) :
    Pending l user (tr ++ [c]) sno n cfg (s.call c) := by
  obtain ⟨h1, h2, h3, h4, h5⟩ := h
  refine ⟨h1, ?_, h3, h4, h5⟩
  show s.Trace ++ [c] = tr ++ [c]
  rw [h2]

theorem pending_sno (l : List User) (user : User) (tr : List Call)
    (sno : List (Char × String)) (n : Nat) (cfg : ServerConfig) (s : Server)
    (c : Char) (x : String) (h : Pending l user tr sno n cfg s) :
    Pending l user tr (sno ++ [(c, x)]) n cfg (s.WriteToSnoMask c x) := by
  obtain ⟨h1, h2, h3, h4, h5⟩ := h
  refine ⟨h1, h2, ?_, h4, h5⟩
  show s.SNO ++ [(c, x)] = sno ++ [(c, x)]
  rw [h3]

theorem pending_object (l : List User) (user : User) (tr : List Call)
    (sno : List (Char × String)) (n : Nat) (cfg : ServerConfig) (s : Server)
    (h : Pending l user tr sno n cfg s) : s.objects[l.length]? = some user := by
  rw [h.1]; exact getElem?_concat_length _ _

theorem pending_modify (l : List User) (user : User) (tr : List Call)
    (sno : List (Char × String)) (n : Nat) (cfg : ServerConfig) (s : Server)
    (f : User → User) (h : Pending l user tr sno n cfg s) :
    Pending l (f user) tr sno n cfg (s.modify l.length f) := by
  have hget := pending_object l user tr sno n cfg s h
  obtain ⟨h1, h2, h3, h4, h5⟩ := h
  unfold Server.modify
  rw [hget]
  refine ⟨?_, h2, h3, h4, h5⟩
  show s.objects.set l.length (f user) = _
  rw [h1, set_concat_length]

theorem pending_WriteNotice (l : List User) (user : User) (tr : List Call)
    (sno : List (Char × String)) (n : Nat) (cfg : ServerConfig) (s : Server)
    (text : String) (h : Pending l user tr sno n cfg s) :
    Pending l { user with sendq := user.sendq ++
        [":" ++ cfg.ServerName ++ " NOTICE " ++ user.nick ++ " :" ++ text] }
      tr sno n cfg (WriteNotice s l.length text) := by
  have hget := pending_object l user tr sno n cfg s h
  unfold WriteNotice
  rw [hget]
  simp only []
  rw [Write_eq_modify, h.2.2.2.2]
  exact pending_modify l user tr sno n cfg s _ h

theorem pending_quitting (l : List User) (user : User) (tr : List Call)
    (sno : List (Char × String)) (n : Nat) (cfg : ServerConfig) (s : Server)
    (h : Pending l user tr sno n cfg s) : s.quitting l.length = user.quitting := by
  unfold Server.quitting
  rw [pending_object l user tr sno n cfg s h]

theorem pending_quit (casemap : Char → Char) (l : List User) (user : User)
    (tr : List Call) (sno : List (Char × String)) (n : Nat) (cfg : ServerConfig)
    (s : Server) (r : String) (o : Option String) (h : Pending l user tr sno n cfg s)
    (hq : user.quitting = false) (hl : user.usertype = UserType.USERTYPE_LOCAL)
    (hreg : user.registered ≠ Registered.REG_ALL) :
    Pending l (quitObject user r o)
      (tr ++ [Call.OnUserDisconnect l.length, Call.Close l.length,
        Call.PurgeEmptyChannels l.length])
      sno (udec n) cfg (QuitUser casemap s l.length r o) := by
  have hget := pending_object l user tr sno n cfg s h
  have hs : IS_SERVER user = false := by unfold IS_SERVER; rw [hl]; decide
  obtain ⟨q1, _, _, _, _, _, q7, _, q9⟩ := QuitUser_fields casemap s _ user r o hget hq hs
  obtain ⟨t1, t2⟩ := QuitUser_unregistered_io casemap s _ user r o hget hq hl hreg
  obtain ⟨h1, h2, h3, h4, h5⟩ := h
  refine ⟨?_, ?_, ?_, ?_, ?_⟩
  · rw [q1, h1, set_concat_length]
  · rw [t1, h2]
  · rw [t2, h3]
  · rw [q7, if_neg hreg, h4]
  · rw [q9, h5]

theorem accept_pending (casemap : Char → Char) (s : Server) (a : Accept)
    (h : (find (fold casemap) s.Users.uuidlist a.uuid).isSome = false) :
    ∃ s', AddUser.accept casemap s a = some (s', s.objects.length) ∧
      s'.Users.local_users = s.objects.length :: s.Users.local_users ∧
      Pending s.objects (acceptedUser s.Config a) (s.Trace ++ AddUser.hookCalls a) s.SNO
        (uinc s.Users.unregistered_count) s.Config s' := by
  unfold AddUser.accept LocalUser.new AddUser.hookCalls Pending
  simp only [h, Bool.false_eq_true, if_false]
  cases a.iohookprov <;>
  simp only [Server.modify, Server.store, Server.Log, Server.call, getElem?_concat_length,
    set_concat_length, AddGlobalClone, AddLocalClone, GetCIDRMask, Bool.false_eq_true,
    if_false, if_true, List.append_nil] <;>
  exact ⟨_, rfl, rfl, rfl, rfl, rfl, rfl, rfl⟩

/-- The user object after the notice about raw logging, when it is sent. -/
theorem finish_pass (casemap : Char → Char) (l : List User) (user : User)
    (tr : List Call) (sno : List (Char × String)) (n : Nat) (cfg : ServerConfig)
    (s : Server) (a : Accept) (h : Pending l user tr sno n cfg s)
    (hq : user.quitting = false) (hfd : a.AddFd = true) (hip : a.OnSetUserIP = none) :
    ∃ user', user'.quitting = false ∧
      Pending l user'
        (tr ++ [Call.AddFd l.length] ++ [Call.OnSetUserIP l.length]
          ++ [Call.OnUserInit l.length])
        sno n cfg (AddUser.finish casemap s a l.length) := by
  have p1 := pending_call l user tr sno n cfg s (Call.AddFd l.length) h
  unfold AddUser.finish
  simp only [hfd, hip, not_true_eq_false, if_false]
  split
  · have p2 := pending_WriteNotice l user _ sno n cfg _
      ("*** Raw I/O logging is enabled on this server. "
        ++ "All messages, passwords, and commands are being recorded.") p1
    have p3 := pending_call l _ _ sno n cfg _ (Call.OnSetUserIP l.length) p2
    rw [pending_quitting l _ _ sno n cfg _ p3]
    simp only [hq, Bool.false_eq_true, if_false]
    refine ⟨_, ?_, pending_call l _ _ sno n cfg _ (Call.OnUserInit l.length) p3⟩
    exact hq
  · have p3 := pending_call l _ _ sno n cfg _ (Call.OnSetUserIP l.length) p1
    rw [pending_quitting l _ _ sno n cfg _ p3]
    simp only [hq, Bool.false_eq_true, if_false]
    refine ⟨_, ?_, pending_call l _ _ sno n cfg _ (Call.OnUserInit l.length) p3⟩
    exact hq

theorem WriteNotice_Trace (s : Server) (u : UserId) (text : String) :
    (WriteNotice s u text).Trace = s.Trace := by
  unfold WriteNotice
  split
  · rfl
  · unfold Write
    split <;> rfl

theorem finish_trace (casemap : Char → Char) (s : Server) (a : Accept) (New : UserId) :
    ∃ t, (AddUser.finish casemap s a New).Trace = s.Trace ++ [Call.AddFd New] ++ t := by
  have hquit : ∀ (s1 : Server) (t1 : List Call) (r : String),
      s1.Trace = s.Trace ++ [Call.AddFd New] ++ t1 →
      ∃ t, (QuitUser casemap s1 New r none).Trace = s.Trace ++ [Call.AddFd New] ++ t := by
    intro s1 t1 r h1
    obtain ⟨t, ht⟩ := QuitUser_trace_prefix casemap s1 New r none
    exact ⟨t1 ++ t, by rw [ht, h1, List.append_assoc]⟩
  have hcall : ∀ (s1 : Server) (c : Call),
      (∃ t, s1.Trace = s.Trace ++ [Call.AddFd New] ++ t) →
      ∃ t, (s1.call c).Trace = s.Trace ++ [Call.AddFd New] ++ t := by
    intro s1 c ⟨t, ht⟩
    exact ⟨t ++ [c], by show s1.Trace ++ [c] = _; rw [ht, List.append_assoc]⟩
  have hnote : ∀ (s1 : Server) (x : String),
      (∃ t, s1.Trace = s.Trace ++ [Call.AddFd New] ++ t) →
      ∃ t, (WriteNotice s1 New x).Trace = s.Trace ++ [Call.AddFd New] ++ t := by
    intro s1 x ⟨t, ht⟩
    exact ⟨t, by rw [WriteNotice_Trace, ht]⟩
  have hq2 : ∀ (s1 : Server) (r : String),
      (∃ t, s1.Trace = s.Trace ++ [Call.AddFd New] ++ t) →
      ∃ t, (QuitUser casemap s1 New r none).Trace = s.Trace ++ [Call.AddFd New] ++ t := by
    intro s1 r ⟨t, ht⟩
    exact hquit s1 t r ht
  have h0 : ∃ t, (s.call (Call.AddFd New)).Trace = s.Trace ++ [Call.AddFd New] ++ t :=
    ⟨[], by simp [Server.call]⟩
  have hlog : ∀ (s1 : Server) (ty : String) (d : Bool) (x : String),
      (∃ t, s1.Trace = s.Trace ++ [Call.AddFd New] ++ t) →
      ∃ t, (s1.Log ty d x).Trace = s.Trace ++ [Call.AddFd New] ++ t := fun _ _ _ _ h => h
  unfold AddUser.finish
  simp only []
  repeat' split
  all_goals
    repeat with_reducible (first
      | exact h0
      | apply hcall
      | apply hq2
      | apply hlog
      | apply hnote)

theorem screen_pass (casemap : Char → Char) (l : List User) (user : User)
    (tr : List Call) (sno : List (Char × String)) (n : Nat) (cfg : ServerConfig)
    (s : Server) (a : Accept) (h : Pending l user tr sno n cfg s)
    (hq : user.quitting = false) (hcc : a.CheckClass = none) :
    ∃ s2, AddUser.screen casemap s a l.length = AddUser.bans casemap s2 a l.length ∧
      Pending l { user with MyClass := a.MyClass }
        (tr ++ [Call.SetClass l.length] ++ [Call.CheckClass l.length]) sno n cfg s2 := by
  have p1 := pending_call l user tr sno n cfg s (Call.SetClass l.length) h
  have p2 := pending_modify l user _ sno n cfg _
    (fun user => { user with MyClass := a.MyClass }) p1
  have p3 := pending_call l _ _ sno n cfg _ (Call.CheckClass l.length) p2
  unfold AddUser.screen
  simp only [hcc]
  refine ⟨_, ?_, p3⟩
  rw [pending_quitting l _ _ sno n cfg _ p3]
  show (if user.quitting = true then _ else _) = _
  rw [hq]
  rfl

theorem bans_banned (casemap : Char → Char) (l : List User) (user : User)
    (tr : List Call) (sno : List (Char × String)) (n : Nat) (cfg : ServerConfig)
    (s : Server) (a : Accept) (type reason : String)
    (h : Pending l user tr sno n cfg s) (hq : user.quitting = false)
    (hl : user.usertype = UserType.USERTYPE_LOCAL)
    (hreg : user.registered ≠ Registered.REG_ALL)
    (hb : a.banhit = some (type, reason)) (ht : type ≠ "") (he : a.eline = false) :
    ∃ user', user'.quitting = false ∧ user'.exempt = false ∧
      Pending l (quitObject user' reason none)
        (tr ++ [Call.OnUserDisconnect l.length, Call.Close l.length,
          Call.PurgeEmptyChannels l.length])
        sno (udec n) cfg (AddUser.bans casemap s a l.length) := by
  have p1 := pending_modify l user tr sno n cfg s
    (fun user => { user with exempt := a.eline }) h
  have p2 := pending_log l _ tr sno n cfg _ "BANCACHE" true
    ("BanCache: Positive hit for " ++ a.ip) p1
  unfold AddUser.bans
  simp only [hb, he, ht, ne_eq, not_false_eq_true, and_self, if_true, Bool.false_eq_true]
  split
  · have p3 := pending_WriteNotice l _ tr sno n cfg _ ("*** " ++ cfg.XLineMessage) p2
    have hcfg : (s.modify l.length
        (fun user => { user with exempt := a.eline })).Config = cfg := p1.2.2.2.2
    simp only [he] at hcfg
    have hcfg2 : ∀ x y z, ((s.modify l.length
        (fun user => { user with exempt := false })).Log x y z).Config = cfg :=
      fun _ _ _ => hcfg
    simp only [he] at p3
    rw [hcfg2]
    refine ⟨_, ?_, ?_, pending_quit casemap l _ tr sno n cfg _ reason none p3 hq hl hreg⟩
    · exact hq
    · rfl
  · simp only [he] at p2
    refine ⟨_, ?_, ?_, pending_quit casemap l _ tr sno n cfg _ reason none p2 hq hl hreg⟩
    · exact hq
    · rfl

theorem bans_negative (casemap : Char → Char) (l : List User) (user : User)
    (tr : List Call) (sno : List (Char × String)) (n : Nat) (cfg : ServerConfig)
    (s : Server) (a : Accept) (type reason : String)
    (h : Pending l user tr sno n cfg s)
    (hb : a.banhit = some (type, reason)) (ht : type = "" ∨ a.eline = true) :
    ∃ s3, AddUser.bans casemap s a l.length = AddUser.finish casemap s3 a l.length ∧
      Pending l { user with exempt := a.eline } tr sno n cfg s3 := by
  have p1 := pending_modify l user tr sno n cfg s
    (fun user => { user with exempt := a.eline }) h
  have p2 := pending_log l _ tr sno n cfg _ "BANCACHE" true
    ("BanCache: Negative hit for " ++ a.ip) p1
  refine ⟨_, ?_, p2⟩
  unfold AddUser.bans
  simp only [hb]
  rw [if_neg]
  intro ⟨h1, h2⟩
  rcases ht with ht | ht
  · exact h1 ht
  · exact h2 ht

theorem bans_zline (casemap : Char → Char) (l : List User) (user : User)
    (tr : List Call) (sno : List (Char × String)) (n : Nat) (cfg : ServerConfig)
    (s : Server) (a : Accept) (reason : String)
    (h : Pending l user tr sno n cfg s) (hq : user.quitting = false)
    (hl : user.usertype = UserType.USERTYPE_LOCAL)
    (hreg : user.registered ≠ Registered.REG_ALL)
    (hb : a.banhit = none) (he : a.eline = false) (hz : a.zline = some reason) :
    Pending l (quitObject { user with exempt := false } reason none)
      (tr ++ [Call.Apply l.length] ++ [Call.OnUserDisconnect l.length, Call.Close l.length,
        Call.PurgeEmptyChannels l.length])
      sno (udec n) cfg (AddUser.bans casemap s a l.length) := by
  have p1 := pending_modify l user tr sno n cfg s
    (fun user => { user with exempt := a.eline }) h
  have p2 := pending_call l _ tr sno n cfg _ (Call.Apply l.length) p1
  simp only [he] at p2
  unfold AddUser.bans
  simp only [hb, he, hz, Bool.false_eq_true, not_false_eq_true, if_true]
  exact pending_quit casemap l _ _ sno n cfg _ reason none p2 hq hl hreg

theorem bans_clear (casemap : Char → Char) (l : List User) (user : User)
    (tr : List Call) (sno : List (Char × String)) (n : Nat) (cfg : ServerConfig)
    (s : Server) (a : Accept)
    (h : Pending l user tr sno n cfg s)
    (hb : a.banhit = none) (hz : a.eline = true ∨ a.zline = none) :
    ∃ s3, AddUser.bans casemap s a l.length = AddUser.finish casemap s3 a l.length ∧
      Pending l { user with exempt := a.eline } tr sno n cfg s3 := by
  have p1 := pending_modify l user tr sno n cfg s
    (fun user => { user with exempt := a.eline }) h
  refine ⟨_, ?_, p1⟩
  unfold AddUser.bans
  simp only [hb]
  split
  · rename_i hne
    rcases hz with hz | hz
    · exact absurd hz hne
    · simp only [hz]
  · rfl

/-- The connection is entered and has passed the limit test and the class
check: `AddUser` goes on with the ban evaluation. -/
theorem AddUser_reaches_bans (casemap : Char → Char) (s : Server) (a : Accept)
    (hfresh : (find (fold casemap) s.Users.uuidlist a.uuid).isSome = false)
    (hlim : ¬ (s.Users.local_users.length + 1 > s.Config.SoftLimit
      ∨ s.Users.local_users.length + 1 ≥ s.Config.MaxFds))
    (hcc : a.CheckClass = none) :
    ∃ s2, AddUser casemap s a = AddUser.bans casemap s2 a s.objects.length ∧
      Pending s.objects { acceptedUser s.Config a with MyClass := a.MyClass }
        (s.Trace ++ AddUser.hookCalls a ++ [Call.SetClass s.objects.length]
          ++ [Call.CheckClass s.objects.length])
        s.SNO (uinc s.Users.unregistered_count) s.Config s2 := by
  obtain ⟨s', hs', hlu, p0⟩ := accept_pending casemap s a hfresh
  obtain ⟨s2, h2, p2⟩ := screen_pass casemap s.objects _ _ _ _ _ s' a p0 rfl hcc
  refine ⟨s2, ?_, p2⟩
  unfold AddUser
  rw [hs']
  simp only []
  have hl : limitReached s' = false := by
    unfold limitReached
    rw [hlu, p0.2.2.2.2, List.length_cons]
    simpa using hlim
  rw [hl]
  simp only [Bool.false_eq_true, if_false]
  exact h2

/-- C12 as written fails for an exempt user: with no ban cache hit, a matching
Z-line and a matching E-line, the Z-line is not applied, the user is not quit
and the connection is registered with the socket engine. -/
theorem ban_evaluation_counterexample :
    Call.Apply 0 ∉ (AddUser id (Server.init sampleConfig)
        { sampleAccept "100AAAAAA" with eline := true, zline := some "Z-lined" }).Trace ∧
    Call.AddFd 0 ∈ (AddUser id (Server.init sampleConfig)
        { sampleAccept "100AAAAAA" with eline := true, zline := some "Z-lined" }).Trace ∧
    (AddUser id (Server.init sampleConfig)
        { sampleAccept "100AAAAAA" with eline := true, zline := some "Z-lined" }).quitting 0
      = false := by
  decide

/-- C12 (amended): for a connection that was entered, is within the limits and
passed the class check, with `exempt` the E-line answer: a ban cache hit with
non-empty type and exempt false quits the user with the cached reason, without
`AddFd`; a hit with empty type leaves the user unquit and goes on to the
registration with the socket engine; a miss with exempt false and a matching
Z-line applies the line, which quits the user, without `AddFd`; a miss with
exempt true, or with no matching Z-line, goes on to the registration and
applies no Z-line. -/
theorem ban_evaluation (casemap : Char → Char) (s : Server) (a : Accept)
    (hfresh : (find (fold casemap) s.Users.uuidlist a.uuid).isSome = false)
    (hlim : ¬ (s.Users.local_users.length + 1 > s.Config.SoftLimit
      ∨ s.Users.local_users.length + 1 ≥ s.Config.MaxFds))
    (hcc : a.CheckClass = none) :
    (∀ type reason, a.banhit = some (type, reason) → type ≠ "" → a.eline = false →
      ∃ user, user.quitting = false ∧ user.exempt = false ∧
        Pending s.objects (quitObject user reason none)
          (s.Trace ++ AddUser.hookCalls a ++ [Call.SetClass s.objects.length]
            ++ [Call.CheckClass s.objects.length]
            ++ [Call.OnUserDisconnect s.objects.length, Call.Close s.objects.length,
              Call.PurgeEmptyChannels s.objects.length])
          s.SNO (udec (uinc s.Users.unregistered_count)) s.Config (AddUser casemap s a)) ∧
    (∀ reason, a.banhit = some ("", reason) →
      ∃ s3 t, AddUser casemap s a = AddUser.finish casemap s3 a s.objects.length ∧
        Pending s.objects
          { acceptedUser s.Config a with MyClass := a.MyClass, exempt := a.eline }
          (s.Trace ++ AddUser.hookCalls a ++ [Call.SetClass s.objects.length]
            ++ [Call.CheckClass s.objects.length])
          s.SNO (uinc s.Users.unregistered_count) s.Config s3 ∧
        (AddUser casemap s a).Trace
          = s.Trace ++ AddUser.hookCalls a ++ [Call.SetClass s.objects.length]
            ++ [Call.CheckClass s.objects.length] ++ [Call.AddFd s.objects.length] ++ t) ∧
    (∀ reason, a.banhit = none → a.eline = false → a.zline = some reason →
      Pending s.objects
        (quitObject { acceptedUser s.Config a with MyClass := a.MyClass } reason none)
        (s.Trace ++ AddUser.hookCalls a ++ [Call.SetClass s.objects.length]
          ++ [Call.CheckClass s.objects.length] ++ [Call.Apply s.objects.length]
          ++ [Call.OnUserDisconnect s.objects.length, Call.Close s.objects.length,
            Call.PurgeEmptyChannels s.objects.length])
        s.SNO (udec (uinc s.Users.unregistered_count)) s.Config (AddUser casemap s a)) ∧
    (a.banhit = none → (a.eline = true ∨ a.zline = none) →
      ∃ s3 t, AddUser casemap s a = AddUser.finish casemap s3 a s.objects.length ∧
        Pending s.objects
          { acceptedUser s.Config a with MyClass := a.MyClass, exempt := a.eline }
          (s.Trace ++ AddUser.hookCalls a ++ [Call.SetClass s.objects.length]
            ++ [Call.CheckClass s.objects.length])
          s.SNO (uinc s.Users.unregistered_count) s.Config s3 ∧
        (AddUser casemap s a).Trace
          = s.Trace ++ AddUser.hookCalls a ++ [Call.SetClass s.objects.length]
            ++ [Call.CheckClass s.objects.length] ++ [Call.AddFd s.objects.length] ++ t) := by
  obtain ⟨s2, h2, p2⟩ := AddUser_reaches_bans casemap s a hfresh hlim hcc
  have hne : (acceptedUser s.Config a).registered ≠ Registered.REG_ALL :=
    show Registered.REG_NONE ≠ Registered.REG_ALL by decide
  refine ⟨?_, ?_, ?_, ?_⟩
  · intro type reason hb ht he
    rw [h2]
    exact bans_banned casemap s.objects _ _ _ _ _ s2 a type reason p2 rfl rfl hne hb ht he
  · intro reason hb
    obtain ⟨s3, h3, p3⟩ :=
      bans_negative casemap s.objects _ _ _ _ _ s2 a "" reason p2 hb (Or.inl rfl)
    obtain ⟨t, ht⟩ := finish_trace casemap s3 a s.objects.length
    refine ⟨s3, t, h2.trans h3, p3, ?_⟩
    rw [h2, h3, ht, p3.2.1]
  · intro reason hb he hz
    rw [h2]
    exact bans_zline casemap s.objects _ _ _ _ _ s2 a reason p2 rfl rfl hne hb he hz
  · intro hb hz
    obtain ⟨s3, h3, p3⟩ := bans_clear casemap s.objects _ _ _ _ _ s2 a p2 hb hz
    obtain ⟨t, ht⟩ := finish_trace casemap s3 a s.objects.length
    refine ⟨s3, t, h2.trans h3, p3, ?_⟩
    rw [h2, h3, ht, p3.2.1]

/-- Instance of the amended C12: a connection with a cached K-line hit is quit
with the cached reason. -/
theorem ban_evaluation_witness :
    ∃ user, user.quitting = false ∧ user.exempt = false ∧
      Pending (Server.init sampleConfig).objects (quitObject user "K-lined" none)
        ((Server.init sampleConfig).Trace
          ++ AddUser.hookCalls
            { sampleAccept "100AAAAAA" with banhit := some ("K", "K-lined") }
          ++ [Call.SetClass (Server.init sampleConfig).objects.length]
          ++ [Call.CheckClass (Server.init sampleConfig).objects.length]
          ++ [Call.OnUserDisconnect (Server.init sampleConfig).objects.length,
            Call.Close (Server.init sampleConfig).objects.length,
            Call.PurgeEmptyChannels (Server.init sampleConfig).objects.length])
        (Server.init sampleConfig).SNO
        (udec (uinc (Server.init sampleConfig).Users.unregistered_count))
        (Server.init sampleConfig).Config
        (AddUser id (Server.init sampleConfig)
          { sampleAccept "100AAAAAA" with banhit := some ("K", "K-lined") }) :=
  (ban_evaluation id (Server.init sampleConfig)
    { sampleAccept "100AAAAAA" with banhit := some ("K", "K-lined") }
    (by decide) (by decide) (by decide)).1 "K" "K-lined" rfl (by decide) rfl

/-- C13: for a connection that was entered, with `n` the length of
`local_users` before: if `n + 1` is greater than SoftLimit or at least
GetMaxFds(), the soft limit warning goes to snomask a, the new user is quit
with "No more connections allowed" and `unregistered_count` is what it was
before `AddUser`; otherwise no warning is written by the limit test, `AddUser`
goes on with the class check and, when no later check rejects the user, the
user is not quit.  In particular `n + 1 = SoftLimit < GetMaxFds()` is not
refused. -/
theorem soft_limit (casemap : Char → Char) (s : Server) (a : Accept)
    (hfresh : (find (fold casemap) s.Users.uuidlist a.uuid).isSome = false)
    (hc : s.Users.unregistered_count < UINT_MOD) :
    ((s.Users.local_users.length + 1 > s.Config.SoftLimit
        ∨ s.Users.local_users.length + 1 ≥ s.Config.MaxFds) →
      Pending s.objects
        (quitObject (acceptedUser s.Config a) "No more connections allowed" none)
        (s.Trace ++ AddUser.hookCalls a
          ++ [Call.OnUserDisconnect s.objects.length, Call.Close s.objects.length,
            Call.PurgeEmptyChannels s.objects.length])
        (s.SNO ++ [('a', "Warning: softlimit value has been reached: "
          ++ toString s.Config.SoftLimit ++ " clients")])
        s.Users.unregistered_count s.Config (AddUser casemap s a)) ∧
    (¬ (s.Users.local_users.length + 1 > s.Config.SoftLimit
        ∨ s.Users.local_users.length + 1 ≥ s.Config.MaxFds) →
      (∃ s', AddUser.accept casemap s a = some (s', s.objects.length) ∧
        s'.SNO = s.SNO ∧
        AddUser casemap s a = AddUser.screen casemap s' a s.objects.length) ∧
      (a.CheckClass = none → a.banhit = none → a.zline = none → a.AddFd = true →
        a.OnSetUserIP = none →
        ∃ user, user.quitting = false ∧
          Pending s.objects user
            (s.Trace ++ AddUser.hookCalls a ++ [Call.SetClass s.objects.length]
              ++ [Call.CheckClass s.objects.length] ++ [Call.AddFd s.objects.length]
              ++ [Call.OnSetUserIP s.objects.length] ++ [Call.OnUserInit s.objects.length])
            s.SNO (uinc s.Users.unregistered_count) s.Config (AddUser casemap s a))) := by
  obtain ⟨s', hs', hlu, p0⟩ := accept_pending casemap s a hfresh
  constructor
  · intro hlim
    have hl : limitReached s' = true := by
      unfold limitReached
      rw [hlu, p0.2.2.2.2, List.length_cons]
      simpa using hlim
    unfold AddUser
    rw [hs']
    simp only [hl, if_true]
    have p1 := pending_sno s.objects _ _ _ _ _ s' 'a'
      ("Warning: softlimit value has been reached: "
        ++ toString s.Config.SoftLimit ++ " clients") p0
    have p2 := pending_quit casemap s.objects _ _ _ _ _ _ "No more connections allowed" none
      p1 rfl rfl (show Registered.REG_NONE ≠ Registered.REG_ALL by decide)
    rw [udec_uinc _ hc] at p2
    rw [p0.2.2.2.2]
    exact p2
  · intro hlim
    constructor
    · refine ⟨s', hs', p0.2.2.1, ?_⟩
      have hl : limitReached s' = false := by
        unfold limitReached
        rw [hlu, p0.2.2.2.2, List.length_cons]
        simpa using hlim
      unfold AddUser
      rw [hs']
      simp only [hl, Bool.false_eq_true, if_false]
    · intro hcc hb hz hfd hip
      obtain ⟨s2, h2, p2⟩ := AddUser_reaches_bans casemap s a hfresh hlim hcc
      obtain ⟨s3, h3, p3⟩ := bans_clear casemap s.objects _ _ _ _ _ s2 a p2 hb (Or.inr hz)
      rw [h2, h3]
      exact finish_pass casemap s.objects _ _ _ _ _ s3 a p3 rfl hfd hip

/-- Instance of C13: with SoftLimit 0 the first connection is refused. -/
theorem soft_limit_witness :
    Pending (Server.init { sampleConfig with SoftLimit := 0 }).objects
      (quitObject (acceptedUser (Server.init { sampleConfig with SoftLimit := 0 }).Config
        (sampleAccept "100AAAAAA")) "No more connections allowed" none)
      ((Server.init { sampleConfig with SoftLimit := 0 }).Trace
        ++ AddUser.hookCalls (sampleAccept "100AAAAAA")
        ++ [Call.OnUserDisconnect (Server.init { sampleConfig with SoftLimit := 0 }).objects.length,
          Call.Close (Server.init { sampleConfig with SoftLimit := 0 }).objects.length,
          Call.PurgeEmptyChannels
            (Server.init { sampleConfig with SoftLimit := 0 }).objects.length])
      ((Server.init { sampleConfig with SoftLimit := 0 }).SNO
        ++ [('a', "Warning: softlimit value has been reached: "
          ++ toString (Server.init { sampleConfig with SoftLimit := 0 }).Config.SoftLimit
          ++ " clients")])
      (Server.init { sampleConfig with SoftLimit := 0 }).Users.unregistered_count
      (Server.init { sampleConfig with SoftLimit := 0 }).Config
      (AddUser id (Server.init { sampleConfig with SoftLimit := 0 })
        (sampleAccept "100AAAAAA")) :=
  (soft_limit id (Server.init { sampleConfig with SoftLimit := 0 })
    (sampleAccept "100AAAAAA") (by decide) (by decide)).1 (Or.inl (by decide))

/-! ## PortsEngine -/

/-- C15: `PortsEngine::AddFd` returns false and leaves the engine as it was
when the descriptor of the handler is negative, greater than `GetMaxFds() - 1`
or already registered with the base engine; otherwise it returns true, the
handler is registered, its event mask is `event_mask` and `CurrentSetSize` has
grown by exactly one. -/
theorem PortsEngine_AddFd (K : EngineConstants) (E : PortsEngine) (eh : EventHandler)
    (event_mask : Nat) :
    ((eh.fd < 0 ∨ eh.fd > E.GetMaxFds - 1 ∨ (E.GetRef eh.fd).isSome = true) →
      PortsEngine.AddFd K E eh event_mask = (E, false)) ∧
    (¬ (eh.fd < 0 ∨ eh.fd > E.GetMaxFds - 1 ∨ (E.GetRef eh.fd).isSome = true) →
      (PortsEngine.AddFd K E eh event_mask).2 = true ∧
      (PortsEngine.AddFd K E eh event_mask).1.GetEventMask eh = event_mask ∧
      (PortsEngine.AddFd K E eh event_mask).1.CurrentSetSize = E.CurrentSetSize + 1 ∧
      (PortsEngine.AddFd K E eh event_mask).1.GetRef eh.fd = some eh ∧
      (PortsEngine.AddFd K E eh event_mask).1.port
        = E.port ++ [PortCall.associate eh.fd (mask_to_events K event_mask) eh.ptr]) := by
  constructor
  · intro h
    unfold PortsEngine.AddFd SocketEngine.AddFd
    simp only []
    by_cases hr : eh.fd < 0 ∨ eh.fd > E.GetMaxFds - 1
    · rw [if_pos hr]
    · rw [if_neg hr]
      have hreg : (E.GetRef eh.fd).isSome = true := by
        rcases h with h | h | h
        · exact absurd (Or.inl h) hr
        · exact absurd (Or.inr h) hr
        · exact h
      simp only [hreg, if_true]
  · intro h
    have hr : ¬ (eh.fd < 0 ∨ eh.fd > E.GetMaxFds - 1) := by
      intro hr
      rcases hr with hr | hr
      · exact h (Or.inl hr)
      · exact h (Or.inr (Or.inl hr))
    have hreg : (E.GetRef eh.fd).isSome = false := by
      cases hx : (E.GetRef eh.fd).isSome with
      | true => exact absurd (Or.inr (Or.inr hx)) h
      | false => rfl
    unfold PortsEngine.AddFd SocketEngine.AddFd
    simp only [if_neg hr, hreg, Bool.false_eq_true, if_false]
    unfold PortsEngine.ResizeDouble
    split <;>
    · refine ⟨trivial, ?_, rfl, ?_, rfl⟩
      · show (find id (assign id E.masks eh.ptr event_mask) eh.ptr).getD 0 = event_mask
        rw [find_assign_self]
        rfl
      · show find id (assign id E.ref eh.fd eh) eh.fd = some eh
        rw [find_assign_self]

/-- Instance of C15: a handler on descriptor 5 is added to the empty engine, and
adding it again is refused. -/
theorem PortsEngine_AddFd_witness :
    (PortsEngine.AddFd solarisConstants emptyEngine ⟨1, 5⟩ 4).2 = true ∧
    (PortsEngine.AddFd solarisConstants emptyEngine ⟨1, 5⟩ 4).1.CurrentSetSize = 1 ∧
    PortsEngine.AddFd solarisConstants
        (PortsEngine.AddFd solarisConstants emptyEngine ⟨1, 5⟩ 4).1 ⟨1, 5⟩ 4
      = ((PortsEngine.AddFd solarisConstants emptyEngine ⟨1, 5⟩ 4).1, false) :=
  ⟨((PortsEngine_AddFd solarisConstants emptyEngine ⟨1, 5⟩ 4).2 (by decide)).1,
   ((PortsEngine_AddFd solarisConstants emptyEngine ⟨1, 5⟩ 4).2 (by decide)).2.2.1,
   (PortsEngine_AddFd solarisConstants
      (PortsEngine.AddFd solarisConstants emptyEngine ⟨1, 5⟩ 4).1 ⟨1, 5⟩ 4).1
      (Or.inr (Or.inr (by decide)))⟩

theorem and_lor_ne_zero (m a b : Nat) :
    m &&& (a ||| b) ≠ 0 ↔ (m &&& a ≠ 0 ∨ m &&& b ≠ 0) := by
  rw [Nat.and_or_distrib_left]
  constructor
  · intro h
    by_contra hc
    push_neg at hc
    apply h
    rw [hc.1, hc.2]
    rfl
  · intro h hz
    have h1 : m &&& a = 0 := by
      apply Nat.eq_of_testBit_eq
      intro i
      have := congrArg (fun x => Nat.testBit x i) hz
      simp only [Nat.testBit_or, Nat.zero_testBit, Bool.or_eq_false_iff] at this
      rw [this.1, Nat.zero_testBit]
    have h2 : m &&& b = 0 := by
      apply Nat.eq_of_testBit_eq
      intro i
      have := congrArg (fun x => Nat.testBit x i) hz
      simp only [Nat.testBit_or, Nat.zero_testBit, Bool.or_eq_false_iff] at this
      rw [this.2, Nat.zero_testBit]
    rcases h with h | h
    · exact h h1
    · exact h h2

theorem and_ldiff_of_disjoint (m b w : Nat) (h : b &&& w = 0) :
    Nat.ldiff m b &&& w = m &&& w := by
  apply Nat.eq_of_testBit_eq
  intro i
  have hi := congrArg (fun x => Nat.testBit x i) h
  simp only [Nat.testBit_and, Nat.zero_testBit] at hi
  simp only [Nat.testBit_and, Nat.testBit_ldiff]
  cases hb : b.testBit i <;> cases hw : w.testBit i <;> simp_all

theorem and_eq_of_ldiff_eq (m1 m2 b w : Nat) (h : b &&& w = 0)
    (hd : Nat.ldiff m1 b = Nat.ldiff m2 b) : m1 &&& w = m2 &&& w := by
  rw [← and_ldiff_of_disjoint m1 b w h, ← and_ldiff_of_disjoint m2 b w h, hd]

/-- C16: `OnSetEvent` calls `port_associate` (once, with the events of the new
mask) when `mask_to_events` differs on the two masks and does nothing when it
agrees; `mask_to_events` is POLLRDNORM, when the mask has FD_WANT_POLL_READ or
FD_WANT_FAST_READ, or-ed with POLLWRNORM, when the mask has FD_WANT_POLL_WRITE,
FD_WANT_FAST_WRITE or FD_WANT_SINGLE_WRITE; and when the two will-block flags
share no bit with the five want flags, two masks that are equal once the
will-block flags are cleared cause no call. -/
theorem OnSetEvent_rearms (K : EngineConstants) (E : PortsEngine) (eh : EventHandler)
    (old_mask new_mask : Nat) :
    (mask_to_events K new_mask ≠ mask_to_events K old_mask →
      (PortsEngine.OnSetEvent K E eh old_mask new_mask).port
          = E.port ++ [PortCall.associate eh.fd (mask_to_events K new_mask) eh.ptr] ∧
      PortsEngine.OnSetEvent K E eh old_mask new_mask ≠ E) ∧
    (mask_to_events K new_mask = mask_to_events K old_mask →
      PortsEngine.OnSetEvent K E eh old_mask new_mask = E) ∧
    mask_to_events K new_mask
      = (if new_mask &&& K.FD_WANT_POLL_READ ≠ 0 ∨ new_mask &&& K.FD_WANT_FAST_READ ≠ 0
          then K.POLLRDNORM else 0)
        ||| (if new_mask &&& K.FD_WANT_POLL_WRITE ≠ 0 ∨ new_mask &&& K.FD_WANT_FAST_WRITE ≠ 0
            ∨ new_mask &&& K.FD_WANT_SINGLE_WRITE ≠ 0 then K.POLLWRNORM else 0) ∧
    ((K.FD_READ_WILL_BLOCK ||| K.FD_WRITE_WILL_BLOCK)
        &&& (K.FD_WANT_POLL_READ ||| K.FD_WANT_FAST_READ) = 0 →
      (K.FD_READ_WILL_BLOCK ||| K.FD_WRITE_WILL_BLOCK)
        &&& (K.FD_WANT_POLL_WRITE ||| K.FD_WANT_FAST_WRITE ||| K.FD_WANT_SINGLE_WRITE) = 0 →
      Nat.ldiff new_mask (K.FD_READ_WILL_BLOCK ||| K.FD_WRITE_WILL_BLOCK)
        = Nat.ldiff old_mask (K.FD_READ_WILL_BLOCK ||| K.FD_WRITE_WILL_BLOCK) →
      PortsEngine.OnSetEvent K E eh old_mask new_mask = E) := by
  refine ⟨?_, ?_, ?_, ?_⟩
  · intro h
    unfold PortsEngine.OnSetEvent
    rw [if_pos h]
    refine ⟨rfl, ?_⟩
    intro heq
    have hp := congrArg PortsEngine.port heq
    have hl := congrArg List.length hp
    simp [PortsEngine.port_associate] at hl
  · intro h
    unfold PortsEngine.OnSetEvent
    rw [if_neg (not_not.2 h)]
  · unfold mask_to_events
    simp only [Nat.zero_or]
    by_cases h1 : new_mask &&& (K.FD_WANT_POLL_READ ||| K.FD_WANT_FAST_READ) ≠ 0
    · have h1' := (and_lor_ne_zero _ _ _).1 h1
      rw [if_pos h1, if_pos h1']
      by_cases h2 : new_mask &&& (K.FD_WANT_POLL_WRITE ||| K.FD_WANT_FAST_WRITE
          ||| K.FD_WANT_SINGLE_WRITE) ≠ 0
      · have h2' : new_mask &&& K.FD_WANT_POLL_WRITE ≠ 0 ∨ new_mask &&& K.FD_WANT_FAST_WRITE ≠ 0
            ∨ new_mask &&& K.FD_WANT_SINGLE_WRITE ≠ 0 := by
          rcases (and_lor_ne_zero _ _ _).1 h2 with h | h
          · rcases (and_lor_ne_zero _ _ _).1 h with h | h
            · exact Or.inl h
            · exact Or.inr (Or.inl h)
          · exact Or.inr (Or.inr h)
        rw [if_pos h2, if_pos h2']
      · have h2' : ¬ (new_mask &&& K.FD_WANT_POLL_WRITE ≠ 0
            ∨ new_mask &&& K.FD_WANT_FAST_WRITE ≠ 0
            ∨ new_mask &&& K.FD_WANT_SINGLE_WRITE ≠ 0) := by
          intro h
          apply h2
          rcases h with h | h | h
          · exact (and_lor_ne_zero _ _ _).2 (Or.inl ((and_lor_ne_zero _ _ _).2 (Or.inl h)))
          · exact (and_lor_ne_zero _ _ _).2 (Or.inl ((and_lor_ne_zero _ _ _).2 (Or.inr h)))
          · exact (and_lor_ne_zero _ _ _).2 (Or.inr h)
        rw [if_neg h2, if_neg h2']
        simp
    · have h1' : ¬ (new_mask &&& K.FD_WANT_POLL_READ ≠ 0
          ∨ new_mask &&& K.FD_WANT_FAST_READ ≠ 0) :=
        fun h => h1 ((and_lor_ne_zero _ _ _).2 h)
      rw [if_neg h1, if_neg h1']
      by_cases h2 : new_mask &&& (K.FD_WANT_POLL_WRITE ||| K.FD_WANT_FAST_WRITE
          ||| K.FD_WANT_SINGLE_WRITE) ≠ 0
      · have h2' : new_mask &&& K.FD_WANT_POLL_WRITE ≠ 0 ∨ new_mask &&& K.FD_WANT_FAST_WRITE ≠ 0
            ∨ new_mask &&& K.FD_WANT_SINGLE_WRITE ≠ 0 := by
          rcases (and_lor_ne_zero _ _ _).1 h2 with h | h
          · rcases (and_lor_ne_zero _ _ _).1 h with h | h
            · exact Or.inl h
            · exact Or.inr (Or.inl h)
          · exact Or.inr (Or.inr h)
        rw [if_pos h2, if_pos h2']
      · have h2' : ¬ (new_mask &&& K.FD_WANT_POLL_WRITE ≠ 0
            ∨ new_mask &&& K.FD_WANT_FAST_WRITE ≠ 0
            ∨ new_mask &&& K.FD_WANT_SINGLE_WRITE ≠ 0) := by
          intro h
          apply h2
          rcases h with h | h | h
          · exact (and_lor_ne_zero _ _ _).2 (Or.inl ((and_lor_ne_zero _ _ _).2 (Or.inl h)))
          · exact (and_lor_ne_zero _ _ _).2 (Or.inl ((and_lor_ne_zero _ _ _).2 (Or.inr h)))
          · exact (and_lor_ne_zero _ _ _).2 (Or.inr h)
        rw [if_neg h2, if_neg h2']
        rfl
  · intro hr hw hd
    have e1 := and_eq_of_ldiff_eq new_mask old_mask _ _ hr hd
    have e2 := and_eq_of_ldiff_eq new_mask old_mask _ _ hw hd
    have hm : mask_to_events K new_mask = mask_to_events K old_mask := by
      unfold mask_to_events
      simp only [e1, e2]
    unfold PortsEngine.OnSetEvent
    rw [if_neg (not_not.2 hm)]

/-- Instance of C16: adding FD_READ_WILL_BLOCK to a mask that wants fast reads
causes no call to the port. -/
theorem OnSetEvent_rearms_witness :
    PortsEngine.OnSetEvent solarisConstants emptyEngine ⟨1, 5⟩ 0x4 0x2004 = emptyEngine :=
  (OnSetEvent_rearms solarisConstants emptyEngine ⟨1, 5⟩ 0x4 0x2004).2.1 (by decide)

theorem rearm_GetRef (K : EngineConstants) (E : PortsEngine) (eh : EventHandler)
    (ev : port_event_t) (fd : Int) :
    (PortsEngine.rearm K E eh ev).GetRef fd = E.GetRef fd := rfl

theorem dispatchLoop_calls (K : EngineConstants)
    (HandleEvent : EventHandler → EventType → PortsEngine → PortsEngine)
    (evs : List port_event_t) :
    ∀ (E : PortsEngine) (calls : List (EventHandler × EventType)),
      PortsEngine.dispatchLoop K HandleEvent E evs calls
        = ((PortsEngine.dispatchLoop K HandleEvent E evs []).1,
            calls ++ (PortsEngine.dispatchLoop K HandleEvent E evs []).2) := by
  induction evs with
  | nil => intro E calls; simp [PortsEngine.dispatchLoop]
  | cons ev rest ih =>
    intro E calls
    simp only [PortsEngine.dispatchLoop, List.nil_append]
    rw [ih _ (calls ++ _), ih _ (PortsEngine.dispatchEvent K HandleEvent E ev).2,
      List.append_assoc]

theorem dispatchEvent_eq (K : EngineConstants)
    (HandleEvent : EventHandler → EventType → PortsEngine → PortsEngine)
    (E : PortsEngine) (ev : port_event_t) (eh : EventHandler)
    (hsrc : ev.portev_source = K.PORT_SOURCE_FD) (href : E.GetRef ev.portev_object = some eh) :
    PortsEngine.dispatchEvent K HandleEvent E ev
      = if ev.portev_events &&& K.POLLRDNORM ≠ 0 then
          if (HandleEvent eh EventType.EVENT_READ
              { PortsEngine.rearm K E eh ev with
                ReadEvents := (PortsEngine.rearm K E eh ev).ReadEvents + 1 }).GetRef
              ev.portev_object ≠ some eh then
            (HandleEvent eh EventType.EVENT_READ
              { PortsEngine.rearm K E eh ev with
                ReadEvents := (PortsEngine.rearm K E eh ev).ReadEvents + 1 },
              [(eh, EventType.EVENT_READ)])
          else if ev.portev_events &&& K.POLLWRNORM ≠ 0 then
            (HandleEvent eh EventType.EVENT_WRITE
              { HandleEvent eh EventType.EVENT_READ
                  { PortsEngine.rearm K E eh ev with
                    ReadEvents := (PortsEngine.rearm K E eh ev).ReadEvents + 1 } with
                WriteEvents := (HandleEvent eh EventType.EVENT_READ
                  { PortsEngine.rearm K E eh ev with
                    ReadEvents := (PortsEngine.rearm K E eh ev).ReadEvents + 1 }).WriteEvents
                  + 1 },
              [(eh, EventType.EVENT_READ), (eh, EventType.EVENT_WRITE)])
          else
            (HandleEvent eh EventType.EVENT_READ
              { PortsEngine.rearm K E eh ev with
                ReadEvents := (PortsEngine.rearm K E eh ev).ReadEvents + 1 },
              [(eh, EventType.EVENT_READ)])
        else if ev.portev_events &&& K.POLLWRNORM ≠ 0 then
          (HandleEvent eh EventType.EVENT_WRITE
            { PortsEngine.rearm K E eh ev with
              WriteEvents := (PortsEngine.rearm K E eh ev).WriteEvents + 1 },
            [(eh, EventType.EVENT_WRITE)])
        else (PortsEngine.rearm K E eh ev, []) := by
  have hnot : ¬ ev.portev_source ≠ K.PORT_SOURCE_FD := not_not.2 hsrc
  unfold PortsEngine.dispatchEvent
  rw [if_neg hnot]
  simp only [href]
  rfl

/-- C17: for one retrieved event, `DispatchEvents` invokes no callback when the
event is not from a descriptor or the descriptor has no registered handler;
otherwise, with `eh` the registered handler, it invokes `HandleEvent(EVENT_READ)`
exactly when POLLRDNORM is set and before any `HandleEvent(EVENT_WRITE)`, each
at most once, and `HandleEvent(EVENT_WRITE)` exactly when POLLWRNORM is set and
either POLLRDNORM is not set or `eh` is still the handler registered for the
descriptor after the READ callback.  The callbacks of a batch are those of its
events in order, and a failed `port_getn` invokes none. -/
theorem DispatchEvents_callbacks (K : EngineConstants)
    (HandleEvent : EventHandler → EventType → PortsEngine → PortsEngine)
    (E : PortsEngine) (ev : port_event_t) (rest : List port_event_t) (ret : Int) :
    ((ev.portev_source ≠ K.PORT_SOURCE_FD ∨ E.GetRef ev.portev_object = none) →
      PortsEngine.dispatchEvent K HandleEvent E ev = (E, [])) ∧
    (∀ eh, ev.portev_source = K.PORT_SOURCE_FD → E.GetRef ev.portev_object = some eh →
      (ev.portev_events &&& K.POLLRDNORM ≠ 0 →
        (HandleEvent eh EventType.EVENT_READ
            { PortsEngine.rearm K E eh ev with
              ReadEvents := (PortsEngine.rearm K E eh ev).ReadEvents + 1 }).GetRef
          ev.portev_object ≠ some eh →
        (PortsEngine.dispatchEvent K HandleEvent E ev).2 = [(eh, EventType.EVENT_READ)]) ∧
      (ev.portev_events &&& K.POLLRDNORM ≠ 0 →
        (HandleEvent eh EventType.EVENT_READ
            { PortsEngine.rearm K E eh ev with
              ReadEvents := (PortsEngine.rearm K E eh ev).ReadEvents + 1 }).GetRef
          ev.portev_object = some eh →
        (PortsEngine.dispatchEvent K HandleEvent E ev).2
          = if ev.portev_events &&& K.POLLWRNORM ≠ 0
            then [(eh, EventType.EVENT_READ), (eh, EventType.EVENT_WRITE)]
            else [(eh, EventType.EVENT_READ)]) ∧
      (¬ ev.portev_events &&& K.POLLRDNORM ≠ 0 →
        (PortsEngine.dispatchEvent K HandleEvent E ev).2
          = if ev.portev_events &&& K.POLLWRNORM ≠ 0 then [(eh, EventType.EVENT_WRITE)]
            else [])) ∧
    (PortsEngine.dispatchLoop K HandleEvent E (ev :: rest) []).2
      = (PortsEngine.dispatchEvent K HandleEvent E ev).2
        ++ (PortsEngine.dispatchLoop K HandleEvent
            (PortsEngine.dispatchEvent K HandleEvent E ev).1 rest []).2 ∧
    (ret ≠ -1 →
      (PortsEngine.DispatchEvents K HandleEvent E ret (ev :: rest)).2.2
        = (PortsEngine.dispatchLoop K HandleEvent
            { E with TotalEvents := E.TotalEvents + (ev :: rest).length } (ev :: rest) []).2) ∧
    (PortsEngine.DispatchEvents K HandleEvent E (-1) (ev :: rest)).2.2 = [] := by
  refine ⟨?_, ?_, ?_, ?_, ?_⟩
  · intro h
    unfold PortsEngine.dispatchEvent
    rcases h with h | h
    · rw [if_pos h]
    · split
      · rfl
      · simp only [h]
  · intro eh hsrc href
    rw [dispatchEvent_eq K HandleEvent E ev eh hsrc href]
    refine ⟨?_, ?_, ?_⟩
    · intro hr hchg
      rw [if_pos hr, if_pos hchg]
    · intro hr hsame
      rw [if_pos hr, if_neg (not_not.2 hsame)]
      split <;> rfl
    · intro hr
      rw [if_neg hr]
      split <;> rfl
  · simp only [PortsEngine.dispatchLoop, List.nil_append]
    rw [dispatchLoop_calls]
  · intro h
    unfold PortsEngine.DispatchEvents
    rw [if_neg h]
  · unfold PortsEngine.DispatchEvents
    rw [if_pos rfl]

/-- Instance of C17: the READ callback deregisters the handler, so the WRITE
callback of the same event is not invoked. -/
theorem DispatchEvents_callbacks_witness :
    (PortsEngine.dispatchEvent solarisConstants
        (fun eh t E => if t = EventType.EVENT_READ then PortsEngine.DelFd E eh else E)
        (PortsEngine.AddFd solarisConstants emptyEngine ⟨1, 5⟩ 0x44).1
        ⟨4, 5, 0x44⟩).2 = [(⟨1, 5⟩, EventType.EVENT_READ)] :=
  ((DispatchEvents_callbacks solarisConstants
      (fun eh t E => if t = EventType.EVENT_READ then PortsEngine.DelFd E eh else E)
      (PortsEngine.AddFd solarisConstants emptyEngine ⟨1, 5⟩ 0x44).1
      ⟨4, 5, 0x44⟩ [] 1).2.1 ⟨1, 5⟩ (by decide) (by decide)).1 (by decide) (by decide)

/-! ## trim -/

theorem find_first_not_of_none (c : Char) (l : List Char)
    (h : find_first_not_of l c = none) : ∀ x ∈ l, x = c := by
  induction l with
  | nil => intro x hx; cases hx
  | cons a rest ih =>
    unfold find_first_not_of at h
    by_cases ha : a ≠ c
    · rw [if_pos ha] at h; cases h
    · rw [if_neg ha] at h
      have hr : find_first_not_of rest c = none := by
        cases hf : find_first_not_of rest c with
        | none => rfl
        | some i => rw [hf] at h; cases h
      intro x hx
      rcases List.mem_cons.1 hx with hx | hx
      · rw [hx]; exact not_not.1 ha
      · exact ih hr x hx

theorem find_first_not_of_some (c : Char) (l : List Char) :
    ∀ i, find_first_not_of l c = some i →
      l.dropWhile (fun x => decide (x = c)) = l.drop i ∧
      ∃ y ys, l.drop i = y :: ys ∧ y ≠ c := by
  induction l with
  | nil => intro i h; cases h
  | cons a rest ih =>
    intro i h
    unfold find_first_not_of at h
    by_cases ha : a ≠ c
    · rw [if_pos ha] at h
      cases h
      refine ⟨?_, a, rest, rfl, ha⟩
      rw [List.dropWhile_cons_of_neg (by simpa using ha)]
      rfl
    · rw [if_neg ha] at h
      cases hf : find_first_not_of rest c with
      | none => rw [hf] at h; cases h
      | some j =>
        rw [hf] at h
        cases h
        obtain ⟨h1, h2⟩ := ih j hf
        refine ⟨?_, ?_⟩
        · rw [List.dropWhile_cons_of_pos (by simpa using ha)]
          exact h1
        · exact h2

theorem find_last_not_of_none (c : Char) (l : List Char)
    (h : find_last_not_of l c = none) : ∀ x ∈ l, x = c := by
  induction l with
  | nil => intro x hx; cases hx
  | cons a rest ih =>
    unfold find_last_not_of at h
    cases hf : find_last_not_of rest c with
    | some i => rw [hf] at h; cases h
    | none =>
      rw [hf] at h
      simp only [] at h
      by_cases ha : a ≠ c
      · rw [if_pos ha] at h; cases h
      · intro x hx
        rcases List.mem_cons.1 hx with hx | hx
        · rw [hx]; exact not_not.1 ha
        · exact ih hf x hx

theorem rdropWhile_all (c : Char) (l : List Char) (h : ∀ x ∈ l, x = c) :
    l.rdropWhile (fun x => decide (x = c)) = [] := by
  rw [List.rdropWhile_eq_nil_iff]
  intro x hx
  simpa using h x hx

theorem dropWhile_append_of_ne_nil {β : Type} (p : β → Bool) (l1 l2 : List β)
    (h : l1.dropWhile p ≠ []) : (l1 ++ l2).dropWhile p = l1.dropWhile p ++ l2 := by
  induction l1 with
  | nil => exact absurd rfl h
  | cons a rest ih =>
    cases hp : p a with
    | true =>
      rw [List.cons_append, List.dropWhile_cons_of_pos hp, List.dropWhile_cons_of_pos hp]
      rw [List.dropWhile_cons_of_pos hp] at h
      exact ih h
    | false =>
      rw [List.cons_append, List.dropWhile_cons_of_neg (by simp [hp]),
        List.dropWhile_cons_of_neg (by simp [hp])]
      rfl

theorem dropWhile_append_of_all {β : Type} (p : β → Bool) (l1 l2 : List β)
    (h : ∀ x ∈ l1, p x = true) : (l1 ++ l2).dropWhile p = l2.dropWhile p := by
  induction l1 with
  | nil => rfl
  | cons a rest ih =>
    rw [List.cons_append, List.dropWhile_cons_of_pos (h a (List.mem_cons_self _ _))]
    exact ih (fun x hx => h x (List.mem_cons_of_mem _ hx))

theorem find_last_not_of_some (c : Char) (l : List Char) :
    ∀ j, find_last_not_of l c = some j →
      l.rdropWhile (fun x => decide (x = c)) = l.take (j + 1) := by
  induction l with
  | nil => intro j h; cases h
  | cons a rest ih =>
    intro j h
    unfold find_last_not_of at h
    cases hf : find_last_not_of rest c with
    | some i =>
      rw [hf] at h
      cases h
      have h1 := ih i hf
      have hne : rest.rdropWhile (fun x => decide (x = c)) ≠ [] := by
        intro hnil
        rw [List.rdropWhile_eq_nil_iff] at hnil
        have hall : ∀ x ∈ rest, x = c := fun x hx => by simpa using hnil x hx
        have : find_last_not_of rest c = none := by
          clear ih h1 hf hnil
          induction rest with
          | nil => rfl
          | cons b r ihr =>
            unfold find_last_not_of
            rw [ihr (fun x hx => hall x (List.mem_cons_of_mem _ hx))]
            simp only []
            rw [if_neg (not_not.2 (hall b (List.mem_cons_self _ _)))]
        rw [this] at hf
        cases hf
      show (a :: rest).rdropWhile _ = a :: rest.take (i + 1)
      rw [← h1]
      unfold List.rdropWhile at hne ⊢
      have hne2 : List.dropWhile (fun x => decide (x = c)) rest.reverse ≠ [] := by
        intro hnil
        apply hne
        rw [hnil]
        rfl
      rw [List.reverse_cons, dropWhile_append_of_ne_nil _ _ _ hne2, List.reverse_append]
      rfl
    | none =>
      rw [hf] at h
      simp only [] at h
      by_cases ha : a ≠ c
      · rw [if_pos ha] at h
        cases h
        have hall := find_last_not_of_none c rest hf
        show (a :: rest).rdropWhile _ = [a]
        unfold List.rdropWhile
        rw [List.reverse_cons, dropWhile_append_of_all _ _ _
          (fun x hx => by simpa using hall x (List.mem_reverse.1 hx)),
          List.dropWhile_cons_of_neg (by simpa using ha)]
        rfl
      · rw [if_neg ha] at h; cases h

theorem find_last_not_of_drop (c : Char) (l : List Char) :
    ∀ i j, find_first_not_of l c = some i → find_last_not_of l c = some j →
      i ≤ j ∧ find_last_not_of (l.drop i) c = some (j - i) := by
  induction l with
  | nil => intro i j h; cases h
  | cons a rest ih =>
    intro i j hi hj
    unfold find_first_not_of at hi
    by_cases ha : a ≠ c
    · rw [if_pos ha] at hi
      cases hi
      exact ⟨Nat.zero_le _, hj⟩
    · rw [if_neg ha] at hi
      cases hf : find_first_not_of rest c with
      | none => rw [hf] at hi; cases hi
      | some i' =>
        rw [hf] at hi
        cases hi
        unfold find_last_not_of at hj
        cases hl : find_last_not_of rest c with
        | none =>
          rw [hl] at hj
          simp only [] at hj
          rw [if_neg ha] at hj
          cases hj
        | some j' =>
          rw [hl] at hj
          cases hj
          obtain ⟨h1, h2⟩ := ih i' j' hf hl
          refine ⟨Nat.succ_le_succ h1, ?_⟩
          rw [List.drop_succ_cons, Nat.succ_sub_succ]
          exact h2

theorem trim_eq_trimSpec (str : List Char) : trim str = trimSpec str := by
  unfold trim trimSpec
  cases hi : find_first_not_of str ' ' with
  | none =>
    have hall := find_first_not_of_none ' ' str hi
    have hd : str.dropWhile (fun c => decide (c = ' ')) = [] := by
      rw [List.dropWhile_eq_nil_iff]
      intro x hx
      simpa using hall x hx
    simp only [hd]
    rfl
  | some i =>
    obtain ⟨hd, y, ys, hy, hyc⟩ := find_first_not_of_some ' ' str i hi
    cases hj : find_last_not_of str ' ' with
    | none =>
      have hall := find_last_not_of_none ' ' str hj
      have hmem : y ∈ str := List.mem_of_mem_drop (by rw [hy]; exact List.mem_cons_self _ _)
      exact absurd (hall y hmem) hyc
    | some j =>
      obtain ⟨hle, hj2⟩ := find_last_not_of_drop ' ' str i j hi hj
      have hr := find_last_not_of_some ' ' (str.drop i) (j - i) hj2
      simp only [substr]
      rw [hd]
      exact hr.symm

theorem trimSpec_idempotent (str : List Char) : trimSpec (trimSpec str) = trimSpec str := by
  have key : ∀ m : List Char, (∀ y ys, m = y :: ys → y ≠ ' ') →
      (m.rdropWhile (fun c => decide (c = ' '))).dropWhile (fun c => decide (c = ' '))
        = m.rdropWhile (fun c => decide (c = ' ')) := by
    intro m hm
    cases hr : m.rdropWhile (fun c => decide (c = ' ')) with
    | nil => rfl
    | cons z zs =>
      have hpre : (z :: zs) <+: m := by rw [← hr]; exact List.rdropWhile_prefix _ _
      obtain ⟨t, ht⟩ := hpre
      have hz := hm z (zs ++ t) (by rw [← ht]; rfl)
      rw [List.dropWhile_cons_of_neg (by simpa using hz)]
  have hhead : ∀ y ys, str.dropWhile (fun c => decide (c = ' ')) = y :: ys → y ≠ ' ' := by
    intro y ys h
    have := List.head_dropWhile_not (fun c => decide (c = ' ')) str
      (by rw [h]; exact List.cons_ne_nil _ _)
    simp only [h, List.head_cons] at this
    simpa using this
  show List.rdropWhile (fun c => decide (c = ' '))
      (List.dropWhile (fun c => decide (c = ' '))
        (List.rdropWhile (fun c => decide (c = ' '))
          (List.dropWhile (fun c => decide (c = ' ')) str)))
    = List.rdropWhile (fun c => decide (c = ' '))
        (List.dropWhile (fun c => decide (c = ' ')) str)
  rw [key _ hhead, List.rdropWhile_idempotent]

/-- C18: `trim(s)` is `s` without its leading and its trailing spaces: when `s`
has a character that is not a space, it is the substring from the first such
character to the last one, both included, and it is empty when `s` is empty or
all spaces; `trim(trim(s)) = trim(s)`. -/
theorem trim_removes_spaces (str : List Char) :
    trim str = trimSpec str ∧
    (∀ i j, find_first_not_of str ' ' = some i → find_last_not_of str ' ' = some j →
      i ≤ j ∧ trim str = (str.drop i).take (j - i + 1)) ∧
    ((∀ x ∈ str, x = ' ') → trim str = []) ∧
    trim [] = [] ∧
    trim (trim str) = trim str := by
  refine ⟨trim_eq_trimSpec str, ?_, ?_, rfl, ?_⟩
  · intro i j hi hj
    refine ⟨(find_last_not_of_drop ' ' str i j hi hj).1, ?_⟩
    unfold trim
    simp only [hi, hj, substr]
  · intro hall
    rw [trim_eq_trimSpec]
    unfold trimSpec
    have hd : str.dropWhile (fun c => decide (c = ' ')) = [] := by
      rw [List.dropWhile_eq_nil_iff]
      intro x hx
      simpa using hall x hx
    simp only [hd]
    rfl
  · rw [trim_eq_trimSpec, trim_eq_trimSpec, trimSpec_idempotent]

/-! ## SearchAndReplace -/

theorem replaceScan_skip (pattern replace : List Char) :
    ∀ (l : List Char) (k : Nat), k ≤ l.length →
      replaceScan pattern replace l k = replaceScan pattern replace (l.drop k) 0 := by
  intro l
  induction l with
  | nil => intro k hk; cases k <;> simp [replaceScan]
  | cons c cs ih =>
    intro k hk
    cases k with
    | zero => rfl
    | succ k =>
      rw [replaceScan, List.drop_succ_cons]
      exact ih k (Nat.le_of_succ_le_succ hk)

theorem substr_eq_iff_isPrefixOf (pattern l : List Char) :
    (l.take pattern.length = pattern) ↔ pattern.isPrefixOf l = true := by
  rw [List.isPrefixOf_iff_prefix, List.prefix_iff_eq_take]
  exact eq_comm

theorem loop_eq_scan (text pattern replace : List Char) (hp : pattern ≠ []) :
    ∀ (fuel n : Nat) (acc : List Char), n ≤ text.length → text.length - n ≤ fuel →
      SearchAndReplace.loop text pattern replace fuel n acc
        = some (acc ++ replaceScan pattern replace (text.drop n) 0) := by
  intro fuel
  induction fuel with
  | zero =>
    intro n acc hn hf
    have hnl : n = text.length := by omega
    unfold SearchAndReplace.loop
    rw [if_pos hnl, hnl, List.drop_length]
    simp [replaceScan]
  | succ fuel ih =>
    intro n acc hn hf
    unfold SearchAndReplace.loop
    by_cases hnl : n = text.length
    · rw [if_pos hnl, hnl, List.drop_length]
      simp [replaceScan]
    · rw [if_neg hnl, if_neg (by omega)]
      have hlt : n < text.length := by omega
      obtain ⟨c, cs, hcs⟩ : ∃ c cs, text.drop n = c :: cs := by
        cases hd : text.drop n with
        | nil =>
          have := congrArg List.length hd
          rw [List.length_drop] at this
          simp at this
          omega
        | cons c cs => exact ⟨c, cs, rfl⟩
      have hcsl : cs.length = text.length - n - 1 := by
        have := congrArg List.length hcs
        rw [List.length_drop, List.length_cons] at this
        omega
      have hdrop1 : text.drop (n + 1) = cs := by
        rw [← List.drop_drop, hcs]
        rfl
      have hplen : 0 < pattern.length := List.length_pos.2 hp
      by_cases hm : pattern.isPrefixOf (c :: cs) = true
      · have hsub : substr text n pattern.length = pattern := by
          unfold substr
          rw [hcs]
          exact (substr_eq_iff_isPrefixOf pattern (c :: cs)).2 hm
        have hpl : pattern.length ≤ (c :: cs).length := by
          rw [List.isPrefixOf_iff_prefix] at hm
          exact hm.length_le
        rw [List.length_cons] at hpl
        have hge : text.length ≥ pattern.length := by omega
        rw [if_pos ⟨hge, hsub⟩]
        rw [ih _ _ (by omega) (by omega)]
        rw [hcs, replaceScan, if_pos hm, replaceScan_skip pattern replace cs _ (by omega)]
        have hdd : text.drop (n + pattern.length - 1 + 1) = cs.drop (pattern.length - 1) := by
          rw [← hdrop1, List.drop_drop]
          congr 1
          omega
        rw [hdd, List.append_assoc]
      · have hsub : ¬ (text.length ≥ pattern.length ∧ substr text n pattern.length = pattern) := by
          intro ⟨_, hs⟩
          apply hm
          unfold substr at hs
          rw [hcs] at hs
          exact (substr_eq_iff_isPrefixOf pattern (c :: cs)).1 hs
        rw [if_neg hsub]
        rw [ih _ _ (by omega) (by omega)]
        rw [hcs, hdrop1, replaceScan, if_neg hm]
        simp

theorem replaceScan_self (pattern : List Char) (hp : pattern ≠ []) :
    ∀ (m : Nat) (l : List Char), l.length ≤ m → replaceScan pattern pattern l 0 = l := by
  intro m
  induction m with
  | zero =>
    intro l hl
    cases l with
    | nil => rfl
    | cons c cs => simp at hl
  | succ m ih =>
    intro l hl
    cases l with
    | nil => rfl
    | cons c cs =>
      rw [replaceScan]
      by_cases hm : pattern.isPrefixOf (c :: cs) = true
      · rw [if_pos hm]
        have hpre := List.isPrefixOf_iff_prefix.1 hm
        have hpl := hpre.length_le
        have hplen : 0 < pattern.length := List.length_pos.2 hp
        rw [List.length_cons] at hpl hl
        rw [replaceScan_skip pattern pattern cs _ (by omega)]
        rw [ih (cs.drop (pattern.length - 1)) (by rw [List.length_drop]; omega)]
        obtain ⟨t, ht⟩ := hpre
        have h1 : (c :: cs).drop pattern.length = t := by
          rw [← ht, List.drop_left]
        have h2 : (c :: cs).drop pattern.length = cs.drop (pattern.length - 1) := by
          obtain ⟨k, hk⟩ : ∃ k, pattern.length = k + 1 := ⟨pattern.length - 1, by omega⟩
          rw [hk, List.drop_succ_cons]
          rfl
        rw [← h2, h1, ht]
      · rw [if_neg hm, ih cs (by rw [List.length_cons] at hl; omega)]

/-- C20: `SearchAndReplace` returns the empty string when the pattern or the
text is empty; for a non-empty pattern and a non-empty text the loop ends
within `text.length()` iterations, its index never passes `text.length()`, and
the result is the text with each occurrence of the pattern found in a
left-to-right scan that does not overlap replaced; replacing a pattern by
itself gives the text back. -/
theorem SearchAndReplace_scan (text pattern replace : List Char) :
    ((pattern = [] ∨ text = []) → SearchAndReplace text pattern replace = some []) ∧
    (pattern ≠ [] → text ≠ [] →
      SearchAndReplace text pattern replace
        = some (replaceScan pattern replace text 0)) ∧
    (pattern ≠ [] → text ≠ [] → SearchAndReplace text pattern pattern = some text) := by
  refine ⟨?_, ?_, ?_⟩
  · intro h
    unfold SearchAndReplace
    rw [if_neg]
    intro ⟨h1, h2⟩
    rcases h with h | h
    · exact h1 h
    · exact h2 h
  · intro hp ht
    unfold SearchAndReplace
    rw [if_pos ⟨hp, ht⟩, loop_eq_scan text pattern replace hp text.length 0 []
      (Nat.zero_le _) (by omega)]
    rfl
  · intro hp ht
    unfold SearchAndReplace
    rw [if_pos ⟨hp, ht⟩, loop_eq_scan text pattern pattern hp text.length 0 []
      (Nat.zero_le _) (by omega)]
    rw [List.nil_append, List.drop_zero, replaceScan_self pattern hp _ text (Nat.le_refl _)]

/-- Instance of C20: each "ab" in "xabab" is replaced by "c", and an empty
pattern empties the text. -/
theorem SearchAndReplace_scan_witness :
    SearchAndReplace ['x', 'a', 'b', 'a', 'b'] ['a', 'b'] ['c']
      = some (replaceScan ['a', 'b'] ['c'] ['x', 'a', 'b', 'a', 'b'] 0) :=
  (SearchAndReplace_scan ['x', 'a', 'b', 'a', 'b'] ['a', 'b'] ['c']).2.1
    (by decide) (by decide)

/-! ## BoolSet -/

theorem bitfields_pos (n : Nat) (hn : n < 8) : 0 < bitfields.getD n 0 := by
  have h : ∀ k, k < 8 → 0 < bitfields.getD k 0 := by decide
  exact h n hn

theorem bitfields_cases (n : Nat) (hn : n < 8) :
    ∃ k : Nat, 0 < k ∧ bitfields.getD n 0 = Int.ofNat k := by
  have h : ∀ m, m < 8 → ∃ k : Nat, 0 < k ∧ bitfields.getD m 0 = Int.ofNat k := by
    intro m hm
    interval_cases m
    · exact ⟨1, by decide, rfl⟩
    · exact ⟨2, by decide, rfl⟩
    · exact ⟨4, by decide, rfl⟩
    · exact ⟨8, by decide, rfl⟩
    · exact ⟨16, by decide, rfl⟩
    · exact ⟨32, by decide, rfl⟩
    · exact ⟨64, by decide, rfl⟩
    · exact ⟨128, by decide, rfl⟩
  exact h n hn

/-- C19: `BoolSet::Get` does not report the bit.  It tests `bits | bitfields[n]`
and not `bits & bitfields[n]`, so for every set whose `bits` is not negative
(every set when `char` is unsigned) and every index below 8 it returns true,
whether bit `n` is set or not. -/
theorem BoolSet_Get_ignores_bit (b : BoolSet) (n : Nat) (hn : n < 8) (hb : 0 ≤ b.bits) :
    b.Get n = true := by
  obtain ⟨k, hk, hf⟩ := bitfields_cases n hn
  obtain ⟨m, hm⟩ := Int.eq_ofNat_of_zero_le hb
  unfold BoolSet.Get
  rw [hf, hm]
  show decide (Int.ofNat (m ||| k) > 0) = true
  rw [decide_eq_true_eq]
  have hne : m ||| k ≠ 0 := by
    intro h0
    have := congrArg (fun x => x &&& k) h0
    simp only [Nat.zero_and] at this
    have h2 : (m ||| k) &&& k = k := by
      apply Nat.eq_of_testBit_eq
      intro i
      simp only [Nat.testBit_and, Nat.testBit_or]
      cases m.testBit i <;> cases k.testBit i <;> rfl
    rw [h2] at this
    omega
  exact Int.ofNat_lt.2 (Nat.pos_of_ne_zero hne)

theorem Unset_empty : BoolSet.Unset false ⟨0⟩ 0 = ⟨0⟩ := by
  have h : Nat.ldiff 0 1 = 0 := by
    apply Nat.eq_of_testBit_eq
    intro i
    simp [Nat.testBit_ldiff]
  show BoolSet.mk (Int.ofNat (Nat.ldiff 0 1) % 256) = ⟨0⟩
  rw [h]
  rfl

/-- Instance of C19: in the empty set bit 0 is not set, and `Get(0)` is true;
it is still true after `Unset(0)`. -/
theorem BoolSet_Get_ignores_bit_witness :
    BoolSet.Get ⟨0⟩ 0 = true ∧ BoolSet.bit ⟨0⟩ 0 = false ∧
    BoolSet.Get (BoolSet.Unset false ⟨0⟩ 0) 0 = true :=
  ⟨BoolSet_Get_ignores_bit ⟨0⟩ 0 (by decide) (by decide), by decide,
    BoolSet_Get_ignores_bit (BoolSet.Unset false ⟨0⟩ 0) 0 (by decide)
      (by rw [Unset_empty])⟩

/-! ## cmd_gline -/

/-- C21: `cmd_gline::Handle`, called with `pcnt` parameters that exist, the
first being `p0`.  It calls `add_gline` if and only if `pcnt >= 3` and
`host_matches_everyone(p0, user)` is false, and then exactly once, with
`duration(parameters[1])`, the nick of the user, `parameters[2]` and `p0`,
followed by the hook `OnAddGLine` with the same values; when the mask matches
everyone nothing else is called.  For `pcnt < 3` it calls `del_gline(p0)` and
never `add_gline`; the hook `OnDelGLine` fires if and only if `del_gline`
succeeded, and otherwise the user is sent the notice that the G-line was not
found. -/
theorem gline_Handle (env : GlineEnv) (parameters : List String) (pcnt : Int)
    (user : userrec) (trace : List GlineCall) (p0 : String)
    (h0 : parameters[0]? = some p0) (hlen : pcnt ≤ parameters.length) :
    ∃ calls, cmd_gline.Handle env parameters pcnt user trace = some (trace ++ calls) ∧
      ((∃ c ∈ calls, c.isAdd = true)
        ↔ (pcnt ≥ 3 ∧ env.host_matches_everyone p0 user = false)) ∧
      (pcnt ≥ 3 → env.host_matches_everyone p0 user = false →
        ∃ p1 p2 text, parameters[1]? = some p1 ∧ parameters[2]? = some p2 ∧
          calls = [GlineCall.host_matches_everyone p0 user,
            GlineCall.add_gline (env.duration p1) user.nick p2 p0,
            GlineCall.OnAddGLine (env.duration p1) user p2 p0,
            GlineCall.WriteOpers text, GlineCall.apply_lines]) ∧
      (pcnt ≥ 3 → env.host_matches_everyone p0 user = true →
        calls = [GlineCall.host_matches_everyone p0 user]) ∧
      (pcnt < 3 → env.del_gline p0 = true →
        calls = [GlineCall.del_gline p0, GlineCall.OnDelGLine user p0,
          GlineCall.WriteOpers ("*** " ++ user.nick ++ " Removed G-line on " ++ p0 ++ ".")]) ∧
      (pcnt < 3 → env.del_gline p0 = false →
        calls = [GlineCall.del_gline p0,
          GlineCall.WriteServ user.fd ("NOTICE " ++ user.nick ++ " :*** G-Line " ++ p0
            ++ " not found in list, try /stats g.")]) ∧
      ((∃ c ∈ calls, c.isHook = true)
        ↔ ((pcnt ≥ 3 ∧ env.host_matches_everyone p0 user = false)
            ∨ (pcnt < 3 ∧ env.del_gline p0 = true))) := by
  by_cases hp : pcnt ≥ 3
  · have hnlt : ¬ pcnt < 3 := by omega
    obtain ⟨a, b, c, rest, hpar⟩ : ∃ a b c rest, parameters = a :: b :: c :: rest := by
      rcases parameters with _ | ⟨a, _ | ⟨b, _ | ⟨c, rest⟩⟩⟩
      · simp at hlen; omega
      · simp at hlen; omega
      · simp at hlen; omega
      · exact ⟨a, b, c, rest, rfl⟩
    subst hpar
    have ha : a = p0 := by simpa using h0
    subst ha
    unfold cmd_gline.Handle
    rw [if_pos hp]
    simp only [List.getElem?_cons_zero, List.getElem?_cons_succ]
    cases hm : env.host_matches_everyone a user with
    | true =>
      refine ⟨[GlineCall.host_matches_everyone a user], ?_, ?_, ?_, ?_, ?_, ?_, ?_⟩
      · simp
      · simp [GlineCall.isAdd]
      · intro _ h; cases h
      · intro _ _; rfl
      · intro h; exact absurd h hnlt
      · intro h; exact absurd h hnlt
      · simp [GlineCall.isHook, hnlt]
    | false =>
      by_cases hd : env.duration b = 0
      · refine ⟨[GlineCall.host_matches_everyone a user,
            GlineCall.add_gline (env.duration b) user.nick c a,
            GlineCall.OnAddGLine (env.duration b) user c a,
            GlineCall.WriteOpers
              ("*** " ++ user.nick ++ " added permenant G-line for " ++ a ++ "."),
            GlineCall.apply_lines], ?_, ?_, ?_, ?_, ?_, ?_, ?_⟩
        · simp [hd]
        · simp [GlineCall.isAdd, hp]
        · intro _ _; exact ⟨b, c, _, rfl, rfl, rfl⟩
        · intro _ h; cases h
        · intro h; exact absurd h hnlt
        · intro h; exact absurd h hnlt
        · simp [GlineCall.isHook, hp]
      · refine ⟨[GlineCall.host_matches_everyone a user,
            GlineCall.add_gline (env.duration b) user.nick c a,
            GlineCall.OnAddGLine (env.duration b) user c a,
            GlineCall.WriteOpers
              ("*** " ++ user.nick ++ " added timed G-line for " ++ a ++ ", expires in "
                ++ toString (env.duration b) ++ " seconds."),
            GlineCall.apply_lines], ?_, ?_, ?_, ?_, ?_, ?_, ?_⟩
        · simp [hd]
        · simp [GlineCall.isAdd, hp]
        · intro _ _; exact ⟨b, c, _, rfl, rfl, rfl⟩
        · intro _ h; cases h
        · intro h; exact absurd h hnlt
        · intro h; exact absurd h hnlt
        · simp [GlineCall.isHook, hp]
  · have hlt : pcnt < 3 := by omega
    unfold cmd_gline.Handle
    rw [if_neg hp]
    simp only [h0]
    cases hdel : env.del_gline p0 with
    | true =>
      refine ⟨[GlineCall.del_gline p0, GlineCall.OnDelGLine user p0,
          GlineCall.WriteOpers ("*** " ++ user.nick ++ " Removed G-line on " ++ p0 ++ ".")],
        ?_, ?_, ?_, ?_, ?_, ?_, ?_⟩
      · simp
      · simp [GlineCall.isAdd, hp]
      · intro h; exact absurd h hp
      · intro h; exact absurd h hp
      · intro _ _; rfl
      · intro _ h; cases h
      · simp [GlineCall.isHook, hlt]
    | false =>
      refine ⟨[GlineCall.del_gline p0,
          GlineCall.WriteServ user.fd ("NOTICE " ++ user.nick ++ " :*** G-Line " ++ p0
            ++ " not found in list, try /stats g.")], ?_, ?_, ?_, ?_, ?_, ?_, ?_⟩
      · simp
      · simp [GlineCall.isAdd, hp]
      · intro h; exact absurd h hp
      · intro h; exact absurd h hp
      · intro _ h; cases h
      · intro _ _; rfl
      · simp [GlineCall.isHook, hp]

/-- Instance of C21: the operator sets a G-line on `*@bad.example` for one
hour. -/
theorem gline_Handle_witness :
    cmd_gline.Handle sampleGlineEnv ["*@bad.example", "1h", "spam"] 3 sampleOper []
      = some [GlineCall.host_matches_everyone "*@bad.example" sampleOper,
          GlineCall.add_gline 3600 "oper" "spam" "*@bad.example",
          GlineCall.OnAddGLine 3600 sampleOper "spam" "*@bad.example",
          GlineCall.WriteOpers
            "*** oper added timed G-line for *@bad.example, expires in 3600 seconds.",
          GlineCall.apply_lines] ∧
    ∃ calls, cmd_gline.Handle sampleGlineEnv ["*@bad.example", "1h", "spam"] 3 sampleOper []
        = some ([] ++ calls) ∧
      ((∃ c ∈ calls, c.isAdd = true)
        ↔ ((3 : Int) ≥ 3 ∧
          sampleGlineEnv.host_matches_everyone "*@bad.example" sampleOper = false)) :=
  ⟨by decide,
    (gline_Handle sampleGlineEnv ["*@bad.example", "1h", "spam"] 3 sampleOper []
      "*@bad.example" rfl (by decide)).imp (fun _ h => ⟨h.1, h.2.1⟩)⟩

/-! ## unregistered_count bookkeeping -/

/-- C14: in every state `s` whose `unregistered_count` is the number of users
that are not quitting and not in the state REG_ALL (users of every
registration state may be present), with fewer than 2^32 - 1 user objects:
`AddUser` on a connection that is entered adds exactly one to the counter at
acceptance, and when it returns the counter is one more than before if the
new user was not quit and the same as before if the user was refused, and one
more for a connection that passes every check; `QuitUser` on a user that is
neither quitting nor a server takes exactly one from the counter, without
wrapping below zero, when the user is not REG_ALL and leaves it unchanged when
the user is REG_ALL; and after every sequence of `AddUser`, `QuitUser` (and
`RemoveCloneCounts`) from `s`, and from the empty user manager, the counter is
again the number of users that are not quitting and not REG_ALL. -/
theorem unregistered_count_bookkeeping (casemap : Char → Char) (s : Server)
    (hinv : s.Users.unregistered_count = unregisteredUsers s.objects)
    (hb : s.objects.length + 1 < UINT_MOD) :
    (∀ a, (find (fold casemap) s.Users.uuidlist a.uuid).isSome = false →
      (∃ s', AddUser.accept casemap s a = some (s', s.objects.length) ∧
          s'.Users.unregistered_count = s.Users.unregistered_count + 1) ∧
      (∃ user, (AddUser casemap s a).objects = s.objects ++ [user] ∧
        user.registered = Registered.REG_NONE ∧
        ((user.quitting = false ∧
            (AddUser casemap s a).Users.unregistered_count
              = s.Users.unregistered_count + 1) ∨
         (user.quitting = true ∧
            (AddUser casemap s a).Users.unregistered_count
              = s.Users.unregistered_count))) ∧
      (¬ (s.Users.local_users.length + 1 > s.Config.SoftLimit
          ∨ s.Users.local_users.length + 1 ≥ s.Config.MaxFds) →
        a.CheckClass = none → a.banhit = none → a.zline = none → a.AddFd = true →
        a.OnSetUserIP = none →
        (AddUser casemap s a).Users.unregistered_count
          = s.Users.unregistered_count + 1)) ∧
    (∀ u user r o, s.objects[u]? = some user →
      user.quitting = false → IS_SERVER user = false →
      (user.registered ≠ Registered.REG_ALL →
        (QuitUser casemap s u r o).Users.unregistered_count + 1
          = s.Users.unregistered_count) ∧
      (user.registered = Registered.REG_ALL →
        (QuitUser casemap s u r o).Users.unregistered_count
          = s.Users.unregistered_count)) ∧
    (∀ ops : List Op, (ops.foldl (Op.apply casemap) s).objects.length < UINT_MOD →
      (ops.foldl (Op.apply casemap) s).Users.unregistered_count
        = unregisteredUsers (ops.foldl (Op.apply casemap) s).objects) ∧
    (∀ (cfg : ServerConfig) (ops : List Op),
      (run casemap cfg ops).objects.length < UINT_MOD →
      (run casemap cfg ops).Users.unregistered_count
        = unregisteredUsers (run casemap cfg ops).objects) := by
  have hM : UINT_MOD = UINT_MAX + 1 := by decide
  have hle := unregisteredUsers_le s.objects
  have hinc : uinc s.Users.unregistered_count = s.Users.unregistered_count + 1 := by
    unfold uinc
    rw [if_neg (by omega)]
  have hdec : udec (s.Users.unregistered_count + 1) = s.Users.unregistered_count := by
    unfold udec
    rw [if_neg (by omega)]
    omega
  refine ⟨?_, ?_, ?_, ?_⟩
  · intro a ha
    refine ⟨?_, ?_, ?_⟩
    · obtain ⟨s', h1, _, _, _, _, _, _, h8, _⟩ := accept_some casemap s a ha
      exact ⟨s', h1, by rw [h8, hinc]⟩
    · rcases AddUser_outcome casemap s a with ⟨hdup, _⟩ |
        ⟨_, user, ho, hreg, _, _, _, _, _, _, _, _, _, _, hcnt⟩
      · rw [ha] at hdup; cases hdup
      · refine ⟨user, ho, hreg, ?_⟩
        rcases hcnt with ⟨hq, hc⟩ | ⟨hq, hc⟩
        · exact Or.inl ⟨hq, by rw [hc, hinc]⟩
        · exact Or.inr ⟨hq, by rw [hc, hinc, hdec]⟩
    · intro hlim hcc hban hz hfd hip
      obtain ⟨s2, h2, p2⟩ := AddUser_reaches_bans casemap s a ha hlim hcc
      obtain ⟨s3, h3, p3⟩ := bans_clear casemap s.objects _ _ _ _ _ s2 a p2 hban (Or.inr hz)
      obtain ⟨user', _, p4⟩ := finish_pass casemap s.objects _ _ _ _ _ s3 a p3 rfl hfd hip
      rw [h2, h3, p4.2.2.2.1, hinc]
  · intro u user r o hu hq hs
    obtain ⟨_, _, _, _, _, _, q7, _⟩ := QuitUser_fields casemap s u user r o hu hq hs
    constructor
    · intro hreg
      have hpos := unregisteredUsers_pos s.objects u user hu hq hreg
      rw [q7, if_neg hreg]
      unfold udec
      rw [if_neg (by omega)]
      omega
    · intro hreg
      rw [q7, if_pos hreg]
  · intro ops hbo
    exact foldl_count casemap ops s hinv hbo
  · intro cfg ops hbo
    exact foldl_count casemap ops (Server.init cfg) rfl hbo

set_option maxRecDepth 100000 in
/-- Instance of C14 on `mixedServer`, where `alice` (object 0) is fully
registered and object 1 is not: quitting `alice` leaves the counter at 1,
quitting the other user lowers it to 0, a third connection is refused by the
soft limit and leaves it at 1, and after both users were quit it is 0, the
number of users that are neither quitting nor REG_ALL. -/
theorem unregistered_count_bookkeeping_witness :
    mixedServer.Users.unregistered_count = 1 ∧
    (QuitUser id mixedServer 0 "bye" none).Users.unregistered_count
      = mixedServer.Users.unregistered_count ∧
    (QuitUser id mixedServer 1 "bye" none).Users.unregistered_count + 1
      = mixedServer.Users.unregistered_count ∧
    (∃ user, (AddUser id mixedServer (sampleAccept "100AAAAAC")).objects
          = mixedServer.objects ++ [user] ∧
        user.registered = Registered.REG_NONE ∧
        ((user.quitting = false ∧
            (AddUser id mixedServer (sampleAccept "100AAAAAC")).Users.unregistered_count
              = mixedServer.Users.unregistered_count + 1) ∨
         (user.quitting = true ∧
            (AddUser id mixedServer (sampleAccept "100AAAAAC")).Users.unregistered_count
              = mixedServer.Users.unregistered_count))) ∧
    ([Op.QuitUser 0 "bye" none, Op.QuitUser 1 "bye" none].foldl (Op.apply id)
        mixedServer).Users.unregistered_count
      = unregisteredUsers ([Op.QuitUser 0 "bye" none, Op.QuitUser 1 "bye" none].foldl
          (Op.apply id) mixedServer).objects :=
  ⟨by decide,
   ((unregistered_count_bookkeeping id mixedServer (by decide) (by decide)).2.1
      0 alice "bye" none (by decide) (by decide) (by decide)).2 (by decide),
   ((unregistered_count_bookkeeping id mixedServer (by decide) (by decide)).2.1
      1 bob "bye" none (by decide) (by decide) (by decide)).1 (by decide),
   ((unregistered_count_bookkeeping id mixedServer (by decide) (by decide)).1
      (sampleAccept "100AAAAAC") (by decide)).2.1,
   (unregistered_count_bookkeeping id mixedServer (by decide) (by decide)).2.2.1
      [Op.QuitUser 0 "bye" none, Op.QuitUser 1 "bye" none] (by decide)⟩

end InspIRCd
